import Mathlib

/-!
PID longitudinal controller: a shallow embedding of
`control/trajectory_follower/src/pid_longitudinal_controller.cpp`.

Conventions of the embedding.

* `float64_t` (and the `float` fields of the messages) are idealised as exact rationals `ℚ`;
  rounding, NaN and infinities are outside the model.
* `rclcpp::Time` / `rclcpp::Duration` are rationals counted in seconds.
* Every call site of `node_->now()` has its own reading in the structure `Clock`, so that no
  statement silently assumes that two readings of the clock coincide.
* The member variables that hold configuration are gathered in `Params`; the remaining member
  variables are gathered in `Controller`. Functions that mutate members return the new
  `Controller` next to their result.
* `std::vector::at` throws on an index out of range; such functions return `Except Exn`.
* Logging and the diagnostic values (`m_debug_values`, `publishDebugData`,
  `updatePitchDebugValues`, `updateDebugVelAcc`) carry no control semantics and are left out.
* Collaborators whose code is not part of the sources (`findNearestIndex`, `calcStopDistance`,
  the pitch helpers, `lerpTrajectoryPoint`, `PIDController::calculate`, ...) enter as the values
  they return (`Env`) or as arbitrary functions (`Ext`).
-/

namespace PidLongitudinalController

/-! ## Data model -/

/-- Exceptions the code can raise. -/
inductive Exn where
  | out_of_range
deriving DecidableEq, Repr

/-- The control state of the longitudinal controller. -/
inductive ControlState where
  | DRIVE
  | STOPPING
  | STOPPED
  | EMERGENCY
deriving DecidableEq, Repr

/-- Modelled from the spec: the enumeration `Shift` is declared in a header that is not among
the sources; the spec lists the directions Forward, Reverse and Neutral. -/
inductive Shift where
  | Forward
  | Reverse
  | Neutral
deriving DecidableEq, Repr

/-- Velocity and acceleration (`struct Motion`). -/
structure Motion where
  vel : ℚ := 0
  acc : ℚ := 0
deriving DecidableEq, Repr

/-- Modelled from the spec: the per-cycle snapshot `ControlData` is declared in a header that is
not among the sources. Its value-initialised form (`ControlData control_data{}`) has every
number zero and the flag cleared. -/
structure ControlData where
  is_far_from_trajectory : Bool := false
  nearest_idx : Nat := 0
  current_motion : Motion := {}
  shift : Shift := Shift.Forward
  stop_dist : ℚ := 0
  slope_angle : ℚ := 0
  dt : ℚ := 0
deriving DecidableEq, Repr

/-- The fields of a trajectory point the controller reads. -/
structure TrajectoryPoint where
  longitudinal_velocity_mps : ℚ := 0
  acceleration_mps2 : ℚ := 0
deriving DecidableEq, Repr

/-- A trajectory message. -/
structure Trajectory where
  points : List TrajectoryPoint := []
deriving DecidableEq, Repr

/-- The fields of an odometry message the controller reads. -/
structure Odometry where
  stamp : ℚ := 0
  linear_x : ℚ := 0
deriving DecidableEq, Repr

/-- The message `LongitudinalCommand`. -/
structure LongitudinalCommand where
  stamp : ℚ := 0
  speed : ℚ := 0
  acceleration : ℚ := 0
deriving DecidableEq, Repr

/-- The value `run` returns when it emits a command. -/
structure LongitudinalOutput where
  control_cmd : LongitudinalCommand := {}
deriving DecidableEq, Repr

/-- Modelled from the spec: the class `PIDController` is not among the sources. Its state is the
integral accumulator; gains and limits are configuration and live inside `Ext.pid_calculate`. -/
structure PIDController where
  error_integral : ℚ := 0
deriving DecidableEq, Repr

/-- Modelled from the spec: `PIDController::reset` zeroes the integral term. -/
def PIDController.reset (_pid : PIDController) : PIDController :=
  { error_integral := 0 }

/-- Modelled from the spec: the class `LowpassFilter1d` is not among the sources. It is
constructed in the source as `LowpassFilter1d(x, gain)`. -/
structure LowpassFilter1d where
  x : ℚ := 0
  gain : ℚ := 0
deriving DecidableEq, Repr

/-- Modelled from the spec: `LowpassFilter1d::reset(x)` sets the filter value. -/
def LowpassFilter1d.reset (f : LowpassFilter1d) (x : ℚ) : LowpassFilter1d :=
  { f with x := x }

/-- Modelled from the spec: the class `SmoothStop` is not among the sources. Its state is
"initialized on entry to Stopping" with the predicted velocity and stop distance; the state is
represented by the arguments of the latest `init` call. -/
structure SmoothStop where
  init_args : Option (ℚ × ℚ) := none
deriving DecidableEq, Repr

/-- Modelled from the spec: `SmoothStop::init(pred_vel_in_target, pred_stop_dist)`. -/
def SmoothStop.init (_ss : SmoothStop) (pred_vel_in_target pred_stop_dist : ℚ) : SmoothStop :=
  { init_args := some (pred_vel_in_target, pred_stop_dist) }

/-! ## Configuration -/

/-- The member `m_state_transition_params`. -/
structure StateTransitionParams where
  drive_state_stop_dist : ℚ := 0
  drive_state_offset_stop_dist : ℚ := 0
  stopping_state_stop_dist : ℚ := 0
  stopped_state_entry_duration_time : ℚ := 0
  stopped_state_entry_vel : ℚ := 0
  stopped_state_entry_acc : ℚ := 0
  emergency_state_overshoot_stop_dist : ℚ := 0
  emergency_state_traj_trans_dev : ℚ := 0
  emergency_state_traj_rot_dev : ℚ := 0
deriving DecidableEq, Repr

/-- The members `m_stopped_state_params` and `m_emergency_state_params`. -/
structure StateParams where
  vel : ℚ := 0
  acc : ℚ := 0
  jerk : ℚ := 0
deriving DecidableEq, Repr

/-- The configuration members of the controller. -/
structure Params where
  longitudinal_ctrl_period : ℚ := 0
  delay_compensation_time : ℚ := 0
  enable_smooth_stop : Bool := false
  enable_overshoot_emergency : Bool := false
  enable_large_tracking_error_emergency : Bool := false
  enable_slope_compensation : Bool := false
  enable_keep_stopped_until_steer_convergence : Bool := false
  state_transition_params : StateTransitionParams := {}
  current_vel_threshold_pid_integrate : ℚ := 0
  enable_brake_keeping_before_stop : Bool := false
  brake_keeping_acc : ℚ := 0
  stopped_state_params : StateParams := {}
  emergency_state_params : StateParams := {}
  max_acc : ℚ := 0
  min_acc : ℚ := 0
  max_jerk : ℚ := 0
  min_jerk : ℚ := 0
  use_traj_for_pitch : Bool := false
  max_pitch_rad : ℚ := 0
  min_pitch_rad : ℚ := 0
deriving DecidableEq, Repr

/-! ## Controller state -/

/-- The mutable members of the controller. The member `lateral_sync_data_` is represented by its
field `is_steer_converged`. The default values are those of a value-initialised object; the
initial control state is set in a header that is not among the sources. -/
structure Controller where
  current_velocity_ptr : Option Odometry := none
  prev_velocity_ptr : Option Odometry := none
  trajectory_ptr : Option Trajectory := none
  control_state : ControlState := ControlState.STOPPED
  prev_control_time : Option ℚ := none
  last_running_time : Option ℚ := none
  prev_ctrl_cmd : Motion := {}
  prev_raw_ctrl_cmd : Motion := {}
  ctrl_cmd_vec : List LongitudinalCommand := []
  vel_hist : List (ℚ × ℚ) := []
  prev_shift : Shift := Shift.Forward
  pid_vel : PIDController := {}
  lpf_vel_error : LowpassFilter1d := {}
  lpf_pitch : LowpassFilter1d := {}
  lpf_acc : LowpassFilter1d := {}
  smooth_stop : SmoothStop := {}
  is_steer_converged : Bool := false
deriving DecidableEq, Repr

/-- The readings of `node_->now()` during one control cycle, one per call site. -/
structure Clock where
  /-- Reading in `getDt`, line 687: the elapsed time is measured against it. -/
  now_dt_elapsed : ℚ := 0
  /-- Reading in `getDt`, lines 685 and 688: stored as the previous control time. -/
  now_dt_store : ℚ := 0
  /-- Reading in `updateControlState`, line 494: stored as the last running time. -/
  now_running : ℚ := 0
  /-- Reading in `updateControlState`, line 498: compared with the last running time. -/
  now_stopped : ℚ := 0
  /-- Reading in `predictedVelocityInTargetPoint`, line 871. -/
  now_pred_past : ℚ := 0
  /-- Reading in `predictedVelocityInTargetPoint`, line 873, at loop iteration `i`. -/
  now_pred_loop : Nat → ℚ := fun _ => 0
  /-- Reading in `predictedVelocityInTargetPoint`, line 892. -/
  now_pred_last : ℚ := 0
  /-- Reading in `storeAccelCmd`, line 755: the stamp of the stored command. -/
  now_store_stamp : ℚ := 0
  /-- Reading in `storeAccelCmd`, line 769: the eviction test. -/
  now_store_evict : ℚ := 0
  /-- Reading in `createCtrlCmdMsg`, line 635: the stamp of the command. -/
  now_cmd_stamp : ℚ := 0
  /-- Reading in `createCtrlCmdMsg`, line 640: the stamp of the velocity history entry. -/
  now_vel_hist : ℚ := 0

/-- Functions of collaborators whose code is not among the sources. -/
structure Ext where
  /-- The function `std::sin`. -/
  sin : ℚ → ℚ
  /-- The method `LowpassFilter1d::filter`: the filtered value and the new filter. -/
  lpf_filter : LowpassFilter1d → ℚ → ℚ × LowpassFilter1d
  /-- The method `PIDController::calculate(error, dt, enable_integration, contributions)`. -/
  pid_calculate : PIDController → ℚ → ℚ → Bool → ℚ × PIDController
  /-- The method `SmoothStop::calculate(stop_dist, vel, acc, vel_hist, delay)`. -/
  smooth_stop_calculate : SmoothStop → ℚ → ℚ → ℚ → List (ℚ × ℚ) → ℚ → ℚ

/-- What the collaborators outside the sources return during one control cycle. -/
structure Env where
  clock : Clock := {}
  /-- Result of `m_tf_buffer.canTransform`. -/
  can_transform : Bool := true
  /-- Result of `motion_common::findNearestIndex` for the current pose. -/
  nearest_idx_opt : Option Nat := none
  /-- Result of `longitudinal_utils::calcStopDistance`. -/
  stop_dist : ℚ := 0
  /-- Result of `longitudinal_utils::getPitchByPose`. -/
  raw_pitch : ℚ := 0
  /-- Result of `longitudinal_utils::getPitchByTraj`. -/
  traj_pitch : ℚ := 0
  /-- Result of `motion_common::searchZeroVelocityIndex`. -/
  stop_idx : Option Nat := none
  /-- Result of `calcSignedArcLength(traj.points, pose.position, 0)` at the target pose. -/
  arc_length_from_front : ℚ := 0
  /-- Result of `calcSignedArcLength(traj.points, pose.position, size - 1)` at the target pose. -/
  arc_length_from_back : ℚ := 0
  /-- Result of `longitudinal_utils::lerpTrajectoryPoint` at the target pose. -/
  lerp_point : TrajectoryPoint := {}

/-! ## Filters -/

/-- Modelled from the spec: `motion_common::clamp(val, min, max)`, the acceleration clamp, is not
among the sources. -/
def clamp (val lo hi : ℚ) : ℚ :=
  min (max val lo) hi

/-- Modelled from the spec: `longitudinal_utils::applyDiffLimitFilter(input_val, prev_val, dt,
max_val, min_val)` is not among the sources. It is the jerk-rate limit: the rate of change from
`prev_val` towards `input_val` is bounded by `[min_val, max_val]`. -/
def applyDiffLimitFilter (input_val prev_val dt max_val min_val : ℚ) : ℚ :=
  prev_val + min (max ((input_val - prev_val) / dt) min_val) max_val * dt

/-- Modelled from the spec: the overload `applyDiffLimitFilter(input_val, prev_val, dt, lim_val)`
bounds the rate of change by a single limit, `[-|lim_val|, |lim_val|]`. -/
def applyDiffLimitFilterSym (input_val prev_val dt lim_val : ℚ) : ℚ :=
  applyDiffLimitFilter input_val prev_val dt |lim_val| (-|lim_val|)

/-- The function `std::copysign(x, y)`: the magnitude of `x` with the sign of `y`. -/
def copysign (x y : ℚ) : ℚ :=
  if y < 0 then -|x| else |x|

/-! ## Delay predictor -/

/-- The sign fix at the three exits of `predictedVelocityInTargetPoint`:
`pred_vel > 0 ? std::copysign(pred_vel, current_vel) : 0.0`. -/
def signFix (pred_vel current_vel : ℚ) : ℚ :=
  if pred_vel > 0 then copysign pred_vel current_vel else 0

/-- The loop of `predictedVelocityInTargetPoint` from iteration `i ≥ 1` on: `prev` is the entry
`m_ctrl_cmd_vec.at(i - 1)`, the list holds the entries from index `i`. -/
def predLoop (p : Params) (clk : Clock) (past_delay_time : ℚ) :
    LongitudinalCommand → Nat → List LongitudinalCommand → ℚ → ℚ
  | _, _, [], pred_vel => pred_vel
  | prev, i, c :: rest, pred_vel =>
    if clk.now_pred_loop i - c.stamp < p.delay_compensation_time then
      let acc := prev.acceleration
      let time_to_next_acc := min (c.stamp - prev.stamp) (c.stamp - past_delay_time)
      predLoop p clk past_delay_time c (i + 1) rest (pred_vel + acc * time_to_next_acc)
    else
      predLoop p clk past_delay_time c (i + 1) rest pred_vel

/-- The magnitude `pred_vel` that `predictedVelocityInTargetPoint` has computed when it reaches
line 896, for the history `c0 :: rest` whose first entry is not younger than the delay. -/
def predVelMagnitude (p : Params) (clk : Clock) (current_motion : Motion)
    (delay_compensation_time : ℚ) (c0 : LongitudinalCommand)
    (rest : List LongitudinalCommand) : ℚ :=
  let past_delay_time := clk.now_pred_past - delay_compensation_time
  let pred_vel := predLoop p clk past_delay_time c0 1 rest |current_motion.vel|
  let last := (c0 :: rest).getLast (List.cons_ne_nil c0 rest)
  pred_vel + last.acceleration * (clk.now_pred_last - last.stamp)

/-- The method `predictedVelocityInTargetPoint`. -/
def predictedVelocityInTargetPoint (p : Params) (clk : Clock) (s : Controller)
    (current_motion : Motion) (delay_compensation_time : ℚ) : ℚ :=
  let current_vel := current_motion.vel
  let current_acc := current_motion.acc
  if |current_vel| < 1 / 10 then
    current_vel
  else
    let current_vel_abs := |current_vel|
    match s.ctrl_cmd_vec with
    | [] =>
      let pred_vel := current_vel + current_acc * delay_compensation_time
      signFix pred_vel current_vel
    | c0 :: rest =>
      if clk.now_pred_loop 0 - c0.stamp < p.delay_compensation_time then
        let pred_vel := current_vel_abs + c0.acceleration * delay_compensation_time
        signFix pred_vel current_vel
      else
        signFix (predVelMagnitude p clk current_motion delay_compensation_time c0 rest)
          current_vel

/-! ## Control-state machine -/

/-- The test of line 492: the vehicle is observed moving. -/
def isRunning (p : Params) (control_data : ControlData) : Bool :=
  decide (|control_data.current_motion.vel| > p.state_transition_params.stopped_state_entry_vel) ||
  decide (|control_data.current_motion.acc| > p.state_transition_params.stopped_state_entry_acc)

/-- The member `m_last_running_time` after lines 491-495 of `updateControlState`. -/
def updateLastRunningTime (p : Params) (clk : Clock) (s : Controller)
    (control_data : ControlData) : Option ℚ :=
  if isRunning p control_data then some clk.now_running else s.last_running_time

/-- The flag `stopped_condition` of `updateControlState` (lines 496-499), computed from the
value of `m_last_running_time` at that point. -/
def stoppedCondition (p : Params) (clk : Clock) (last_running_time : Option ℚ) : Bool :=
  match last_running_time with
  | some t =>
    decide (clk.now_stopped - t > p.state_transition_params.stopped_state_entry_duration_time)
  | none => false

/-- The flag `emergency_condition` of `updateControlState` (lines 501-502). -/
def emergencyCondition (p : Params) (control_data : ControlData) : Bool :=
  p.enable_overshoot_emergency &&
  decide (control_data.stop_dist < -p.state_transition_params.emergency_state_overshoot_stop_dist)

/-- The effect of the departure branches (lines 536-539 and 545-548): PID reset, velocity-error
filter reset and clamp of the last published acceleration. -/
def departToDrive (s : Controller) : Controller :=
  { s with
    pid_vel := s.pid_vel.reset
    lpf_vel_error := s.lpf_vel_error.reset 0
    prev_ctrl_cmd := { s.prev_ctrl_cmd with acc := max 0 s.prev_ctrl_cmd.acc } }

/-- The method `updateControlState`: the next control state and the controller after the call. -/
def updateControlState (p : Params) (clk : Clock) (s : Controller)
    (current_control_state : ControlState) (control_data : ControlData) :
    ControlState × Controller :=
  let current_vel := control_data.current_motion.vel
  let stop_dist := control_data.stop_dist
  let tp := p.state_transition_params
  let departure_condition_from_stopping : Bool :=
    decide (stop_dist > tp.drive_state_stop_dist + tp.drive_state_offset_stop_dist)
  let departure_condition_from_stopped : Bool := decide (stop_dist > tp.drive_state_stop_dist)
  let keep_stopped_condition : Bool :=
    p.enable_keep_stopped_until_steer_convergence && !s.is_steer_converged
  let stopping_condition : Bool := decide (stop_dist < tp.stopping_state_stop_dist)
  let s1 : Controller := { s with last_running_time := updateLastRunningTime p clk s control_data }
  let stopped_condition : Bool := stoppedCondition p clk s1.last_running_time
  let emergency_condition : Bool := emergencyCondition p control_data
  if current_control_state = ControlState.DRIVE then
    if emergency_condition then
      (ControlState.EMERGENCY, s1)
    else if p.enable_smooth_stop then
      if stopping_condition then
        let pred_vel_in_target :=
          predictedVelocityInTargetPoint p clk s1 control_data.current_motion
            p.delay_compensation_time
        let pred_stop_dist :=
          control_data.stop_dist -
            (1 / 2) * (pred_vel_in_target + current_vel) * p.delay_compensation_time
        (ControlState.STOPPING,
          { s1 with smooth_stop := s1.smooth_stop.init pred_vel_in_target pred_stop_dist })
      else
        (current_control_state, s1)
    else if stopped_condition && !departure_condition_from_stopped then
      (ControlState.STOPPED, s1)
    else
      (current_control_state, s1)
  else if current_control_state = ControlState.STOPPING then
    if emergency_condition then
      (ControlState.EMERGENCY, s1)
    else if stopped_condition then
      (ControlState.STOPPED, s1)
    else if departure_condition_from_stopping then
      (ControlState.DRIVE, departToDrive s1)
    else
      (current_control_state, s1)
  else if current_control_state = ControlState.STOPPED then
    if keep_stopped_condition then
      (ControlState.STOPPED, s1)
    else if departure_condition_from_stopped then
      (ControlState.DRIVE, departToDrive s1)
    else
      (current_control_state, s1)
  else if s1.control_state = ControlState.EMERGENCY then
    if stopped_condition && !emergency_condition then
      (ControlState.STOPPED, s1)
    else
      (current_control_state, s1)
  else
    (current_control_state, s1)

/-! ## Control data -/

/-- The method `getDt`: the clamped cycle time and the controller after the call. -/
def getDt (p : Params) (clk : Clock) (s : Controller) : ℚ × Controller :=
  let dt : ℚ :=
    match s.prev_control_time with
    | none => p.longitudinal_ctrl_period
    | some t => clk.now_dt_elapsed - t
  let max_dt := p.longitudinal_ctrl_period * 2
  let min_dt := p.longitudinal_ctrl_period * (1 / 2)
  (max (min dt max_dt) min_dt, { s with prev_control_time := some clk.now_dt_store })

/-- The method `getCurrentMotion`; `cur` and `prev` are `*m_current_velocity_ptr` and
`*m_prev_velocity_ptr`. The filter `m_lpf_acc` is advanced by the call. -/
def getCurrentMotion (ext : Ext) (cur prev : Odometry) (s : Controller) : Motion × Controller :=
  let dv := cur.linear_x - prev.linear_x
  let dt := max (cur.stamp - prev.stamp) (1 / 1000)
  let accel := dv / dt
  let current_vel := cur.linear_x
  let r := ext.lpf_filter s.lpf_acc accel
  ({ vel := current_vel, acc := r.1 }, { s with lpf_acc := r.2 })

/-- The method `getCurrentShift`; `traj` is `*m_trajectory_ptr`. -/
def getCurrentShift (traj : Trajectory) (s : Controller) (nearest_idx : Nat) :
    Except Exn Shift :=
  match traj.points[nearest_idx]? with
  | none => throw Exn.out_of_range
  | some pt =>
    let target_vel := pt.longitudinal_velocity_mps
    if target_vel > 1 / 100000 then
      pure Shift.Forward
    else if target_vel < -(1 / 100000) then
      pure Shift.Reverse
    else
      pure s.prev_shift

/-- The method `getControlData`; `cur`, `prev` and `traj` are the values the three pointer
members hold. -/
def getControlData (p : Params) (ext : Ext) (env : Env) (cur prev : Odometry)
    (traj : Trajectory) (s : Controller) : Except Exn (ControlData × Controller) :=
  let control_data : ControlData := {}
  let r_dt := getDt p env.clock s
  let control_data := { control_data with dt := r_dt.1 }
  let r_motion := getCurrentMotion ext cur prev r_dt.2
  let control_data := { control_data with current_motion := r_motion.1 }
  let s2 := r_motion.2
  match env.nearest_idx_opt with
  | none => pure ({ control_data with is_far_from_trajectory := true }, s2)
  | some nearest_idx => do
    let control_data := { control_data with nearest_idx := nearest_idx }
    let shift ← getCurrentShift traj s2 control_data.nearest_idx
    let control_data := { control_data with shift := shift }
    let s3 : Controller :=
      if control_data.shift ≠ s2.prev_shift then { s2 with pid_vel := s2.pid_vel.reset } else s2
    let s4 : Controller := { s3 with prev_shift := control_data.shift }
    let control_data := { control_data with stop_dist := env.stop_dist }
    let raw_pitch := env.raw_pitch
    let traj_pitch := env.traj_pitch
    if p.use_traj_for_pitch then
      pure ({ control_data with slope_angle := traj_pitch }, s4)
    else
      let r := ext.lpf_filter s4.lpf_pitch raw_pitch
      pure ({ control_data with slope_angle := r.1 }, { s4 with lpf_pitch := r.2 })

/-! ## Command generation and shaping -/

/-- The method `calcEmergencyCtrlCmd`. -/
def calcEmergencyCtrlCmd (p : Params) (s : Controller) (dt : ℚ) : Motion :=
  let ep := p.emergency_state_params
  let vel := applyDiffLimitFilterSym ep.vel s.prev_raw_ctrl_cmd.vel dt ep.acc
  let acc := applyDiffLimitFilterSym ep.acc s.prev_raw_ctrl_cmd.acc dt ep.jerk
  { vel := vel, acc := acc }

/-- The method `storeAccelCmd`. -/
def storeAccelCmd (p : Params) (clk : Clock) (s : Controller) (accel : ℚ) : Controller :=
  let vec : List LongitudinalCommand :=
    if s.control_state = ControlState.DRIVE then
      s.ctrl_cmd_vec ++ [{ stamp := clk.now_store_stamp, acceleration := accel }]
    else
      []
  if vec.length ≤ 2 then
    { s with ctrl_cmd_vec := vec }
  else
    match vec with
    | c0 :: c1 :: rest =>
      if clk.now_store_evict - c1.stamp > p.delay_compensation_time then
        { s with ctrl_cmd_vec := c1 :: rest }
      else
        { s with ctrl_cmd_vec := c0 :: c1 :: rest }
    | _ => { s with ctrl_cmd_vec := vec }

/-- The method `applySlopeCompensation`. -/
def applySlopeCompensation (p : Params) (ext : Ext) (input_acc pitch : ℚ) (shift : Shift) : ℚ :=
  if !p.enable_slope_compensation then
    input_acc
  else
    let pitch_limited := min (max pitch p.min_pitch_rad) p.max_pitch_rad
    let sign : ℚ :=
      if shift = Shift.Forward then -1 else if shift = Shift.Reverse then 1 else 0
    input_acc + sign * (981 / 100) * ext.sin pitch_limited

/-- The method `calcFilteredAcc`: the shaped acceleration and the controller after the call. -/
def calcFilteredAcc (p : Params) (ext : Ext) (clk : Clock) (s : Controller) (raw_acc : ℚ)
    (control_data : ControlData) : ℚ × Controller :=
  let acc_max_filtered := clamp raw_acc p.min_acc p.max_acc
  let s1 := storeAccelCmd p clk s acc_max_filtered
  let acc_slope_filtered :=
    applySlopeCompensation p ext acc_max_filtered control_data.slope_angle control_data.shift
  let acc_jerk_filtered :=
    applyDiffLimitFilter acc_slope_filtered s1.prev_ctrl_cmd.acc control_data.dt
      p.max_jerk p.min_jerk
  (acc_jerk_filtered, s1)

/-- The loop of `keepBrakeBeforeStop` after its first iteration: `n` is the number of indices
still to visit (the next index is `n - 1`), `min_acc_before_stop` and `min_acc_idx` are the
running values. -/
def scanBack (pts : List TrajectoryPoint) : Nat → ℚ → Nat → Except Exn (ℚ × Nat)
  | 0, min_acc_before_stop, min_acc_idx => pure (min_acc_before_stop, min_acc_idx)
  | i + 1, min_acc_before_stop, min_acc_idx =>
    match pts[i]? with
    | none => throw Exn.out_of_range
    | some pt =>
      if pt.acceleration_mps2 > min_acc_before_stop then
        pure (min_acc_before_stop, min_acc_idx)
      else
        scanBack pts i pt.acceleration_mps2 i

/-- The method `keepBrakeBeforeStop`. The first iteration of the loop compares with the largest
floating-point value and therefore never breaks. -/
def keepBrakeBeforeStop (p : Params) (env : Env) (traj : Trajectory) (target_motion : Motion)
    (nearest_idx : Nat) : Except Exn Motion :=
  let output_motion := target_motion
  if p.enable_brake_keeping_before_stop = false then
    pure output_motion
  else
    match env.stop_idx with
    | none => pure output_motion
    | some stop_idx =>
      match traj.points[stop_idx]? with
      | none => throw Exn.out_of_range
      | some pt => do
        let r ← scanBack traj.points stop_idx pt.acceleration_mps2 stop_idx
        let min_acc_before_stop := r.1
        let min_acc_idx := r.2
        let brake_keeping_acc := max p.brake_keeping_acc min_acc_before_stop
        if nearest_idx ≥ min_acc_idx ∧ target_motion.acc > brake_keeping_acc then
          pure { output_motion with acc := brake_keeping_acc }
        else
          pure output_motion

/-- The element access `points.at(i)`. -/
def pointAt (pts : List TrajectoryPoint) (i : Nat) : Except Exn TrajectoryPoint :=
  match pts[i]? with
  | none => throw Exn.out_of_range
  | some pt => pure pt

/-- The method `calcInterpolatedTargetValue` at the target pose of the cycle. The expression
`traj.points.size() - 1` is evaluated in 64-bit unsigned arithmetic. -/
def calcInterpolatedTargetValue (env : Env) (traj : Trajectory) (nearest_idx : Nat) :
    Except Exn TrajectoryPoint :=
  let size := traj.points.length
  let size_minus_one := (size + (2 ^ 64 - 1)) % 2 ^ 64
  if size = 1 then
    pointAt traj.points 0
  else if nearest_idx = 0 ∧ env.arc_length_from_front > 0 then
    pointAt traj.points 0
  else if nearest_idx = size_minus_one ∧ env.arc_length_from_back < 0 then
    pointAt traj.points size_minus_one
  else
    pure env.lerp_point

/-- The method `applyVelocityFeedback`: the feedback acceleration and the controller after the
call (velocity-error filter and PID advanced). -/
def applyVelocityFeedback (p : Params) (ext : Ext) (s : Controller) (target_motion : Motion)
    (dt current_vel : ℚ) : ℚ × Controller :=
  let current_vel_abs := |current_vel|
  let target_vel_abs := |target_motion.vel|
  let enable_integration : Bool := decide (current_vel_abs > p.current_vel_threshold_pid_integrate)
  let r_lpf := ext.lpf_filter s.lpf_vel_error (target_vel_abs - current_vel_abs)
  let error_vel_filtered := r_lpf.1
  let r_pid := ext.pid_calculate s.pid_vel error_vel_filtered dt enable_integration
  let pid_acc := r_pid.1
  let feedback_acc := target_motion.acc + pid_acc
  (feedback_acc, { s with lpf_vel_error := r_lpf.2, pid_vel := r_pid.2 })

/-- The per-state raw command of `calcCtrlCmd` (lines 569-614) and the controller after it;
`traj` is `*m_trajectory_ptr`. -/
def calcRawCtrlCmd (p : Params) (ext : Ext) (env : Env) (traj : Trajectory) (s : Controller)
    (current_control_state : ControlState) (control_data : ControlData) :
    Except Exn (Motion × Controller) :=
  let nearest_idx := control_data.nearest_idx
  let current_vel := control_data.current_motion.vel
  let current_acc := control_data.current_motion.acc
  if current_control_state = ControlState.DRIVE then do
    let target_interpolated_point ← calcInterpolatedTargetValue env traj nearest_idx
    let target_motion : Motion :=
      { vel := target_interpolated_point.longitudinal_velocity_mps
        acc := target_interpolated_point.acceleration_mps2 }
    let target_motion ← keepBrakeBeforeStop p env traj target_motion nearest_idx
    let pred_vel_in_target :=
      predictedVelocityInTargetPoint p env.clock s control_data.current_motion
        p.delay_compensation_time
    let r := applyVelocityFeedback p ext s target_motion control_data.dt pred_vel_in_target
    pure ({ vel := target_motion.vel, acc := r.1 }, r.2)
  else if current_control_state = ControlState.STOPPING then
    let acc :=
      ext.smooth_stop_calculate s.smooth_stop control_data.stop_dist current_vel current_acc
        s.vel_hist p.delay_compensation_time
    pure ({ vel := p.stopped_state_params.vel, acc := acc }, s)
  else if current_control_state = ControlState.STOPPED then
    let sp := p.stopped_state_params
    let acc := applyDiffLimitFilterSym sp.acc s.prev_raw_ctrl_cmd.acc control_data.dt sp.jerk
    pure ({ vel := sp.vel, acc := acc }, s)
  else
    pure (calcEmergencyCtrlCmd p s control_data.dt, s)

/-- The method `calcCtrlCmd`: the shaped command and the controller after the call. -/
def calcCtrlCmd (p : Params) (ext : Ext) (env : Env) (traj : Trajectory) (s : Controller)
    (current_control_state : ControlState) (control_data : ControlData) :
    Except Exn (Motion × Controller) := do
  let r ← calcRawCtrlCmd p ext env traj s current_control_state control_data
  let raw_ctrl_cmd := r.1
  let s1 : Controller := { r.2 with prev_raw_ctrl_cmd := raw_ctrl_cmd }
  let f := calcFilteredAcc p ext env.clock s1 raw_ctrl_cmd.acc control_data
  let filtered_ctrl_cmd : Motion := { vel := raw_ctrl_cmd.vel, acc := f.1 }
  pure (filtered_ctrl_cmd, f.2)

/-- The method `createCtrlCmdMsg`: the message and the controller after the call. The bound of
the velocity history is `static_cast<size_t>(0.5 / m_longitudinal_ctrl_period)`. -/
def createCtrlCmdMsg (p : Params) (clk : Clock) (s : Controller) (ctrl_cmd : Motion)
    (current_vel : ℚ) : LongitudinalCommand × Controller :=
  let cmd : LongitudinalCommand :=
    { stamp := clk.now_cmd_stamp, speed := ctrl_cmd.vel, acceleration := ctrl_cmd.acc }
  let hist := s.vel_hist ++ [(clk.now_vel_hist, current_vel)]
  let cap : Nat := Int.toNat ⌊(1 / 2 : ℚ) / p.longitudinal_ctrl_period⌋
  let hist := hist.drop (hist.length - cap)
  (cmd, { s with vel_hist := hist, prev_ctrl_cmd := ctrl_cmd })

/-- The method `run`: the emitted output (if any) and the controller after the cycle. -/
def run (p : Params) (ext : Ext) (env : Env) (s : Controller) :
    Except Exn (Option LongitudinalOutput × Controller) :=
  match s.current_velocity_ptr, s.prev_velocity_ptr, s.trajectory_ptr with
  | some cur, some prev, some traj =>
    if !env.can_transform then
      pure (none, s)
    else do
      let r ← getControlData p ext env cur prev traj s
      let control_data := r.1
      let s1 := r.2
      if control_data.is_far_from_trajectory then
        let s2 : Controller :=
          if p.enable_large_tracking_error_emergency then
            { s1 with control_state := ControlState.EMERGENCY }
          else s1
        let raw_ctrl_cmd := calcEmergencyCtrlCmd p s2 control_data.dt
        let s3 : Controller := { s2 with prev_raw_ctrl_cmd := raw_ctrl_cmd }
        let m := createCtrlCmdMsg p env.clock s3 raw_ctrl_cmd control_data.current_motion.vel
        pure (some { control_cmd := m.1 }, m.2)
      else do
        let u := updateControlState p env.clock s1 s1.control_state control_data
        let s2 : Controller := { u.2 with control_state := u.1 }
        let c ← calcCtrlCmd p ext env traj s2 s2.control_state control_data
        let m := createCtrlCmdMsg p env.clock c.2 c.1 control_data.current_motion.vel
        pure (some { control_cmd := m.1 }, m.2)
  | _, _, _ => pure (none, s)

/-! ## Sample inputs

Concrete configurations, collaborators and controller states on which the definitions above are
evaluated. -/

deriving instance DecidableEq for Except

/-- A sample instance of the collaborators: the sine is replaced by its Taylor polynomial of
degree three, the low-pass filter is the first-order filter `gain * x + (1 - gain) * u`, the PID
is purely proportional with unit gain and the smooth-stop profile commands zero. -/
def sampleExt : Ext :=
  { sin := fun x => x - x ^ 3 / 6
    lpf_filter := fun f u =>
      (f.gain * f.x + (1 - f.gain) * u, { f with x := f.gain * f.x + (1 - f.gain) * u })
    pid_calculate := fun pid error _ _ => (error, pid)
    smooth_stop_calculate := fun _ _ _ _ _ _ => 0 }

/-- A sample configuration: control period 0.1 s, acceleration limits [-5, 3], jerk limits
[-5, 2], stopped setpoint (0, -3.4, 5), emergency setpoint (0, -5, 3), slope compensation
enabled with the pitch taken from the trajectory and bounded by 0.1 rad. -/
def sampleParams : Params :=
  { longitudinal_ctrl_period := 1 / 10
    delay_compensation_time := 1 / 10
    enable_slope_compensation := true
    state_transition_params :=
      { drive_state_stop_dist := 1 / 2
        drive_state_offset_stop_dist := 1
        stopping_state_stop_dist := 1 / 2
        stopped_state_entry_duration_time := 1 / 10
        stopped_state_entry_vel := 1 / 100
        stopped_state_entry_acc := 1 / 10
        emergency_state_overshoot_stop_dist := 3 / 2
        emergency_state_traj_trans_dev := 3
        emergency_state_traj_rot_dev := 7 / 10 }
    stopped_state_params := { vel := 0, acc := -(17 / 5), jerk := -5 }
    emergency_state_params := { vel := 0, acc := -5, jerk := -3 }
    max_acc := 3
    min_acc := -5
    max_jerk := 2
    min_jerk := -5
    use_traj_for_pitch := true
    max_pitch_rad := 1 / 10
    min_pitch_rad := -(1 / 10) }

/-- The sample configuration with slope compensation switched off. -/
def flatParams : Params :=
  { sampleParams with enable_slope_compensation := false }

/-- A configuration whose emergency deceleration (-5) is stronger than the acceleration limit
`min_acc` (-3), with an emergency jerk of 50. -/
def strongEmergencyParams : Params :=
  { sampleParams with
    min_acc := -3
    emergency_state_params := { vel := 0, acc := -5, jerk := -50 } }

/-- A controller that has received two odometry samples of a vehicle at rest and a two-point
trajectory with target velocity 1 m/s, and has not run a cycle yet. -/
def freshController : Controller :=
  { current_velocity_ptr := some { stamp := 1 / 10, linear_x := 0 }
    prev_velocity_ptr := some { stamp := 0, linear_x := 0 }
    trajectory_ptr :=
      some { points := [{ longitudinal_velocity_mps := 1 }, { longitudinal_velocity_mps := 1 }] }
    control_state := ControlState.STOPPED
    lpf_acc := { x := 0, gain := 1 / 5 } }

/-- The controller `freshController` in the middle of an emergency stop: state Emergency, the
previous raw and published accelerations both at -5. -/
def emergencyBrakingController : Controller :=
  { freshController with
    control_state := ControlState.EMERGENCY
    prev_control_time := some 0
    prev_ctrl_cmd := { vel := 0, acc := -5 }
    prev_raw_ctrl_cmd := { vel := 0, acc := -5 } }

/-- A cycle in which no nearest trajectory index is found. -/
def envFar : Env :=
  { nearest_idx_opt := none }

/-- A cycle on the trajectory, at its first point, on a downhill slope of 0.1 rad. -/
def envDownhill : Env :=
  { nearest_idx_opt := some 0, traj_pitch := -(1 / 10) }

/-- A cycle on the trajectory, at its first point, on an uphill slope of 0.1 rad, 0.1 s after
the previous cycle. -/
def envUphill : Env :=
  { nearest_idx_opt := some 0, traj_pitch := 1 / 10
    clock := { now_dt_elapsed := 1 / 10, now_dt_store := 1 / 10 } }

/-- The cycle `envDownhill` repeated 0.1 s later. -/
def envDownhillNext : Env :=
  { envDownhill with clock := { now_dt_elapsed := 1 / 10, now_dt_store := 1 / 10 } }

/-- The cycle `envFar` 0.1 s after the previous cycle. -/
def envFarNext : Env :=
  { envFar with clock := { now_dt_elapsed := 1 / 10, now_dt_store := 1 / 10 } }

/-- The controller after the cycle `envFar` run on `freshController` under
`strongEmergencyParams`. -/
def afterFarStrong : Controller :=
  { freshController with
    prev_control_time := some 0
    prev_ctrl_cmd := { vel := 0, acc := -5 }
    prev_raw_ctrl_cmd := { vel := 0, acc := -5 }
    vel_hist := [(0, 0)] }

/-- The controller after the cycle `envUphill` run on `emergencyBrakingController` under
`sampleParams`. -/
def afterUphill : Controller :=
  { emergencyBrakingController with
    prev_control_time := some (1 / 10)
    prev_ctrl_cmd := { vel := 0, acc := -(11 / 2) }
    prev_raw_ctrl_cmd := { vel := 0, acc := -5 }
    vel_hist := [(0, 0)] }

/-- The controller after the cycle `envDownhill` run on `freshController` under
`sampleParams`. -/
def afterDownhill : Controller :=
  { freshController with
    prev_control_time := some 0
    prev_ctrl_cmd := { vel := 0, acc := 1 / 5 }
    prev_raw_ctrl_cmd := { vel := 0, acc := -(1 / 2) }
    vel_hist := [(0, 0)] }

/-- The controller after the cycle `envFarNext` run on `afterDownhill` under `sampleParams`. -/
def afterDownhillFar : Controller :=
  { afterDownhill with
    prev_control_time := some (1 / 10)
    prev_ctrl_cmd := { vel := 0, acc := -(4 / 5) }
    prev_raw_ctrl_cmd := { vel := 0, acc := -(4 / 5) }
    vel_hist := [(0, 0), (0, 0)] }

/-- The controller after the cycle `envDownhillNext` run on `afterDownhill` under
`sampleParams`. -/
def afterDownhillTwice : Controller :=
  { afterDownhill with
    prev_control_time := some (1 / 10)
    prev_ctrl_cmd := { vel := 0, acc := -(4127 / 200000) }
    prev_raw_ctrl_cmd := { vel := 0, acc := -1 }
    vel_hist := [(0, 0), (0, 0)] }

/-- The controller after the cycle `envDownhill` run on `freshController` under `flatParams`. -/
def afterFlat : Controller :=
  { freshController with
    prev_control_time := some 0
    prev_ctrl_cmd := { vel := 0, acc := -(1 / 2) }
    prev_raw_ctrl_cmd := { vel := 0, acc := -(1 / 2) }
    vel_hist := [(0, 0)] }

/-- An emitted output with the given acceleration, zero speed and zero stamp. -/
def outputWithAcc (a : ℚ) : LongitudinalOutput :=
  { control_cmd := { stamp := 0, speed := 0, acceleration := a } }

/-- The configuration of the stop-point scenario: smooth stop enabled, stopping threshold
5 m. -/
def scenarioParams : Params :=
  { sampleParams with
    enable_smooth_stop := true
    state_transition_params :=
      { sampleParams.state_transition_params with stopping_state_stop_dist := 5 } }

/-- The control data of the stop-point scenario: velocity 3 m/s, stop point 10 m ahead. -/
def scenarioData : ControlData :=
  { current_motion := { vel := 3, acc := 0 }, stop_dist := 10 }

/-- A configuration that keeps the vehicle stopped until the steering has converged. -/
def keepStoppedParams : Params :=
  { sampleParams with enable_keep_stopped_until_steer_convergence := true }

/-- Control data of a vehicle at rest one metre before its stop point. -/
def departData : ControlData :=
  { stop_dist := 1 }

/-- A stopped controller whose last published acceleration is -1. -/
def brakedController : Controller :=
  { control_state := ControlState.STOPPED, prev_ctrl_cmd := { vel := 0, acc := -1 } }

/-- The controller `brakedController` with the steering reported converged. -/
def brakedConvergedController : Controller :=
  { brakedController with is_steer_converged := true }

/-- A controller in state Emergency. -/
def emergencyController : Controller :=
  { control_state := ControlState.EMERGENCY }

/-! ## Zero-order-hold integral of the command history

The description of the delay predictor in the words of the specification, to be compared with
`predVelMagnitude`. -/

/-- The length of the intersection of the intervals `[lo, hi]` and `[a, b]`. -/
def overlapLength (lo hi a b : ℚ) : ℚ :=
  max 0 (min hi b - max lo a)

/-- The sum over the history entries `(t_i, a_i)` of `a_i` times the length of
`[t_i, t_{i+1}]` intersected with `[now - D, now]`, where the entry after the last one is
taken at `t_{n+1} = now`. -/
def zohIntegral (now D : ℚ) : List LongitudinalCommand → ℚ
  | [] => 0
  | [c] => c.acceleration * overlapLength c.stamp now (now - D) now
  | c :: c' :: rest =>
    c.acceleration * overlapLength c.stamp c'.stamp (now - D) now +
      zohIntegral now D (c' :: rest)

/-- The sum of the time weights of `zohIntegral`. -/
def zohWeight (now D : ℚ) : List LongitudinalCommand → ℚ
  | [] => 0
  | [c] => overlapLength c.stamp now (now - D) now
  | c :: c' :: rest =>
    overlapLength c.stamp c'.stamp (now - D) now + zohWeight now D (c' :: rest)

/-- A clock all of whose readings in the delay predictor are `now`. -/
def predClockAt (now : ℚ) : Clock :=
  { now_pred_past := now, now_pred_loop := fun _ => now, now_pred_last := now }

/-- A command history of three entries, stamped 0, 0.05 and 0.12, with accelerations 1, 2
and -1. -/
def sampleHistory : List LongitudinalCommand :=
  [{ stamp := 0, acceleration := 1 }, { stamp := 1 / 20, acceleration := 2 },
   { stamp := 3 / 25, acceleration := -1 }]

/-- A controller in state Drive whose command history is `sampleHistory`. -/
def historyController : Controller :=
  { control_state := ControlState.DRIVE, ctrl_cmd_vec := sampleHistory }

/-- The sample configuration with the large-tracking-error emergency enabled (the overshoot
emergency stays disabled). -/
def trackingEmergencyParams : Params :=
  { sampleParams with enable_large_tracking_error_emergency := true }

/-- The configuration of the stopped scenario: stopped acceleration -1, stopped jerk 0.5. -/
def stoppedScenarioParams : Params :=
  { sampleParams with stopped_state_params := { vel := 0, acc := -1, jerk := 1 / 2 } }

/-- Control data with a cycle time of 0.1 s. -/
def tenthSecondData : ControlData :=
  { dt := 1 / 10 }

/-! ## Input setters -/

/-- The method `setCurrentVelocity`; a null message is `none`. -/
def setCurrentVelocity (msg : Option Odometry) (s : Controller) : Controller :=
  match msg with
  | none => s
  | some m =>
    let s1 : Controller :=
      match s.current_velocity_ptr with
      | some _ => { s with prev_velocity_ptr := s.current_velocity_ptr }
      | none => s
    { s1 with current_velocity_ptr := some m }

/-- The method `setTrajectory`; a null message is `none`. The function
`longitudinal_utils::isValidTrajectory` is not among the sources and enters as a parameter. -/
def setTrajectory (isValidTrajectory : Trajectory → Bool) (msg : Option Trajectory)
    (s : Controller) : Controller :=
  match msg with
  | none => s
  | some m =>
    if !isValidTrajectory m then
      s
    else if m.points.length < 2 then
      s
    else
      { s with trajectory_ptr := some m }

/-- A sequence of `storeAccelCmd` calls: each call comes with the clock of its cycle, the
control state the controller is in at that moment and the acceleration to store. Between two
calls no other method touches the command history. -/
def storeAccelCmdCalls (p : Params) :
    List (Clock × ControlState × ℚ) → Controller → Controller
  | [], s => s
  | (clk, st, accel) :: rest, s =>
    storeAccelCmdCalls p rest (storeAccelCmd p clk { s with control_state := st } accel)

/-! ## Sample inputs for the command history and brake keeping -/

/-- The sample configuration with brake keeping enabled and a brake-keeping acceleration of
-0.2. -/
def brakeKeepingParams : Params :=
  { sampleParams with enable_brake_keeping_before_stop := true, brake_keeping_acc := -(1 / 5) }

/-- A trajectory that stops at its third point, with accelerations 0.5, -0.1 and -0.05. -/
def brakingTrajectory : Trajectory :=
  { points :=
      [{ longitudinal_velocity_mps := 1, acceleration_mps2 := 1 / 2 },
       { longitudinal_velocity_mps := 1 / 2, acceleration_mps2 := -(1 / 10) },
       { longitudinal_velocity_mps := 0, acceleration_mps2 := -(1 / 20) }] }

/-- A cycle at the second point of `brakingTrajectory`, whose stop index is 2. -/
def envBraking : Env :=
  { nearest_idx_opt := some 1, stop_idx := some 2 }

/-- The controller `freshController` in state Drive. -/
def driveController : Controller :=
  { freshController with control_state := ControlState.DRIVE }

/-- A cycle on the trajectory, at its first point, 10 m before the stop point, with an
interpolated target of 1 m/s and 1 m/s². -/
def envDrive : Env :=
  { nearest_idx_opt := some 0, stop_dist := 10
    lerp_point := { longitudinal_velocity_mps := 1, acceleration_mps2 := 1 } }

/-- The control data of the cycle `envDrive` for a vehicle at rest. -/
def driveData : ControlData :=
  { dt := 1 / 10, stop_dist := 10 }

/-- The controller after `calcCtrlCmd` in the cycle `envDrive` on `driveController` under
`flatParams`: the raw command (1, 2) is stored, the history holds the clamped raw
acceleration 2. -/
def afterDriveCmd : Controller :=
  { driveController with
    prev_raw_ctrl_cmd := { vel := 1, acc := 2 }
    ctrl_cmd_vec := [{ stamp := 0, acceleration := 2 }]
    lpf_vel_error := { x := 1, gain := 0 } }

/-- The controller after the whole cycle `envDrive` run on `driveController` under
`flatParams`. -/
def afterDriveCycle : Controller :=
  { afterDriveCmd with
    prev_control_time := some 0
    prev_ctrl_cmd := { vel := 1, acc := 1 / 5 }
    vel_hist := [(0, 0)] }

/-- A clock whose readings in `storeAccelCmd` are both `now`. -/
def storeClockAt (now : ℚ) : Clock :=
  { now_store_stamp := now, now_store_evict := now }

/-- A controller in state Drive whose history holds entries stamped 0 and 0.08. -/
def twoEntryController : Controller :=
  { control_state := ControlState.DRIVE
    ctrl_cmd_vec := [{ stamp := 0, acceleration := 1 }, { stamp := 2 / 25, acceleration := 1 }] }

/-- Four `storeAccelCmd` calls at times 0, 0.1, 0.2 and 0.3, the third one outside Drive. -/
def sampleCalls : List (Clock × ControlState × ℚ) :=
  [(storeClockAt 0, ControlState.DRIVE, 1), (storeClockAt (1 / 10), ControlState.DRIVE, 2),
   (storeClockAt (1 / 5), ControlState.STOPPED, 0),
   (storeClockAt (3 / 10), ControlState.DRIVE, 1)]

/-! ## Live reconfiguration -/

/-- Modelled from the spec: the class `rclcpp::Parameter` is not among the sources.
`paramCallback` reads a parameter through `get_name()` and `as_double()` only, so a parameter
is represented by its name and the value `as_double()` returns. -/
structure Parameter where
  name : String
  value : ℚ
deriving DecidableEq, Repr

/-- Modelled from the spec: the message `rcl_interfaces::msg::SetParametersResult`. -/
structure SetParametersResult where
  successful : Bool
  reason : String
deriving DecidableEq, Repr

/-- The lambda `update_param` of `paramCallback`: the value of the referenced variable after the
call, which is the value of the first parameter of that name in the list, if there is one. The
boolean the lambda returns is discarded at every call site. -/
def update_param (parameters : List Parameter) (name : String) (v : ℚ) : ℚ :=
  match parameters.find? (fun parameter => parameter.name == name) with
  | some it => it.value
  | none => v

/-- What a call of `paramCallback` leaves behind: the returned result, the configuration members
and the arguments of the calls `m_pid_vel.setGains`, `m_pid_vel.setLimits` and
`m_smooth_stop.setParams`, in the order of the source. -/
structure ParamCallbackEffect where
  result : SetParametersResult
  params : Params
  pid_gains : List ℚ
  pid_limits : List ℚ
  smooth_stop_params : List ℚ
deriving DecidableEq, Repr

/-- The method `paramCallback`; `get_parameter name` is `node_->get_parameter(name).as_double()`
and `p` holds the configuration members before the call. -/
def paramCallback (get_parameter : String → ℚ) (parameters : List Parameter) (p : Params) :
    ParamCallbackEffect :=
  let delay_compensation_time :=
    update_param parameters "delay_compensation_time" p.delay_compensation_time
  let tp := p.state_transition_params
  let tp : StateTransitionParams :=
    { tp with
      drive_state_stop_dist :=
        update_param parameters "drive_state_stop_dist" tp.drive_state_stop_dist
      stopping_state_stop_dist :=
        update_param parameters "stopping_state_stop_dist" tp.stopping_state_stop_dist
      stopped_state_entry_duration_time :=
        update_param parameters "stopped_state_entry_duration_time"
          tp.stopped_state_entry_duration_time
      stopped_state_entry_vel :=
        update_param parameters "stopped_state_entry_vel" tp.stopped_state_entry_vel
      stopped_state_entry_acc :=
        update_param parameters "stopped_state_entry_acc" tp.stopped_state_entry_acc
      emergency_state_overshoot_stop_dist :=
        update_param parameters "emergency_state_overshoot_stop_dist"
          tp.emergency_state_overshoot_stop_dist
      emergency_state_traj_trans_dev :=
        update_param parameters "emergency_state_traj_trans_dev"
          tp.emergency_state_traj_trans_dev
      emergency_state_traj_rot_dev :=
        update_param parameters "emergency_state_traj_rot_dev"
          tp.emergency_state_traj_rot_dev }
  let kp := update_param parameters "kp" (get_parameter "kp")
  let ki := update_param parameters "ki" (get_parameter "ki")
  let kd := update_param parameters "kd" (get_parameter "kd")
  let max_pid := update_param parameters "max_out" (get_parameter "max_out")
  let min_pid := update_param parameters "min_out" (get_parameter "min_out")
  let max_p := update_param parameters "max_p_effort" (get_parameter "max_p_effort")
  let min_p := update_param parameters "min_p_effort" (get_parameter "min_p_effort")
  let max_i := update_param parameters "max_i_effort" (get_parameter "max_i_effort")
  let min_i := update_param parameters "min_i_effort" (get_parameter "min_i_effort")
  let max_d := update_param parameters "max_d_effort" (get_parameter "max_d_effort")
  let min_d := update_param parameters "min_d_effort" (get_parameter "min_d_effort")
  let current_vel_threshold_pid_integrate :=
    update_param parameters "current_vel_threshold_pid_integration"
      p.current_vel_threshold_pid_integrate
  let max_strong_acc :=
    update_param parameters "smooth_stop_max_strong_acc"
      (get_parameter "smooth_stop_max_strong_acc")
  let min_strong_acc :=
    update_param parameters "smooth_stop_min_strong_acc"
      (get_parameter "smooth_stop_min_strong_acc")
  let weak_acc :=
    update_param parameters "smooth_stop_weak_acc" (get_parameter "smooth_stop_weak_acc")
  let weak_stop_acc :=
    update_param parameters "smooth_stop_weak_stop_acc"
      (get_parameter "smooth_stop_weak_stop_acc")
  let strong_stop_acc :=
    update_param parameters "smooth_stop_strong_stop_acc"
      (get_parameter "smooth_stop_strong_stop_acc")
  let max_fast_vel :=
    update_param parameters "smooth_stop_max_fast_vel" (get_parameter "smooth_stop_max_fast_vel")
  let min_running_vel :=
    update_param parameters "smooth_stop_min_running_vel"
      (get_parameter "smooth_stop_min_running_vel")
  let min_running_acc :=
    update_param parameters "smooth_stop_min_running_acc"
      (get_parameter "smooth_stop_min_running_acc")
  let weak_stop_time :=
    update_param parameters "smooth_stop_weak_stop_time"
      (get_parameter "smooth_stop_weak_stop_time")
  let weak_stop_dist :=
    update_param parameters "smooth_stop_weak_stop_dist"
      (get_parameter "smooth_stop_weak_stop_dist")
  let strong_stop_dist :=
    update_param parameters "smooth_stop_strong_stop_dist"
      (get_parameter "smooth_stop_strong_stop_dist")
  let sp := p.stopped_state_params
  let sp : StateParams :=
    { vel := update_param parameters "stopped_vel" sp.vel
      acc := update_param parameters "stopped_acc" sp.acc
      jerk := update_param parameters "stopped_jerk" sp.jerk }
  let ep := p.emergency_state_params
  let ep : StateParams :=
    { vel := update_param parameters "emergency_vel" ep.vel
      acc := update_param parameters "emergency_acc" ep.acc
      jerk := update_param parameters "emergency_jerk" ep.jerk }
  let min_acc := update_param parameters "min_acc" p.min_acc
  let max_jerk := update_param parameters "max_jerk" p.max_jerk
  let min_jerk := update_param parameters "min_jerk" p.min_jerk
  let max_pitch_rad := update_param parameters "max_pitch_rad" p.max_pitch_rad
  let min_pitch_rad := update_param parameters "min_pitch_rad" p.min_pitch_rad
  { result := { successful := true, reason := "success" }
    params :=
      { p with
        delay_compensation_time := delay_compensation_time
        state_transition_params := tp
        current_vel_threshold_pid_integrate := current_vel_threshold_pid_integrate
        stopped_state_params := sp
        emergency_state_params := ep
        min_acc := min_acc
        max_jerk := max_jerk
        min_jerk := min_jerk
        max_pitch_rad := max_pitch_rad
        min_pitch_rad := min_pitch_rad }
    pid_gains := [kp, ki, kd]
    pid_limits := [max_pid, min_pid, max_p, min_p, max_i, min_i, max_d, min_d]
    smooth_stop_params :=
      [max_strong_acc, min_strong_acc, weak_acc, weak_stop_acc, strong_stop_acc, max_fast_vel,
       min_running_vel, min_running_acc, weak_stop_time, weak_stop_dist, strong_stop_dist] }

/-! ## Sample inputs for the acceleration bound on a departure -/

/-- A configuration without slope compensation whose acceleration limits are both negative,
[-3, -0.5], with jerk limits [-1, 1] and the stopped setpoint (0, -1, 0.5). -/
def negativeLimitParams : Params :=
  { flatParams with
    max_acc := -(1 / 2)
    min_acc := -3
    max_jerk := 1
    min_jerk := -1
    stopped_state_params := { vel := 0, acc := -1, jerk := 1 / 2 } }

/-- The controller `freshController`, stopped, with previous raw and published accelerations
both at -1. -/
def heldController : Controller :=
  { freshController with
    prev_ctrl_cmd := { vel := 0, acc := -1 }
    prev_raw_ctrl_cmd := { vel := 0, acc := -1 } }

/-- A cycle on the trajectory, at its first point, at the stop point. -/
def envStay : Env :=
  { nearest_idx_opt := some 0, stop_dist := 0 }

/-- A cycle on the trajectory, at its first point, 10 m before the stop point, 0.1 s after the
previous cycle, with an interpolated target of 1 m/s and 0 m/s². -/
def envDepart : Env :=
  { nearest_idx_opt := some 0, stop_dist := 10
    lerp_point := { longitudinal_velocity_mps := 1, acceleration_mps2 := 0 }
    clock := { now_dt_elapsed := 1 / 10, now_dt_store := 1 / 10 } }

/-- The controller after the cycle `envStay` run on `heldController` under
`negativeLimitParams`: the vehicle stays stopped and -1 is published again. -/
def afterStay : Controller :=
  { heldController with
    prev_control_time := some 0
    vel_hist := [(0, 0)] }

/-- The controller after the cycle `envDepart` run on `afterStay` under `negativeLimitParams`:
the vehicle departs to Drive and -0.1 is published. -/
def afterDepart : Controller :=
  { afterStay with
    control_state := ControlState.DRIVE
    prev_control_time := some (1 / 10)
    prev_ctrl_cmd := { vel := 1, acc := -(1 / 10) }
    prev_raw_ctrl_cmd := { vel := 1, acc := 1 }
    ctrl_cmd_vec := [{ stamp := 0, acceleration := -(1 / 2) }]
    vel_hist := [(0, 0), (0, 0)]
    lpf_vel_error := { x := 1, gain := 0 } }

/-- Control data of a vehicle moving at 1 m/s, 10 m before its stop point. -/
def movingData : ControlData :=
  { current_motion := { vel := 1, acc := 0 }, stop_dist := 10 }

/-- A controller in state Drive whose history holds one entry, stamped 0 with acceleration 2. -/
def oneEntryController : Controller :=
  { control_state := ControlState.DRIVE
    ctrl_cmd_vec := [{ stamp := 0, acceleration := 2 }] }

/-! ## Sample inputs for events between two cycles -/

/-- The controller `afterDownhill` after a new odometry sample, stamped 0.2 s, has arrived
between two cycles. -/
def afterDownhillInput : Controller :=
  setCurrentVelocity (some { stamp := 1 / 5, linear_x := 0 }) afterDownhill

/-- The sample configuration after a live update that sets `max_jerk` to 3 and `min_acc`
to -4. -/
def reconfiguredParams : Params :=
  (paramCallback (fun _ => 0) [⟨"max_jerk", 3⟩, ⟨"min_acc", -4⟩] sampleParams).params

/-- The controller after the cycle `envDownhillNext` run on `afterDownhillInput` under
`reconfiguredParams`. -/
def afterDownhillInputTwice : Controller :=
  { afterDownhillTwice with
    current_velocity_ptr := some { stamp := 1 / 5, linear_x := 0 }
    prev_velocity_ptr := some { stamp := 1 / 10, linear_x := 0 } }

/-! ## Lemmas -/

open ControlState

/-- Shapes of the controller after `updateControlState`. -/
theorem updateControlState_shape (p : Params) (clk : Clock) (s : Controller) (st : ControlState)
    (cd : ControlData) :
    ((updateControlState p clk s st cd).2 =
        { s with last_running_time := updateLastRunningTime p clk s cd } ∧
      ¬ ((st = STOPPING ∨ st = STOPPED) ∧ (updateControlState p clk s st cd).1 = DRIVE) ∧
      ¬ (st = DRIVE ∧ (updateControlState p clk s st cd).1 = STOPPING)) ∨
    (st = DRIVE ∧ (updateControlState p clk s st cd).1 = STOPPING ∧
      ∃ v d, (updateControlState p clk s st cd).2 =
        { s with last_running_time := updateLastRunningTime p clk s cd,
                 smooth_stop := s.smooth_stop.init v d }) ∨
    ((st = STOPPING ∨ st = STOPPED) ∧ (updateControlState p clk s st cd).1 = DRIVE ∧
      (updateControlState p clk s st cd).2 =
        departToDrive { s with last_running_time := updateLastRunningTime p clk s cd }) := by
  cases st
  · simp only [updateControlState, if_true, reduceCtorEq, if_false]
    split_ifs <;> simp
  · simp only [updateControlState, if_true, reduceCtorEq, if_false]
    split_ifs <;> simp
  · simp only [updateControlState, if_true, reduceCtorEq, if_false]
    split_ifs <;> simp
  · simp only [updateControlState, if_true, reduceCtorEq, if_false]
    split_ifs <;> simp

/-- The rate of change produced by the diff-limit filter lies within its bounds. -/
theorem applyDiffLimitFilter_rate (input_val prev_val dt max_val min_val : ℚ) (hdt : 0 < dt)
    (h : min_val ≤ max_val) :
    min_val ≤ (applyDiffLimitFilter input_val prev_val dt max_val min_val - prev_val) / dt ∧
    (applyDiffLimitFilter input_val prev_val dt max_val min_val - prev_val) / dt ≤ max_val := by
  unfold applyDiffLimitFilter
  have hne : dt ≠ 0 := ne_of_gt hdt
  have e : (prev_val + min (max ((input_val - prev_val) / dt) min_val) max_val * dt - prev_val) / dt
      = min (max ((input_val - prev_val) / dt) min_val) max_val := by
    field_simp
  rw [e]
  exact ⟨le_min (le_max_right _ _) h, min_le_right _ _⟩

/-- With bounds of opposite sign the diff-limit filter returns a value between the previous
value and the input. -/
theorem applyDiffLimitFilter_between (input_val prev_val dt max_val min_val : ℚ) (hdt : 0 < dt)
    (hmin : min_val ≤ 0) (hmax : 0 ≤ max_val) :
    min prev_val input_val ≤ applyDiffLimitFilter input_val prev_val dt max_val min_val ∧
    applyDiffLimitFilter input_val prev_val dt max_val min_val ≤ max prev_val input_val := by
  unfold applyDiffLimitFilter
  have hne : dt ≠ 0 := ne_of_gt hdt
  have hx : (input_val - prev_val) / dt * dt = input_val - prev_val := by field_simp
  set x := (input_val - prev_val) / dt with hxdef
  rcases le_total 0 x with h0 | h0
  · have hc0 : 0 ≤ min (max x min_val) max_val := le_min (le_max_of_le_left h0) hmax
    have hcx : min (max x min_val) max_val ≤ x := by
      have : max x min_val = x := max_eq_left (le_trans hmin h0)
      rw [this]; exact min_le_left _ _
    have h1 : 0 ≤ min (max x min_val) max_val * dt := mul_nonneg hc0 (le_of_lt hdt)
    have h2 : min (max x min_val) max_val * dt ≤ x * dt := mul_le_mul_of_nonneg_right hcx (le_of_lt hdt)
    constructor
    · exact le_trans (min_le_left _ _) (by linarith)
    · exact le_trans (by linarith) (le_max_right _ _)
  · have hc0 : min (max x min_val) max_val ≤ 0 := by
      have : max x min_val ≤ 0 := max_le h0 hmin
      exact le_trans (min_le_left _ _) this
    have hcx : x ≤ min (max x min_val) max_val := le_min (le_max_left _ _) (le_trans h0 hmax)
    have h1 : min (max x min_val) max_val * dt ≤ 0 := mul_nonpos_of_nonpos_of_nonneg hc0 (le_of_lt hdt)
    have h2 : x * dt ≤ min (max x min_val) max_val * dt := mul_le_mul_of_nonneg_right hcx (le_of_lt hdt)
    constructor
    · exact le_trans (min_le_right _ _) (by linarith)
    · exact le_trans (by linarith) (le_max_left _ _)

/-- The clamp returns a value within its bounds. -/
theorem clamp_mem (val lo hi : ℚ) (h : lo ≤ hi) : lo ≤ clamp val lo hi ∧ clamp val lo hi ≤ hi := by
  unfold clamp
  exact ⟨le_min (le_max_right _ _) h, min_le_right _ _⟩

/-- The method `storeAccelCmd` changes neither the last published command nor the control
state. -/
theorem storeAccelCmd_frame (p : Params) (clk : Clock) (s : Controller) (accel : ℚ) :
    (storeAccelCmd p clk s accel).prev_ctrl_cmd = s.prev_ctrl_cmd ∧
    (storeAccelCmd p clk s accel).control_state = s.control_state := by
  unfold storeAccelCmd
  simp only
  generalize (if s.control_state = DRIVE then
    s.ctrl_cmd_vec ++ [({ stamp := clk.now_store_stamp, acceleration := accel } : LongitudinalCommand)]
    else []) = vec
  split_ifs
  · exact ⟨rfl, rfl⟩
  · split
    · split_ifs <;> exact ⟨rfl, rfl⟩
    · exact ⟨rfl, rfl⟩

/-- The raw command generation changes neither the last published command nor the control
state. -/
theorem calcRawCtrlCmd_frame (p : Params) (ext : Ext) (env : Env) (traj : Trajectory)
    (s : Controller) (st : ControlState) (cd : ControlData) (r : Motion × Controller)
    (h : calcRawCtrlCmd p ext env traj s st cd = .ok r) :
    r.2.prev_ctrl_cmd = s.prev_ctrl_cmd ∧ r.2.control_state = s.control_state := by
  unfold calcRawCtrlCmd at h
  simp only [bind, Except.bind, pure, Except.pure] at h
  split_ifs at h
  · split at h
    · exact absurd h (by simp)
    · split at h
      · exact absurd h (by simp)
      · cases h
        simp [applyVelocityFeedback]
  · cases h; exact ⟨rfl, rfl⟩
  · cases h; exact ⟨rfl, rfl⟩
  · cases h; exact ⟨rfl, rfl⟩

/-- The acceleration `calcCtrlCmd` returns is the jerk-limited, slope-compensated, clamped raw
acceleration, measured against the last published acceleration. -/
theorem calcCtrlCmd_ok (p : Params) (ext : Ext) (env : Env) (traj : Trajectory)
    (s : Controller) (st : ControlState) (cd : ControlData) (c : Motion × Controller)
    (h : calcCtrlCmd p ext env traj s st cd = .ok c) :
    (∃ raw_acc, c.1.acc =
      applyDiffLimitFilter
        (applySlopeCompensation p ext (clamp raw_acc p.min_acc p.max_acc) cd.slope_angle cd.shift)
        s.prev_ctrl_cmd.acc cd.dt p.max_jerk p.min_jerk) ∧
    c.2.prev_ctrl_cmd = s.prev_ctrl_cmd ∧ c.2.control_state = s.control_state := by
  unfold calcCtrlCmd at h
  simp only [bind, Except.bind, pure, Except.pure] at h
  split at h
  · exact absurd h (by simp)
  · rename_i r hr
    have hf := calcRawCtrlCmd_frame p ext env traj s st cd r hr
    cases h
    have hs := storeAccelCmd_frame p env.clock { r.2 with prev_raw_ctrl_cmd := r.1 }
      (clamp r.1.acc p.min_acc p.max_acc)
    simp only [calcFilteredAcc]
    refine ⟨⟨r.1.acc, ?_⟩, ?_, ?_⟩
    · rw [hs.1]; simp [hf.1]
    · rw [hs.1]; simp [hf.1]
    · rw [hs.2]; simp [hf.2]

/-- With a positive control period `getDt` returns a positive cycle time. -/
theorem getDt_pos (p : Params) (clk : Clock) (s : Controller)
    (h : 0 < p.longitudinal_ctrl_period) : 0 < (getDt p clk s).1 := by
  unfold getDt
  simp only
  exact lt_of_lt_of_le (by linarith) (le_max_right _ _)

/-- What `getControlData` leaves unchanged, and when it flags the pose as far from the
trajectory. -/
theorem getControlData_ok (p : Params) (ext : Ext) (env : Env) (cur prev : Odometry)
    (traj : Trajectory) (s : Controller) (r : ControlData × Controller)
    (h : getControlData p ext env cur prev traj s = .ok r) :
    r.1.dt = (getDt p env.clock s).1 ∧
    r.2.prev_ctrl_cmd = s.prev_ctrl_cmd ∧
    r.2.prev_raw_ctrl_cmd = s.prev_raw_ctrl_cmd ∧
    r.2.control_state = s.control_state ∧
    (r.1.is_far_from_trajectory = true ↔ env.nearest_idx_opt = none) := by
  unfold getControlData at h
  simp only [bind, Except.bind, pure, Except.pure] at h
  split at h
  · rename_i hn
    cases h
    simp [hn, getCurrentMotion, getDt]
  · rename_i i hn
    split at h
    · exact absurd h (by simp)
    · split_ifs at h <;> cases h <;> simp [hn, getCurrentMotion, getDt]

/-- Inversion of a cycle of `run` that emits a command. -/
theorem run_emits_inv (p : Params) (ext : Ext) (env : Env) (s s' : Controller)
    (out : LongitudinalOutput) (h : run p ext env s = .ok (some out, s')) :
    ∃ cur prev traj cd s1,
      getControlData p ext env cur prev traj s = .ok (cd, s1) ∧
      ((cd.is_far_from_trajectory = true ∧
          out.control_cmd.acceleration =
            applyDiffLimitFilterSym p.emergency_state_params.acc s1.prev_raw_ctrl_cmd.acc cd.dt
              p.emergency_state_params.jerk ∧
          s'.prev_ctrl_cmd.acc = out.control_cmd.acceleration) ∨
       (cd.is_far_from_trajectory = false ∧
          ∃ c, calcCtrlCmd p ext env traj
              { (updateControlState p env.clock s1 s1.control_state cd).2 with
                control_state := (updateControlState p env.clock s1 s1.control_state cd).1 }
              (updateControlState p env.clock s1 s1.control_state cd).1 cd = .ok c ∧
            out.control_cmd.acceleration = c.1.acc ∧
            s'.prev_ctrl_cmd.acc = c.1.acc ∧
            s'.control_state = c.2.control_state)) := by
  unfold run at h
  split at h
  · rename_i cur prev traj _ _ _
    by_cases hct : (!env.can_transform) = true
    · rw [if_pos hct] at h; cases h
    · rw [if_neg hct] at h
      cases hr : getControlData p ext env cur prev traj s with
      | error e => rw [hr] at h; cases h
      | ok r =>
        rw [hr] at h
        simp only [bind, Except.bind, pure, Except.pure] at h
        refine ⟨cur, prev, traj, r.1, r.2, hr, ?_⟩
        by_cases hfar : r.1.is_far_from_trajectory = true
        · rw [if_pos hfar] at h
          left
          cases h
          refine ⟨hfar, ?_, rfl⟩
          simp only [createCtrlCmdMsg, calcEmergencyCtrlCmd]
          split_ifs <;> rfl
        · rw [if_neg hfar] at h
          right
          refine ⟨by simpa using hfar, ?_⟩
          split at h
          · cases h
          · rename_i c hc
            cases h
            exact ⟨c, hc, rfl, rfl, rfl⟩
  · cases h

/-- The last published acceleration after `updateControlState`: unchanged, or clamped at zero on
a departure to Drive. -/
theorem updateControlState_prev_acc (p : Params) (clk : Clock) (s : Controller)
    (st : ControlState) (cd : ControlData) :
    ((updateControlState p clk s st cd).2.prev_ctrl_cmd.acc = s.prev_ctrl_cmd.acc ∧
      ¬ ((st = STOPPING ∨ st = STOPPED) ∧ (updateControlState p clk s st cd).1 = DRIVE)) ∨
    ((updateControlState p clk s st cd).2.prev_ctrl_cmd.acc = max 0 s.prev_ctrl_cmd.acc ∧
      (st = STOPPING ∨ st = STOPPED) ∧ (updateControlState p clk s st cd).1 = DRIVE) := by
  rcases updateControlState_shape p clk s st cd with ⟨h2, hn, _⟩ | ⟨h1, h2, v, d, h3⟩ | ⟨h1, h2, h3⟩
  · left; rw [h2]; exact ⟨rfl, hn⟩
  · left
    refine ⟨by rw [h3], ?_⟩
    rw [h2]; simp
  · right; rw [h3]; exact ⟨rfl, h1, h2⟩

/-- With slope compensation disabled the acceleration passes unchanged. -/
theorem applySlopeCompensation_disabled (p : Params) (ext : Ext) (input_acc pitch : ℚ)
    (shift : Shift) (h : p.enable_slope_compensation = false) :
    applySlopeCompensation p ext input_acc pitch shift = input_acc := by
  simp [applySlopeCompensation, h]


/-! ## Claims -/

/-- Claim C1, refuted as stated. Two cycles in which `run` emits a command with
`min_acc ≤ max_acc` and an acceleration below `min_acc`: on the far-from-trajectory path the
emergency ramp is emitted without the clamp (-5 against a limit of -3); on the normal path the
slope compensation is added after the clamp (-5.5 against a limit of -5). -/
theorem run_acc_outside_limits :
    (∃ out s, run strongEmergencyParams sampleExt envFar freshController = .ok (some out, s) ∧
      strongEmergencyParams.min_acc ≤ strongEmergencyParams.max_acc ∧
      out.control_cmd.acceleration < strongEmergencyParams.min_acc) ∧
    (∃ out s, run sampleParams sampleExt envUphill emergencyBrakingController = .ok (some out, s) ∧
      sampleParams.min_acc ≤ sampleParams.max_acc ∧
      out.control_cmd.acceleration < sampleParams.min_acc) :=
  ⟨⟨outputWithAcc (-5), afterFarStrong, by decide!, by decide!, by decide!⟩,
   ⟨outputWithAcc (-(11 / 2)), afterUphill, by decide!, by decide!, by decide!⟩⟩

/-- Claim C1, amended. In every cycle in which `run` emits a command on the normal path (a
nearest index was found), with slope compensation disabled, a positive control period,
`min_jerk ≤ 0 ≤ max_jerk`, `0 ≤ max_acc` and the previously published acceleration within
`[min_acc, max_acc]`, the acceleration of the emitted command lies within
`[min_acc, max_acc]`. -/
theorem run_normal_path_acc_within_limits (p : Params) (ext : Ext) (env : Env)
    (s s' : Controller) (out : LongitudinalOutput) (i : Nat)
    (h : run p ext env s = .ok (some out, s'))
    (hnear : env.nearest_idx_opt = some i)
    (hslope : p.enable_slope_compensation = false)
    (hperiod : 0 < p.longitudinal_ctrl_period)
    (hminj : p.min_jerk ≤ 0) (hmaxj : 0 ≤ p.max_jerk)
    (hmax : 0 ≤ p.max_acc)
    (hlo : p.min_acc ≤ s.prev_ctrl_cmd.acc) (hhi : s.prev_ctrl_cmd.acc ≤ p.max_acc) :
    p.min_acc ≤ out.control_cmd.acceleration ∧ out.control_cmd.acceleration ≤ p.max_acc := by
  obtain ⟨cur, prev, traj, cd, s1, hg, hcase⟩ := run_emits_inv p ext env s s' out h
  obtain ⟨hdt, hprev, _, _, hfar⟩ := getControlData_ok p ext env cur prev traj s (cd, s1) hg
  simp only at hdt hprev hfar
  rcases hcase with ⟨hf, _⟩ | ⟨_, c, hc, hout, _, _⟩
  · rw [hfar.mp hf] at hnear; cases hnear
  · obtain ⟨⟨raw, hacc⟩, _, _⟩ := calcCtrlCmd_ok p ext env traj _ _ cd c hc
    rw [applySlopeCompensation_disabled p ext _ _ _ hslope] at hacc
    have hdtpos : 0 < cd.dt := by rw [hdt]; exact getDt_pos p env.clock s hperiod
    have hle : p.min_acc ≤ p.max_acc := le_trans hlo hhi
    obtain ⟨hc1, hc2⟩ := clamp_mem raw p.min_acc p.max_acc hle
    have hb := applyDiffLimitFilter_between (clamp raw p.min_acc p.max_acc)
      (updateControlState p env.clock s1 s1.control_state cd).2.prev_ctrl_cmd.acc cd.dt
      p.max_jerk p.min_jerk hdtpos hminj hmaxj
    have hp : p.min_acc ≤
          (updateControlState p env.clock s1 s1.control_state cd).2.prev_ctrl_cmd.acc ∧
        (updateControlState p env.clock s1 s1.control_state cd).2.prev_ctrl_cmd.acc ≤
          p.max_acc := by
      rcases updateControlState_prev_acc p env.clock s1 s1.control_state cd with ⟨e, _⟩ | ⟨e, _⟩
      · rw [e, hprev]; exact ⟨hlo, hhi⟩
      · rw [e, hprev]; exact ⟨le_trans hlo (le_max_right _ _), max_le hmax hhi⟩
    rw [hout, hacc]
    exact ⟨le_trans (le_min hp.1 hc1) hb.1, le_trans hb.2 (max_le hp.2 hc2)⟩

/-- Witness for `run_normal_path_acc_within_limits`: the first cycle of a stopped vehicle under
`flatParams` emits -0.5, inside [-5, 3]. -/
theorem run_normal_path_acc_within_limits_witness :
    run flatParams sampleExt envDownhill freshController =
        .ok (some (outputWithAcc (-(1 / 2))), afterFlat) ∧
      flatParams.min_acc ≤ (outputWithAcc (-(1 / 2))).control_cmd.acceleration ∧
      (outputWithAcc (-(1 / 2))).control_cmd.acceleration ≤ flatParams.max_acc :=
  ⟨by decide!,
   run_normal_path_acc_within_limits flatParams sampleExt envDownhill freshController afterFlat
     (outputWithAcc (-(1 / 2))) 0 (by decide!) rfl rfl (by decide!) (by decide!) (by decide!)
     (by decide!) (by decide!) (by decide!)⟩

/-- Claim C2, refuted as stated. Two consecutive cycles in which `run` emits a command, without
any departure to Drive, with `dt > 0` and `min_jerk ≤ max_jerk`: the first goes through the
normal path in state Stopped and publishes 0.2 (raw command -0.5), the second takes the
far-from-trajectory path and publishes the emergency ramp from the raw command, -0.8. The jerk
between the two published accelerations is -10, below `min_jerk = -5`. -/
theorem run_jerk_outside_limits :
    ∃ out0 s1 out1 s2,
      run sampleParams sampleExt envDownhill freshController = .ok (some out0, s1) ∧
      run sampleParams sampleExt envFarNext s1 = .ok (some out1, s2) ∧
      ¬ ((s1.control_state = STOPPING ∨ s1.control_state = STOPPED) ∧
        s2.control_state = DRIVE) ∧
      0 < (getDt sampleParams envFarNext.clock s1).1 ∧
      sampleParams.min_jerk ≤ sampleParams.max_jerk ∧
      (out1.control_cmd.acceleration - out0.control_cmd.acceleration) /
        (getDt sampleParams envFarNext.clock s1).1 < sampleParams.min_jerk :=
  ⟨outputWithAcc (1 / 5), afterDownhill, outputWithAcc (-(4 / 5)), afterDownhillFar,
   by decide!, by decide!, by decide!, by decide!, by decide!, by decide!⟩

/-- Claim C2, amended. For every two consecutive cycles in which `run` emits a command and the
second one goes through the normal path (a nearest index was found), except a cycle that
departs from Stopping or Stopped to Drive, with `dt > 0` and `min_jerk ≤ max_jerk`, the jerk
between the two emitted accelerations lies within `[min_jerk, max_jerk]`. The second cycle may
start from any controller `t1` whose last published acceleration is the one the first cycle
left (new odometry, a new trajectory or a steer report may have arrived in between) and may
run under another configuration and other collaborators; the limits and `dt` are those of the
second cycle. -/
theorem run_normal_path_jerk_within_limits (p0 p1 : Params) (ext0 ext1 : Ext)
    (env0 env1 : Env) (s0 s1 t1 s2 : Controller) (out0 out1 : LongitudinalOutput) (i : Nat)
    (h0 : run p0 ext0 env0 s0 = .ok (some out0, s1))
    (hbetween : t1.prev_ctrl_cmd.acc = s1.prev_ctrl_cmd.acc)
    (h1 : run p1 ext1 env1 t1 = .ok (some out1, s2))
    (hnear : env1.nearest_idx_opt = some i)
    (hdep : ¬ ((t1.control_state = STOPPING ∨ t1.control_state = STOPPED) ∧
      s2.control_state = DRIVE))
    (hdt : 0 < (getDt p1 env1.clock t1).1) (hj : p1.min_jerk ≤ p1.max_jerk) :
    p1.min_jerk ≤ (out1.control_cmd.acceleration - out0.control_cmd.acceleration) /
        (getDt p1 env1.clock t1).1 ∧
    (out1.control_cmd.acceleration - out0.control_cmd.acceleration) /
        (getDt p1 env1.clock t1).1 ≤ p1.max_jerk := by
  have hprev0 : s1.prev_ctrl_cmd.acc = out0.control_cmd.acceleration := by
    obtain ⟨_, _, _, _, _, _, hcase⟩ := run_emits_inv p0 ext0 env0 s0 s1 out0 h0
    rcases hcase with ⟨_, _, e⟩ | ⟨_, c, _, e1, e2, _⟩
    · exact e
    · rw [e1, e2]
  obtain ⟨cur, prev, traj, cd, u1, hg, hcase⟩ := run_emits_inv p1 ext1 env1 t1 s2 out1 h1
  obtain ⟨hdteq, hprev, _, hst, hfar⟩ :=
    getControlData_ok p1 ext1 env1 cur prev traj t1 (cd, u1) hg
  simp only at hdteq hprev hfar hst
  rcases hcase with ⟨hf, _⟩ | ⟨_, c, hc, hout, _, hstate⟩
  · rw [hfar.mp hf] at hnear; cases hnear
  · obtain ⟨⟨raw, hacc⟩, _, hcs⟩ := calcCtrlCmd_ok p1 ext1 env1 traj _ _ cd c hc
    simp only at hcs hacc
    have hprev1 : (updateControlState p1 env1.clock u1 u1.control_state cd).2.prev_ctrl_cmd.acc =
        out0.control_cmd.acceleration := by
      rcases updateControlState_prev_acc p1 env1.clock u1 u1.control_state cd with
        ⟨e, _⟩ | ⟨_, e1, e2⟩
      · rw [e, hprev, hbetween, hprev0]
      · exfalso
        apply hdep
        rw [hstate, hcs, ← hst]
        exact ⟨e1, e2⟩
    rw [hout, hacc, hprev1, ← hdteq]
    rw [← hdteq] at hdt
    exact applyDiffLimitFilter_rate _ _ _ _ _ hdt hj

/-- Witness for `run_normal_path_jerk_within_limits`: a stopped vehicle on a downhill slope
publishes 0.2; a new odometry sample arrives and `max_jerk` and `min_acc` are reconfigured;
the next normal-path cycle publishes -0.020635, and the jerk is inside [-5, 3]. -/
theorem run_normal_path_jerk_within_limits_witness :
    run sampleParams sampleExt envDownhill freshController =
        .ok (some (outputWithAcc (1 / 5)), afterDownhill) ∧
      run reconfiguredParams sampleExt envDownhillNext afterDownhillInput =
        .ok (some (outputWithAcc (-(4127 / 200000))), afterDownhillInputTwice) ∧
      reconfiguredParams.min_jerk ≤
        ((outputWithAcc (-(4127 / 200000))).control_cmd.acceleration -
            (outputWithAcc (1 / 5)).control_cmd.acceleration) /
          (getDt reconfiguredParams envDownhillNext.clock afterDownhillInput).1 ∧
      ((outputWithAcc (-(4127 / 200000))).control_cmd.acceleration -
            (outputWithAcc (1 / 5)).control_cmd.acceleration) /
          (getDt reconfiguredParams envDownhillNext.clock afterDownhillInput).1 ≤
        reconfiguredParams.max_jerk :=
  ⟨by decide!, by decide!,
   run_normal_path_jerk_within_limits sampleParams reconfiguredParams sampleExt sampleExt
     envDownhill envDownhillNext freshController afterDownhill afterDownhillInput
     afterDownhillInputTwice (outputWithAcc (1 / 5)) (outputWithAcc (-(4127 / 200000))) 0
     (by decide!) rfl (by decide!) rfl (by decide!) (by decide!) (by decide!)⟩

/-- Claim C3. Called in state Drive, `updateControlState` returns Emergency if overshoot
emergency is enabled and `stop_dist < -emergency_state_overshoot_stop_dist`; otherwise, with
smooth stop enabled, Stopping exactly when `stop_dist < stopping_state_stop_dist` and Drive
otherwise; otherwise Stopped exactly when the stopped-duration condition holds and
`stop_dist ≤ drive_state_stop_dist`, and Drive otherwise. -/
theorem updateControlState_from_drive (p : Params) (clk : Clock) (s : Controller)
    (cd : ControlData) :
    (updateControlState p clk s DRIVE cd).1 =
      if p.enable_overshoot_emergency = true ∧
          cd.stop_dist < -p.state_transition_params.emergency_state_overshoot_stop_dist then
        EMERGENCY
      else if p.enable_smooth_stop = true then
        if cd.stop_dist < p.state_transition_params.stopping_state_stop_dist then STOPPING
        else DRIVE
      else if stoppedCondition p clk (updateLastRunningTime p clk s cd) = true ∧
          cd.stop_dist ≤ p.state_transition_params.drive_state_stop_dist then
        STOPPED
      else DRIVE := by
  unfold updateControlState emergencyCondition
  simp only [Bool.and_eq_true, decide_eq_true_eq, Bool.not_eq_true', decide_eq_false_iff_not,
    not_lt, if_true]
  split_ifs <;> simp_all

/-- Claim C4, refuted as stated. In state Drive with smooth stop enabled, stopping threshold
5 m, velocity 3 m/s and the stop point 10 m ahead, `updateControlState` returns Drive, not
Stopping. -/
theorem scenario_ten_metres_stays_in_drive :
    (updateControlState scenarioParams {} { control_state := DRIVE } DRIVE scenarioData).1 =
        DRIVE ∧
      (updateControlState scenarioParams {} { control_state := DRIVE } DRIVE scenarioData).1 ≠
        STOPPING := by
  decide!

/-- Claim C4, amended. In state Drive with smooth stop enabled, stopping threshold 5 m and
velocity 3 m/s, a stop point 10 m ahead never makes `updateControlState` return Stopping: it
returns Drive unless the overshoot emergency fires. With the same configuration the call
returns Stopping on a cycle in which the stop distance is below 5 m (and the overshoot
emergency does not fire). -/
theorem scenario_stopping_threshold (p : Params) (clk : Clock) (s : Controller)
    (cd : ControlData) (hsmooth : p.enable_smooth_stop = true)
    (hthr : p.state_transition_params.stopping_state_stop_dist = 5)
    (_hvel : cd.current_motion.vel = 3) (hdist : cd.stop_dist = 10) :
    (updateControlState p clk s DRIVE cd).1 ≠ STOPPING ∧
    (¬ (p.enable_overshoot_emergency = true ∧
        cd.stop_dist < -p.state_transition_params.emergency_state_overshoot_stop_dist) →
      (updateControlState p clk s DRIVE cd).1 = DRIVE) ∧
    (∀ d : ℚ, d < 5 →
      ¬ (p.enable_overshoot_emergency = true ∧
        d < -p.state_transition_params.emergency_state_overshoot_stop_dist) →
      (updateControlState p clk s DRIVE { cd with stop_dist := d }).1 = STOPPING) := by
  refine ⟨?_, ?_, ?_⟩
  · have h105 : ¬ ((10 : ℚ) < 5) := by norm_num
    unfold updateControlState emergencyCondition
    simp only [Bool.and_eq_true, decide_eq_true_eq, if_true, hsmooth, hthr, hdist, h105,
      if_false]
    split_ifs <;> simp
  · intro hne
    unfold updateControlState emergencyCondition
    simp only [Bool.and_eq_true, decide_eq_true_eq, if_true, hsmooth, hthr, hdist]
    rw [hdist] at hne
    rw [if_neg hne]
    norm_num
  · intro d hd hne
    unfold updateControlState emergencyCondition
    simp only [Bool.and_eq_true, decide_eq_true_eq, if_true, hsmooth, hthr]
    rw [if_neg hne]
    simp [hd]

/-- Witness for `scenario_stopping_threshold`: the scenario configuration and control data. -/
theorem scenario_stopping_threshold_witness :
    scenarioParams.enable_smooth_stop = true ∧
      scenarioParams.state_transition_params.stopping_state_stop_dist = 5 ∧
      scenarioData.current_motion.vel = 3 ∧ scenarioData.stop_dist = 10 ∧
      (updateControlState scenarioParams {} { control_state := DRIVE } DRIVE scenarioData).1 ≠
        STOPPING :=
  ⟨rfl, rfl, rfl, rfl,
   (scenario_stopping_threshold scenarioParams {} { control_state := DRIVE } scenarioData
     rfl rfl rfl rfl).1⟩

/-- Claim C5. Called in state Stopping, `updateControlState` returns, in this priority order:
Emergency if overshoot emergency is enabled and
`stop_dist < -emergency_state_overshoot_stop_dist`; else Stopped if the stopped-duration
condition holds; else Drive if
`stop_dist > drive_state_stop_dist + drive_state_offset_stop_dist`; else Stopping. -/
theorem updateControlState_from_stopping (p : Params) (clk : Clock) (s : Controller)
    (cd : ControlData) :
    (updateControlState p clk s STOPPING cd).1 =
      if p.enable_overshoot_emergency = true ∧
          cd.stop_dist < -p.state_transition_params.emergency_state_overshoot_stop_dist then
        EMERGENCY
      else if stoppedCondition p clk (updateLastRunningTime p clk s cd) = true then
        STOPPED
      else if cd.stop_dist > p.state_transition_params.drive_state_stop_dist +
          p.state_transition_params.drive_state_offset_stop_dist then
        DRIVE
      else STOPPING := by
  unfold updateControlState emergencyCondition
  simp only [Bool.and_eq_true, decide_eq_true_eq]
  split_ifs <;> simp_all

/-- Claim C6. Called in state Stopped, `updateControlState` returns Stopped when
keep-stopped-until-steer-converged is enabled and the lateral controller has not reported
convergence; otherwise Drive exactly when `stop_dist > drive_state_stop_dist` (no hysteresis
offset) and Stopped otherwise. It never returns Emergency or Stopping. -/
theorem updateControlState_from_stopped (p : Params) (clk : Clock) (s : Controller)
    (cd : ControlData) :
    ((updateControlState p clk s STOPPED cd).1 =
      if p.enable_keep_stopped_until_steer_convergence = true ∧
          s.is_steer_converged = false then
        STOPPED
      else if cd.stop_dist > p.state_transition_params.drive_state_stop_dist then
        DRIVE
      else STOPPED) ∧
    (updateControlState p clk s STOPPED cd).1 ≠ EMERGENCY ∧
    (updateControlState p clk s STOPPED cd).1 ≠ STOPPING := by
  unfold updateControlState
  simp only [Bool.and_eq_true, decide_eq_true_eq, Bool.not_eq_true']
  split_ifs <;> simp_all

/-- Claim C7. When the state passed to `updateControlState` is the stored state of the
controller, as in `run`, and that state is Emergency, the call returns Stopped exactly when the
stopped-duration condition holds and the overshoot emergency condition does not hold, and
Emergency otherwise; it never returns Drive or Stopping. -/
theorem updateControlState_from_emergency (p : Params) (clk : Clock) (s : Controller)
    (cd : ControlData) (hs : s.control_state = EMERGENCY) :
    ((updateControlState p clk s s.control_state cd).1 =
      if stoppedCondition p clk (updateLastRunningTime p clk s cd) = true ∧
          ¬ (p.enable_overshoot_emergency = true ∧
            cd.stop_dist < -p.state_transition_params.emergency_state_overshoot_stop_dist) then
        STOPPED
      else EMERGENCY) ∧
    (updateControlState p clk s s.control_state cd).1 ≠ DRIVE ∧
    (updateControlState p clk s s.control_state cd).1 ≠ STOPPING := by
  rw [hs]
  unfold updateControlState emergencyCondition
  simp only [Bool.and_eq_true, decide_eq_true_eq, Bool.not_eq_true']
  split_ifs <;> simp_all

/-- Witness for `updateControlState_from_emergency`: a controller in state Emergency that has
never been observed moving stays in Emergency. -/
theorem updateControlState_from_emergency_witness :
    emergencyController.control_state = EMERGENCY ∧
      (updateControlState sampleParams {} emergencyController emergencyController.control_state
        departData).1 = EMERGENCY ∧
      (updateControlState sampleParams {} emergencyController emergencyController.control_state
        departData).1 ≠ DRIVE ∧
      (updateControlState sampleParams {} emergencyController emergencyController.control_state
        departData).1 ≠ STOPPING :=
  ⟨rfl, by decide!,
   (updateControlState_from_emergency sampleParams {} emergencyController departData rfl).2⟩

/-- Claim C8. On every Stopping→Drive and every Stopped→Drive transition `updateControlState`
resets the PID controller, resets the velocity-error filter to 0 and replaces the last
published acceleration `a` by `max 0 a`; for every other outcome the PID state, the
velocity-error filter and the last published command are unchanged. -/
theorem updateControlState_departure_effects (p : Params) (clk : Clock) (s : Controller)
    (st : ControlState) (cd : ControlData) :
    if (st = STOPPING ∨ st = STOPPED) ∧ (updateControlState p clk s st cd).1 = DRIVE then
      (updateControlState p clk s st cd).2.pid_vel = s.pid_vel.reset ∧
      (updateControlState p clk s st cd).2.lpf_vel_error = s.lpf_vel_error.reset 0 ∧
      (updateControlState p clk s st cd).2.prev_ctrl_cmd =
        { s.prev_ctrl_cmd with acc := max 0 s.prev_ctrl_cmd.acc }
    else
      (updateControlState p clk s st cd).2.pid_vel = s.pid_vel ∧
      (updateControlState p clk s st cd).2.lpf_vel_error = s.lpf_vel_error ∧
      (updateControlState p clk s st cd).2.prev_ctrl_cmd = s.prev_ctrl_cmd := by
  rcases updateControlState_shape p clk s st cd with
    ⟨h2, hn, _⟩ | ⟨h1, h2, v, d, h3⟩ | ⟨h1, h2, h3⟩
  · rw [if_neg hn, h2]; simp
  · have hn : ¬ ((st = STOPPING ∨ st = STOPPED) ∧
        (updateControlState p clk s st cd).1 = DRIVE) := by
      rw [h2]; simp
    rw [if_neg hn, h3]; simp
  · rw [if_pos ⟨h1, h2⟩, h3]; simp [departToDrive]

/-- Claim C9. In `updateControlState` the last-time-moving timestamp is set to the current time
exactly when `|velocity| > stopped_state_entry_vel` or `|acceleration| >
stopped_state_entry_acc` and is otherwise unchanged; the stopped-duration condition holds
exactly when such a timestamp exists and `now - timestamp >
stopped_state_entry_duration_time`; for a vehicle that has never been observed moving the
condition is false and no call returns Stopped from another state. -/
theorem last_running_time_and_stopped_condition (p : Params) (clk : Clock) (s : Controller)
    (st : ControlState) (cd : ControlData) :
    (updateControlState p clk s st cd).2.last_running_time =
      (if |cd.current_motion.vel| > p.state_transition_params.stopped_state_entry_vel ∨
          |cd.current_motion.acc| > p.state_transition_params.stopped_state_entry_acc then
        some clk.now_running
      else s.last_running_time) ∧
    (stoppedCondition p clk (updateControlState p clk s st cd).2.last_running_time = true ↔
      ∃ t, (updateControlState p clk s st cd).2.last_running_time = some t ∧
        clk.now_stopped - t > p.state_transition_params.stopped_state_entry_duration_time) ∧
    ((updateControlState p clk s st cd).2.last_running_time = none →
      stoppedCondition p clk (updateControlState p clk s st cd).2.last_running_time = false ∧
      (st ≠ STOPPED → (updateControlState p clk s st cd).1 ≠ STOPPED)) := by
  have hlrt : (updateControlState p clk s st cd).2.last_running_time =
      updateLastRunningTime p clk s cd := by
    rcases updateControlState_shape p clk s st cd with
      ⟨h2, _, _⟩ | ⟨_, _, v, d, h3⟩ | ⟨_, _, h3⟩
    · rw [h2]
    · rw [h3]
    · rw [h3]; rfl
  refine ⟨?_, ?_, ?_⟩
  · rw [hlrt]
    simp only [updateLastRunningTime, isRunning, Bool.or_eq_true, decide_eq_true_eq]
  · rw [hlrt]
    cases updateLastRunningTime p clk s cd <;> simp [stoppedCondition]
  · rw [hlrt]
    intro hnone
    refine ⟨by rw [hnone]; rfl, ?_⟩
    intro hst
    cases st
    · unfold updateControlState
      simp only [hnone, stoppedCondition, if_true]
      split_ifs <;> simp_all
    · unfold updateControlState
      simp only [hnone, stoppedCondition, if_true]
      split_ifs <;> simp_all
    · exact absurd rfl hst
    · unfold updateControlState
      simp only [hnone, stoppedCondition, if_true]
      split_ifs <;> simp_all

/-- Claim C10, refuted as stated. Two calls that agree on the state argument, the control data,
the configuration, the clock and the last-time-moving timestamp, and differ only in the
steer-converged flag of the lateral controller, return different states; and a call that
departs from Stopped to Drive changes the last published acceleration (from -1 to 0), a member
other than the last-time-moving timestamp. -/
theorem updateControlState_not_pure_counterexample :
    brakedController.last_running_time = brakedConvergedController.last_running_time ∧
      (updateControlState keepStoppedParams {} brakedController STOPPED departData).1 = STOPPED ∧
      (updateControlState keepStoppedParams {} brakedConvergedController STOPPED departData).1 =
        DRIVE ∧
      brakedController.prev_ctrl_cmd.acc = -1 ∧
      (updateControlState sampleParams {} brakedController STOPPED departData).2.prev_ctrl_cmd.acc
        = 0 := by
  decide!

/-- Claim C10, amended. The next state `updateControlState` returns is a function of the state
argument, the control data, the configuration, the clock, the last-time-moving timestamp and
the steer-converged flag of the lateral controller, for calls whose argument is not Emergency
or is the stored control state. The last-time-moving timestamp changes only when motion is
observed; beside it the call changes only the smooth-stop profile (on Drive→Stopping) and the
PID state, the velocity-error filter and the last published command (on departure from
Stopping or Stopped to Drive). -/
theorem updateControlState_dependencies (p : Params) (clk : Clock) (sA sB : Controller)
    (st : ControlState) (cd : ControlData)
    (hl : sA.last_running_time = sB.last_running_time)
    (hc : sA.is_steer_converged = sB.is_steer_converged)
    (hst : st ≠ EMERGENCY ∨ (sA.control_state = st ∧ sB.control_state = st)) :
    (updateControlState p clk sA st cd).1 = (updateControlState p clk sB st cd).1 ∧
    (updateControlState p clk sA st cd).2 =
      { sA with
        last_running_time := (updateControlState p clk sA st cd).2.last_running_time
        smooth_stop := (updateControlState p clk sA st cd).2.smooth_stop
        pid_vel := (updateControlState p clk sA st cd).2.pid_vel
        lpf_vel_error := (updateControlState p clk sA st cd).2.lpf_vel_error
        prev_ctrl_cmd := (updateControlState p clk sA st cd).2.prev_ctrl_cmd } ∧
    (¬ (|cd.current_motion.vel| > p.state_transition_params.stopped_state_entry_vel ∨
        |cd.current_motion.acc| > p.state_transition_params.stopped_state_entry_acc) →
      (updateControlState p clk sA st cd).2.last_running_time = sA.last_running_time) ∧
    (¬ (st = DRIVE ∧ (updateControlState p clk sA st cd).1 = STOPPING) →
      (updateControlState p clk sA st cd).2.smooth_stop = sA.smooth_stop) ∧
    (¬ ((st = STOPPING ∨ st = STOPPED) ∧ (updateControlState p clk sA st cd).1 = DRIVE) →
      (updateControlState p clk sA st cd).2.pid_vel = sA.pid_vel ∧
      (updateControlState p clk sA st cd).2.lpf_vel_error = sA.lpf_vel_error ∧
      (updateControlState p clk sA st cd).2.prev_ctrl_cmd = sA.prev_ctrl_cmd) := by
  have hrun : updateLastRunningTime p clk sA cd = updateLastRunningTime p clk sB cd := by
    simp only [updateLastRunningTime, hl]
  refine ⟨?_, ?_, ?_, ?_, ?_⟩
  · cases st
    · simp only [updateControlState, if_true, hrun]
      split_ifs <;> rfl
    · simp only [updateControlState, if_true, reduceCtorEq, if_false, hrun]
      split_ifs <;> rfl
    · simp only [updateControlState, if_true, reduceCtorEq, if_false, hc]
      split_ifs <;> rfl
    · rcases hst with h | ⟨hA, hB⟩
      · exact absurd rfl h
      · simp only [updateControlState, if_true, reduceCtorEq, if_false, hrun, hA, hB]
        split_ifs <;> rfl
  · rcases updateControlState_shape p clk sA st cd with
      ⟨h2, _, _⟩ | ⟨_, _, v, d, h3⟩ | ⟨_, _, h3⟩
    · rw [h2]
    · rw [h3]
    · rw [h3]; rfl
  · intro hnot
    have hfalse : isRunning p cd = false := by
      simp only [isRunning, Bool.or_eq_false_iff, decide_eq_false_iff_not]
      exact ⟨fun h => hnot (Or.inl h), fun h => hnot (Or.inr h)⟩
    rcases updateControlState_shape p clk sA st cd with
      ⟨h2, _, _⟩ | ⟨_, _, v, d, h3⟩ | ⟨_, _, h3⟩
    · rw [h2]; simp [updateLastRunningTime, hfalse]
    · rw [h3]; simp [updateLastRunningTime, hfalse]
    · rw [h3]; simp [departToDrive, updateLastRunningTime, hfalse]
  · intro hnot
    rcases updateControlState_shape p clk sA st cd with
      ⟨h2, _, _⟩ | ⟨h1, h2, _⟩ | ⟨_, _, h3⟩
    · rw [h2]
    · exact absurd ⟨h1, h2⟩ hnot
    · rw [h3]; rfl
  · intro hnot
    rcases updateControlState_shape p clk sA st cd with
      ⟨h2, _, _⟩ | ⟨_, _, v, d, h3⟩ | ⟨h1, h2, _⟩
    · rw [h2]; exact ⟨rfl, rfl, rfl⟩
    · rw [h3]; exact ⟨rfl, rfl, rfl⟩
    · exact absurd ⟨h1, h2⟩ hnot

/-- Witness for `updateControlState_dependencies`: two stopped controllers that differ in the
last published acceleration only return the same next state. -/
theorem updateControlState_dependencies_witness :
    brakedController.last_running_time = freshController.last_running_time ∧
      brakedController.is_steer_converged = freshController.is_steer_converged ∧
      (STOPPED ≠ EMERGENCY ∨
        (brakedController.control_state = STOPPED ∧ freshController.control_state = STOPPED)) ∧
      (updateControlState sampleParams {} brakedController STOPPED departData).1 =
        (updateControlState sampleParams {} freshController STOPPED departData).1 :=
  ⟨rfl, rfl, Or.inl (by decide),
   (updateControlState_dependencies sampleParams {} brakedController freshController STOPPED
     departData rfl rfl (Or.inl (by decide))).1⟩

/-! ## Lemmas on the delay predictor and the ramps -/

/-- The sign fix never returns a value of the sign opposite to the current velocity. -/
theorem signFix_mul_nonneg (pred_vel current_vel : ℚ) :
    0 ≤ signFix pred_vel current_vel * current_vel := by
  unfold signFix copysign
  split_ifs with h1 h2
  · have : 0 ≤ |pred_vel| := abs_nonneg _
    nlinarith
  · have : 0 ≤ |pred_vel| := abs_nonneg _
    push_neg at h2
    nlinarith
  · simp

/-- One step of the predictor loop adds the acceleration of the previous entry times the length
of the segment inside the delay window. -/
theorem overlapLength_step (prev_stamp stamp now D : ℚ) (h1 : prev_stamp ≤ stamp)
    (h2 : stamp ≤ now) :
    (if now - stamp < D then min (stamp - prev_stamp) (stamp - (now - D)) else 0) =
      overlapLength prev_stamp stamp (now - D) now := by
  unfold overlapLength
  rw [min_eq_left h2]
  split_ifs with h
  · rcases le_total prev_stamp (now - D) with hc | hc
    · rw [max_eq_right hc, min_eq_right (by linarith), max_eq_right (by linarith)]
    · rw [max_eq_left hc, min_eq_left (by linarith), max_eq_right (by linarith)]
  · push_neg at h
    rw [max_eq_left]
    have : now - D ≤ max prev_stamp (now - D) := le_max_right _ _
    linarith

/-- The segment from the newest entry to `now` lies inside the delay window. -/
theorem overlapLength_last (stamp now D : ℚ) (h1 : stamp ≤ now) (h2 : now - D ≤ stamp) :
    overlapLength stamp now (now - D) now = now - stamp := by
  unfold overlapLength
  rw [min_self, max_eq_left h2, max_eq_right (by linarith)]

/-- Adjacent segments add up. -/
theorem overlapLength_add (a b now D : ℚ) (h1 : a ≤ b) (h2 : b ≤ now) :
    overlapLength a b (now - D) now + overlapLength b now (now - D) now =
      overlapLength a now (now - D) now := by
  unfold overlapLength
  rw [min_eq_left h2, min_self]
  simp only [max_def]
  split_ifs <;> linarith

/-- In a history ordered by stamp the first stamp is at most the last one. -/
theorem head_stamp_le_last :
    ∀ (rest : List LongitudinalCommand) (c : LongitudinalCommand),
      List.Chain' (fun a b : LongitudinalCommand => a.stamp ≤ b.stamp) (c :: rest) →
      c.stamp ≤ ((c :: rest).getLast (List.cons_ne_nil c rest)).stamp := by
  intro rest
  induction rest with
  | nil => intro c _; simp
  | cons d rest ih =>
    intro c hchain
    have h1 : c.stamp ≤ d.stamp := (List.chain'_cons.mp hchain).1
    have h2 := ih d (List.chain'_cons.mp hchain).2
    rw [List.getLast_cons (List.cons_ne_nil d rest)]
    exact le_trans h1 h2

/-- The predictor loop computes the zero-order-hold integral up to the last segment. -/
theorem predLoop_zoh (p : Params) (clk : Clock) (now D : ℚ)
    (hloop : ∀ i, clk.now_pred_loop i = now) (hD : p.delay_compensation_time = D) :
    ∀ (rest : List LongitudinalCommand) (prev : LongitudinalCommand) (i : Nat) (pv : ℚ),
      List.Chain' (fun a b : LongitudinalCommand => a.stamp ≤ b.stamp) (prev :: rest) →
      ((prev :: rest).getLast (List.cons_ne_nil prev rest)).stamp ≤ now →
      predLoop p clk (now - D) prev i rest pv +
          ((prev :: rest).getLast (List.cons_ne_nil prev rest)).acceleration *
            overlapLength ((prev :: rest).getLast (List.cons_ne_nil prev rest)).stamp now
              (now - D) now =
        pv + zohIntegral now D (prev :: rest) := by
  intro rest
  induction rest with
  | nil =>
    intro prev i pv _ _
    simp [predLoop, zohIntegral]
  | cons c rest ih =>
    intro prev i pv hchain hlast
    have hpc : prev.stamp ≤ c.stamp := (List.chain'_cons.mp hchain).1
    have hchain2 := (List.chain'_cons.mp hchain).2
    rw [List.getLast_cons (List.cons_ne_nil c rest)] at hlast
    have hcnow : c.stamp ≤ now := le_trans (head_stamp_le_last rest c hchain2) hlast
    have hstep := overlapLength_step prev.stamp c.stamp now D hpc hcnow
    simp only [List.getLast_cons (List.cons_ne_nil c rest), zohIntegral]
    unfold predLoop
    rw [hloop i, hD]
    split_ifs with h
    · rw [if_pos h] at hstep
      simp only
      rw [ih c (i + 1) _ hchain2 hlast, hstep]
      ring
    · rw [if_neg h] at hstep
      rw [ih c (i + 1) _ hchain2 hlast, ← hstep]
      ring

/-- The time weights of an ordered history add up to the part of the delay window after its
first entry. -/
theorem zohWeight_eq (now D : ℚ) :
    ∀ (rest : List LongitudinalCommand) (c : LongitudinalCommand),
      List.Chain' (fun a b : LongitudinalCommand => a.stamp ≤ b.stamp) (c :: rest) →
      ((c :: rest).getLast (List.cons_ne_nil c rest)).stamp ≤ now →
      zohWeight now D (c :: rest) = overlapLength c.stamp now (now - D) now := by
  intro rest
  induction rest with
  | nil => intro c _ _; rfl
  | cons d rest ih =>
    intro c hchain hlast
    have hcd : c.stamp ≤ d.stamp := (List.chain'_cons.mp hchain).1
    have hchain2 := (List.chain'_cons.mp hchain).2
    rw [List.getLast_cons (List.cons_ne_nil d rest)] at hlast
    have hdnow : d.stamp ≤ now := le_trans (head_stamp_le_last rest d hchain2) hlast
    simp only [zohWeight]
    rw [ih d hchain2 hlast]
    exact overlapLength_add c.stamp d.stamp now D hcd hdnow

/-- For a positive time step the single-limit diff filter is the previous value plus the clamped
difference. -/
theorem applyDiffLimitFilterSym_eq (input_val prev_val dt lim_val : ℚ) (hdt : 0 < dt) :
    applyDiffLimitFilterSym input_val prev_val dt lim_val =
      prev_val + clamp (input_val - prev_val) (-|lim_val| * dt) (|lim_val| * dt) := by
  unfold applyDiffLimitFilterSym applyDiffLimitFilter clamp
  have hne : dt ≠ 0 := ne_of_gt hdt
  have hx : (input_val - prev_val) / dt * dt = input_val - prev_val := by field_simp
  rw [min_mul_of_nonneg _ _ (le_of_lt hdt), max_mul_of_nonneg _ _ (le_of_lt hdt), hx]

/-- The single-limit diff filter moves towards its input without passing it, by at most the
limit times the time step. -/
theorem applyDiffLimitFilterSym_bounds (input_val prev_val dt lim_val : ℚ) (hdt : 0 < dt) :
    min prev_val input_val ≤ applyDiffLimitFilterSym input_val prev_val dt lim_val ∧
    applyDiffLimitFilterSym input_val prev_val dt lim_val ≤ max prev_val input_val ∧
    |applyDiffLimitFilterSym input_val prev_val dt lim_val - prev_val| ≤ |lim_val| * dt := by
  have hb := applyDiffLimitFilter_between input_val prev_val dt |lim_val| (-|lim_val|) hdt
    (neg_nonpos.mpr (abs_nonneg _)) (abs_nonneg _)
  refine ⟨hb.1, hb.2, ?_⟩
  rw [applyDiffLimitFilterSym_eq _ _ _ _ hdt]
  have hL : 0 ≤ |lim_val| * dt := mul_nonneg (abs_nonneg _) (le_of_lt hdt)
  have hc := clamp_mem (input_val - prev_val) (-|lim_val| * dt) (|lim_val| * dt) (by linarith)
  rw [add_sub_cancel_left, abs_le]
  exact ⟨by linarith [hc.1], hc.2⟩

/-- At its input the single-limit diff filter stays. -/
theorem applyDiffLimitFilterSym_fixed (val dt lim_val : ℚ) :
    applyDiffLimitFilterSym val val dt lim_val = val := by
  unfold applyDiffLimitFilterSym applyDiffLimitFilter
  have h0 : min (max ((val - val) / dt) (-|lim_val|)) |lim_val| = 0 := by
    rw [sub_self, zero_div, max_eq_left (neg_nonpos.mpr (abs_nonneg _)),
      min_eq_left (abs_nonneg _)]
  rw [h0]; ring

/-- The method `storeAccelCmd` does not change the previous raw command. -/
theorem storeAccelCmd_prev_raw (p : Params) (clk : Clock) (s : Controller) (accel : ℚ) :
    (storeAccelCmd p clk s accel).prev_raw_ctrl_cmd = s.prev_raw_ctrl_cmd := by
  unfold storeAccelCmd
  simp only
  generalize (if s.control_state = DRIVE then
    s.ctrl_cmd_vec ++ [({ stamp := clk.now_store_stamp, acceleration := accel } : LongitudinalCommand)]
    else []) = vec
  split_ifs
  · rfl
  · split
    · split_ifs <;> rfl
    · rfl

/-! ## Claims on the delay predictor, the cycle time and the ramps -/

/-- Claim C11. For every current motion with `|velocity| < 0.1`, every command history and every
delay horizon, `predictedVelocityInTargetPoint` returns the input velocity unchanged. -/
theorem predictedVelocity_low_speed_unchanged (p : Params) (clk : Clock) (s : Controller)
    (current_motion : Motion)
    (delay_compensation_time : ℚ) (h : |current_motion.vel| < 1 / 10) :
    predictedVelocityInTargetPoint p clk s current_motion delay_compensation_time =
      current_motion.vel := by
  unfold predictedVelocityInTargetPoint
  simp only [h, if_true]

/-- Witness for `predictedVelocity_low_speed_unchanged`: at 0.05 m/s with the history
`sampleHistory` the prediction is 0.05 m/s. -/
theorem predictedVelocity_low_speed_unchanged_witness :
    |({ vel := 1 / 20, acc := 1 } : Motion).vel| < 1 / 10 ∧
      predictedVelocityInTargetPoint sampleParams (predClockAt (3 / 20)) historyController
        { vel := 1 / 20, acc := 1 } (1 / 10) = ({ vel := 1 / 20, acc := 1 } : Motion).vel :=
  ⟨by decide!,
   predictedVelocity_low_speed_unchanged sampleParams (predClockAt (3 / 20)) historyController
     { vel := 1 / 20, acc := 1 } (1 / 10) (by decide!)⟩

/-- Claim C12, evaluated at the failing input. With an empty command history and a reverse
velocity of -1 m/s the linear extrapolation over 0.1 s is -1 m/s for a measured acceleration 0,
of the same sign as the velocity, yet the code returns 0; for a measured acceleration 20 the
extrapolation is +1 m/s, across zero, yet the code returns -1 m/s. -/
theorem predictedVelocity_empty_history_reverse :
    predictedVelocityInTargetPoint sampleParams {} {} { vel := -1, acc := 0 } (1 / 10) = 0 ∧
    ((-1 : ℚ) + 0 * (1 / 10) = -1) ∧
    predictedVelocityInTargetPoint sampleParams {} {} { vel := -1, acc := 20 } (1 / 10) = -1 ∧
    ((-1 : ℚ) + 20 * (1 / 10) = 1) := by
  decide!

/-- Claim C13. For every current motion, command history and delay horizon the velocity `r`
returned by `predictedVelocityInTargetPoint` never has the sign opposite to the current
velocity `v`: `r * v ≥ 0`. -/
theorem predictedVelocity_keeps_sign (p : Params) (clk : Clock) (s : Controller)
    (current_motion : Motion)
    (delay_compensation_time : ℚ) :
    0 ≤ predictedVelocityInTargetPoint p clk s current_motion delay_compensation_time *
      current_motion.vel := by
  unfold predictedVelocityInTargetPoint
  simp only
  split_ifs with h
  · exact mul_self_nonneg _
  · split
    · exact signFix_mul_nonneg _ _
    · split_ifs <;> exact signFix_mul_nonneg _ _

/-- Claim C14. For a non-empty command history ordered by stamp, with all stamps at most `now`,
delay `D > 0`, oldest entry at least `D` old, newest entry inside the horizon and
`|v| ≥ 0.1`, read with a single clock value `now` and with the delay argument equal to the
configured delay: the magnitude `predictedVelocityInTargetPoint` computes before the sign fix is
`|v|` plus the zero-order-hold integral of the commanded acceleration over `[now - D, now]`,
the returned value is the sign fix of it, and the time weights add up to `D`. -/
theorem predictedVelocity_zero_order_hold (p : Params) (clk : Clock) (s : Controller)
    (current_motion : Motion)
    (now D : ℚ) (c0 : LongitudinalCommand) (rest : List LongitudinalCommand)
    (hvec : s.ctrl_cmd_vec = c0 :: rest)
    (hsorted : List.Chain' (fun a b : LongitudinalCommand => a.stamp ≤ b.stamp) (c0 :: rest))
    (hlast : ((c0 :: rest).getLast (List.cons_ne_nil c0 rest)).stamp ≤ now)
    (hD : 0 < D) (hp : p.delay_compensation_time = D)
    (hold : c0.stamp ≤ now - D)
    (hnew : now - D ≤ ((c0 :: rest).getLast (List.cons_ne_nil c0 rest)).stamp)
    (hv : 1 / 10 ≤ |current_motion.vel|)
    (hpast : clk.now_pred_past = now) (hloop : ∀ i, clk.now_pred_loop i = now)
    (hnowlast : clk.now_pred_last = now) :
    predVelMagnitude p clk current_motion D c0 rest =
        |current_motion.vel| + zohIntegral now D (c0 :: rest) ∧
      predictedVelocityInTargetPoint p clk s current_motion D =
        signFix (|current_motion.vel| + zohIntegral now D (c0 :: rest)) current_motion.vel ∧
      zohWeight now D (c0 :: rest) = D := by
  have hmag : predVelMagnitude p clk current_motion D c0 rest =
      |current_motion.vel| + zohIntegral now D (c0 :: rest) := by
    unfold predVelMagnitude
    simp only [hpast, hnowlast]
    rw [← predLoop_zoh p clk now D hloop hp rest c0 1 |current_motion.vel| hsorted hlast,
      overlapLength_last _ now D hlast hnew]
  refine ⟨hmag, ?_, ?_⟩
  · unfold predictedVelocityInTargetPoint
    simp only [hvec]
    rw [if_neg (not_lt.mpr hv), hloop 0, hp, if_neg (by linarith), hmag]
  · rw [zohWeight_eq now D rest c0 hsorted hlast]
    unfold overlapLength
    rw [min_self, max_eq_right hold, max_eq_right (by linarith)]
    ring

/-- Witness for `predictedVelocity_zero_order_hold`: the history `sampleHistory` read at
`now = 0.15` with a delay of 0.1 s. -/
theorem predictedVelocity_zero_order_hold_witness :
    (0 : ℚ) < 1 / 10 ∧ (0 : ℚ) ≤ 3 / 20 - 1 / 10 ∧ (3 / 20 - 1 / 10 : ℚ) ≤ 3 / 25 ∧
      (3 / 25 : ℚ) ≤ 3 / 20 ∧
      (predVelMagnitude sampleParams (predClockAt (3 / 20)) { vel := 1, acc := 0 } (1 / 10)
          { stamp := 0, acceleration := 1 }
          [{ stamp := 1 / 20, acceleration := 2 }, { stamp := 3 / 25, acceleration := -1 }] =
        |(1 : ℚ)| + zohIntegral (3 / 20) (1 / 10) sampleHistory ∧
      predictedVelocityInTargetPoint sampleParams (predClockAt (3 / 20)) historyController
          { vel := 1, acc := 0 } (1 / 10) =
        signFix (|(1 : ℚ)| + zohIntegral (3 / 20) (1 / 10) sampleHistory) 1 ∧
      zohWeight (3 / 20) (1 / 10) sampleHistory = 1 / 10) :=
  ⟨by decide!, by decide!, by decide!, by decide!,
   predictedVelocity_zero_order_hold sampleParams (predClockAt (3 / 20)) historyController
     { vel := 1, acc := 0 } (3 / 20) (1 / 10) { stamp := 0, acceleration := 1 }
     [{ stamp := 1 / 20, acceleration := 2 }, { stamp := 3 / 25, acceleration := -1 }]
     rfl (List.chain'_cons.mpr ⟨by decide!, List.chain'_cons.mpr ⟨by decide!,
       List.chain'_singleton _⟩⟩)
     (by decide!) (by decide!) rfl (by decide!) (by decide!) (by decide!)
     rfl (fun _ => rfl) rfl⟩

/-- Claim C15. For a positive nominal cycle period `getDt` returns a value within
`[0.5 * period, 2 * period]`, whatever the elapsed time; the value is the elapsed time since
the previous cycle whenever that lies in the interval, and on the first call (no previous
control time) it is exactly the period. -/
theorem getDt_clamped (p : Params) (clk : Clock) (s : Controller)
    (hp : 0 < p.longitudinal_ctrl_period) :
    (1 / 2) * p.longitudinal_ctrl_period ≤ (getDt p clk s).1 ∧
    (getDt p clk s).1 ≤ 2 * p.longitudinal_ctrl_period ∧
    (∀ t, s.prev_control_time = some t →
      (1 / 2) * p.longitudinal_ctrl_period ≤ clk.now_dt_elapsed - t →
      clk.now_dt_elapsed - t ≤ 2 * p.longitudinal_ctrl_period →
      (getDt p clk s).1 = clk.now_dt_elapsed - t) ∧
    (s.prev_control_time = none → (getDt p clk s).1 = p.longitudinal_ctrl_period) := by
  unfold getDt
  simp only
  refine ⟨?_, ?_, ?_, ?_⟩
  · rw [mul_comm]; exact le_max_right _ _
  · apply max_le
    · rw [mul_comm]; exact min_le_right _ _
    · linarith
  · intro t ht h1 h2
    rw [ht]
    simp only
    rw [min_eq_left (by linarith), max_eq_left (by linarith)]
  · intro hn
    rw [hn]
    simp only
    rw [min_eq_left (by linarith), max_eq_left (by linarith)]

/-- Witness for `getDt_clamped`: the sample configuration has a period of 0.1 s, and a fresh
controller gets exactly that on its first call. -/
theorem getDt_clamped_witness :
    0 < sampleParams.longitudinal_ctrl_period ∧
      (1 / 2) * sampleParams.longitudinal_ctrl_period ≤
        (getDt sampleParams {} freshController).1 ∧
      (getDt sampleParams {} freshController).1 ≤ 2 * sampleParams.longitudinal_ctrl_period :=
  ⟨by decide!, (getDt_clamped sampleParams {} freshController (by decide!)).1,
   (getDt_clamped sampleParams {} freshController (by decide!)).2.1⟩

/-- Claim C16. For every pair of odometry samples, whatever their stamps, the divisor in
`getCurrentMotion` is `max (stamp delta) 0.001 ≥ 0.001`, the reported velocity is the velocity
of the latest sample and the reported acceleration is the low-pass filter applied to the
velocity difference divided by that divisor. -/
theorem getCurrentMotion_finite_difference (ext : Ext) (cur prev : Odometry) (s : Controller) :
    (1 / 1000 : ℚ) ≤ max (cur.stamp - prev.stamp) (1 / 1000) ∧
    (getCurrentMotion ext cur prev s).1.vel = cur.linear_x ∧
    (getCurrentMotion ext cur prev s).1.acc =
      (ext.lpf_filter s.lpf_acc
        ((cur.linear_x - prev.linear_x) / max (cur.stamp - prev.stamp) (1 / 1000))).1 :=
  ⟨le_max_right _ _, rfl, rfl⟩

/-- Claim C17. In a cycle in which no nearest trajectory index is found, `run` emits the command
`calcEmergencyCtrlCmd(dt)` computed from the previous raw command and stores it as the new
previous raw command; the control state becomes Emergency exactly when the
large-tracking-error emergency is enabled and is unchanged otherwise. Beside the state, the two
previous commands, the cycle-time bookkeeping, the acceleration filter and the velocity
history, no member changes: the PID state, the command history and the last-time-moving
timestamp are untouched. -/
theorem run_far_from_trajectory (p : Params) (ext : Ext) (env : Env) (s : Controller)
    (cur prev : Odometry)
    (traj : Trajectory)
    (hcur : s.current_velocity_ptr = some cur) (hprev : s.prev_velocity_ptr = some prev)
    (htraj : s.trajectory_ptr = some traj) (htf : env.can_transform = true)
    (hfar : env.nearest_idx_opt = none) :
    run p ext env s =
      .ok (some { control_cmd :=
                    { stamp := env.clock.now_cmd_stamp
                      speed := (calcEmergencyCtrlCmd p s (getDt p env.clock s).1).vel
                      acceleration := (calcEmergencyCtrlCmd p s (getDt p env.clock s).1).acc } },
           { s with
             control_state :=
               if p.enable_large_tracking_error_emergency = true then EMERGENCY
               else s.control_state
             prev_raw_ctrl_cmd := calcEmergencyCtrlCmd p s (getDt p env.clock s).1
             prev_ctrl_cmd := calcEmergencyCtrlCmd p s (getDt p env.clock s).1
             prev_control_time := some env.clock.now_dt_store
             lpf_acc := (getCurrentMotion ext cur prev s).2.lpf_acc
             vel_hist :=
               (createCtrlCmdMsg p env.clock s (calcEmergencyCtrlCmd p s (getDt p env.clock s).1)
                 cur.linear_x).2.vel_hist }) := by
  have hg : getControlData p ext env cur prev traj s =
      .ok ({ dt := (getDt p env.clock s).1,
             current_motion := (getCurrentMotion ext cur prev (getDt p env.clock s).2).1,
             is_far_from_trajectory := true },
           (getCurrentMotion ext cur prev (getDt p env.clock s).2).2) := by
    simp only [getControlData, hfar, pure, Except.pure]
  unfold run
  simp only [hcur, hprev, htraj, htf, Bool.not_true, Bool.false_eq_true, if_false, hg, bind,
    Except.bind, pure, Except.pure, if_true]
  by_cases hflag : p.enable_large_tracking_error_emergency = true
  · simp [hflag, createCtrlCmdMsg, calcEmergencyCtrlCmd, getCurrentMotion, getDt]
    exact ⟨hcur, hprev, htraj⟩
  · simp [hflag, createCtrlCmdMsg, calcEmergencyCtrlCmd, getCurrentMotion, getDt]
    exact ⟨hcur, hprev, htraj⟩

/-- Witness for `run_far_from_trajectory`: a far cycle of `freshController` forces Emergency
under `trackingEmergencyParams` and leaves the state Stopped under `sampleParams`. -/
theorem run_far_from_trajectory_witness :
    envFar.can_transform = true ∧ envFar.nearest_idx_opt = none ∧
      (run trackingEmergencyParams sampleExt envFar freshController).toOption.map
          (fun r => r.2.control_state) = some EMERGENCY ∧
      (run sampleParams sampleExt envFar freshController).toOption.map
          (fun r => r.2.control_state) = some STOPPED :=
  ⟨rfl, rfl,
   by rw [run_far_from_trajectory trackingEmergencyParams sampleExt envFar freshController _ _ _
        rfl rfl rfl rfl rfl]
      rfl,
   by rw [run_far_from_trajectory sampleParams sampleExt envFar freshController _ _ _
        rfl rfl rfl rfl rfl]
      rfl⟩

/-- Claim C18. For every previous raw command and `dt > 0`, `calcEmergencyCtrlCmd` returns the
previous velocity plus the difference to the emergency velocity clamped to
`± |emergency_acc| * dt`, and the previous acceleration plus the difference to the emergency
acceleration clamped to `± |emergency_jerk| * dt`; each component lies between its previous
value and its setpoint, moves by at most the limit times `dt`, and a previous raw command at
the setpoints is a fixed point. -/
theorem calcEmergencyCtrlCmd_ramp (p : Params) (s : Controller) (dt : ℚ) (hdt : 0 < dt) :
    (calcEmergencyCtrlCmd p s dt).vel =
        s.prev_raw_ctrl_cmd.vel +
          clamp (p.emergency_state_params.vel - s.prev_raw_ctrl_cmd.vel)
            (-|p.emergency_state_params.acc| * dt) (|p.emergency_state_params.acc| * dt) ∧
      (calcEmergencyCtrlCmd p s dt).acc =
        s.prev_raw_ctrl_cmd.acc +
          clamp (p.emergency_state_params.acc - s.prev_raw_ctrl_cmd.acc)
            (-|p.emergency_state_params.jerk| * dt) (|p.emergency_state_params.jerk| * dt) ∧
      (min s.prev_raw_ctrl_cmd.vel p.emergency_state_params.vel ≤
          (calcEmergencyCtrlCmd p s dt).vel ∧
        (calcEmergencyCtrlCmd p s dt).vel ≤
          max s.prev_raw_ctrl_cmd.vel p.emergency_state_params.vel ∧
        |(calcEmergencyCtrlCmd p s dt).vel - s.prev_raw_ctrl_cmd.vel| ≤
          |p.emergency_state_params.acc| * dt) ∧
      (min s.prev_raw_ctrl_cmd.acc p.emergency_state_params.acc ≤
          (calcEmergencyCtrlCmd p s dt).acc ∧
        (calcEmergencyCtrlCmd p s dt).acc ≤
          max s.prev_raw_ctrl_cmd.acc p.emergency_state_params.acc ∧
        |(calcEmergencyCtrlCmd p s dt).acc - s.prev_raw_ctrl_cmd.acc| ≤
          |p.emergency_state_params.jerk| * dt) ∧
      (s.prev_raw_ctrl_cmd =
          { vel := p.emergency_state_params.vel, acc := p.emergency_state_params.acc } →
        calcEmergencyCtrlCmd p s dt = s.prev_raw_ctrl_cmd) := by
  refine ⟨applyDiffLimitFilterSym_eq _ _ _ _ hdt, applyDiffLimitFilterSym_eq _ _ _ _ hdt,
    applyDiffLimitFilterSym_bounds _ _ _ _ hdt, applyDiffLimitFilterSym_bounds _ _ _ _ hdt, ?_⟩
  intro hfix
  unfold calcEmergencyCtrlCmd
  simp only [hfix, applyDiffLimitFilterSym_fixed]

/-- Witness for `calcEmergencyCtrlCmd_ramp`: from rest, with emergency acceleration -5 and
jerk 3, a cycle of 0.1 s commands -0.3. -/
theorem calcEmergencyCtrlCmd_ramp_witness :
    (0 : ℚ) < 1 / 10 ∧ (calcEmergencyCtrlCmd sampleParams freshController (1 / 10)).acc =
      -(3 / 10) :=
  ⟨by decide!,
   (calcEmergencyCtrlCmd_ramp sampleParams freshController (1 / 10) (by decide!)).2.1.trans
     (by decide!)⟩

/-- Claim C19. For every previous raw acceleration and `dt > 0`, the raw acceleration
`calcCtrlCmd` produces in state Stopped is the previous raw acceleration plus the difference to
`stopped_acc` clamped to `± |stopped_jerk| * dt`, a step of magnitude at most
`|stopped_jerk| * dt` whatever `max_jerk` and `min_jerk` are; with previous acceleration 0,
`stopped_acc = -1`, `stopped_jerk = 0.5` and `dt = 0.1` it is -0.05. -/
theorem calcCtrlCmd_stopped_ramp (p : Params) (ext : Ext) (env : Env) (traj : Trajectory)
    (s : Controller)
    (cd : ControlData) (hdt : 0 < cd.dt) :
    (∃ c, calcCtrlCmd p ext env traj s STOPPED cd = .ok c ∧
      c.2.prev_raw_ctrl_cmd.acc =
        s.prev_raw_ctrl_cmd.acc +
          clamp (p.stopped_state_params.acc - s.prev_raw_ctrl_cmd.acc)
            (-|p.stopped_state_params.jerk| * cd.dt) (|p.stopped_state_params.jerk| * cd.dt) ∧
      |c.2.prev_raw_ctrl_cmd.acc - s.prev_raw_ctrl_cmd.acc| ≤
        |p.stopped_state_params.jerk| * cd.dt) ∧
    calcRawCtrlCmd p ext env traj s STOPPED cd =
      .ok ({ vel := p.stopped_state_params.vel,
             acc := s.prev_raw_ctrl_cmd.acc +
               clamp (p.stopped_state_params.acc - s.prev_raw_ctrl_cmd.acc)
                 (-|p.stopped_state_params.jerk| * cd.dt)
                 (|p.stopped_state_params.jerk| * cd.dt) }, s) ∧
    (s.prev_raw_ctrl_cmd.acc = 0 → p.stopped_state_params.acc = -1 →
      p.stopped_state_params.jerk = 1 / 2 → cd.dt = 1 / 10 →
      calcRawCtrlCmd p ext env traj s STOPPED cd =
        .ok ({ vel := p.stopped_state_params.vel, acc := -(1 / 20) }, s)) := by
  have hraw : calcRawCtrlCmd p ext env traj s STOPPED cd =
      .ok ({ vel := p.stopped_state_params.vel,
             acc := s.prev_raw_ctrl_cmd.acc +
               clamp (p.stopped_state_params.acc - s.prev_raw_ctrl_cmd.acc)
                 (-|p.stopped_state_params.jerk| * cd.dt)
                 (|p.stopped_state_params.jerk| * cd.dt) }, s) := by
    simp only [calcRawCtrlCmd, reduceCtorEq, if_false, if_true, pure, Except.pure,
      applyDiffLimitFilterSym_eq _ _ _ _ hdt]
  refine ⟨?_, hraw, ?_⟩
  · refine ⟨_, by simp only [calcCtrlCmd, hraw, bind, Except.bind, pure, Except.pure]; rfl,
      ?_, ?_⟩
    · simp only [calcFilteredAcc, storeAccelCmd_prev_raw]
    · simp only [calcFilteredAcc, storeAccelCmd_prev_raw]
      rw [← applyDiffLimitFilterSym_eq _ _ _ _ hdt]
      exact (applyDiffLimitFilterSym_bounds _ _ _ _ hdt).2.2
  · intro h0 h1 h2 h3
    have hval :
        (0 : ℚ) + clamp (-1 - 0) (-|(1 / 2 : ℚ)| * (1 / 10)) (|(1 / 2 : ℚ)| * (1 / 10)) =
          -(1 / 20) := by decide!
    rw [hraw, h0, h1, h2, h3, hval]

/-- Witness for `calcCtrlCmd_stopped_ramp`: the stopped scenario, evaluated. -/
theorem calcCtrlCmd_stopped_ramp_witness :
    0 < tenthSecondData.dt ∧
      calcRawCtrlCmd stoppedScenarioParams sampleExt {} {} freshController STOPPED
          tenthSecondData =
        .ok ({ vel := stoppedScenarioParams.stopped_state_params.vel, acc := -(1 / 20) },
          freshController) :=
  ⟨by decide!,
   (calcCtrlCmd_stopped_ramp stoppedScenarioParams sampleExt {} {} freshController
     tenthSecondData (by decide!)).2.2 rfl rfl rfl rfl⟩

/-- Claim C20. `applySlopeCompensation` returns the input acceleration unchanged when slope
compensation is disabled, and otherwise the input plus `s * 9.81 * sin` of the pitch limited to
`[min_pitch_rad, max_pitch_rad]`, with `s = -1` for Forward, `+1` for Reverse and `0` for
Neutral; with a slope angle of 0.1 rad inside the pitch bounds and Forward shift it subtracts
`9.81 * sin 0.1`. -/
theorem applySlopeCompensation_formula (p : Params) (ext : Ext) (input_acc pitch : ℚ)
    (shift : Shift) :
    (applySlopeCompensation p ext input_acc pitch shift =
      if p.enable_slope_compensation = false then input_acc
      else
        input_acc +
          (match shift with
            | Shift.Forward => -1
            | Shift.Reverse => 1
            | Shift.Neutral => 0) * (981 / 100) *
            ext.sin (min (max pitch p.min_pitch_rad) p.max_pitch_rad)) ∧
    (p.enable_slope_compensation = true → p.min_pitch_rad ≤ 1 / 10 →
        1 / 10 ≤ p.max_pitch_rad →
      applySlopeCompensation p ext input_acc (1 / 10) Shift.Forward =
        input_acc - (981 / 100) * ext.sin (1 / 10)) := by
  constructor
  · unfold applySlopeCompensation
    cases shift <;> cases h : p.enable_slope_compensation <;> simp
  · intro he h1 h2
    unfold applySlopeCompensation
    simp only [he, Bool.not_true, Bool.false_eq_true, if_false, if_true]
    rw [max_eq_left h1, min_eq_left h2]
    ring

/-! ## Lemmas on the inputs, brake keeping and the command history -/

/-- The shift `getCurrentShift` returns for an index inside the trajectory. -/
theorem getCurrentShift_eq (traj : Trajectory) (s : Controller) (nearest_idx : Nat)
    (pt : TrajectoryPoint) (hpt : traj.points[nearest_idx]? = some pt) :
    getCurrentShift traj s nearest_idx =
      .ok (if pt.longitudinal_velocity_mps > 1 / 100000 then Shift.Forward
           else if pt.longitudinal_velocity_mps < -(1 / 100000) then Shift.Reverse
           else s.prev_shift) := by
  simp only [getCurrentShift, hpt, pure, Except.pure]
  split_ifs <;> rfl

/-- What `getControlData` does with the shift and the PID when a nearest index is found. -/
theorem getControlData_shift (p : Params) (ext : Ext) (env : Env) (cur prev : Odometry)
    (traj : Trajectory) (s : Controller) (nearest_idx : Nat)
    (hnear : env.nearest_idx_opt = some nearest_idx) (r : ControlData × Controller)
    (h : getControlData p ext env cur prev traj s = .ok r) :
    getCurrentShift traj s nearest_idx = .ok r.1.shift ∧
      r.2.prev_shift = r.1.shift ∧
      r.2.pid_vel = (if r.1.shift ≠ s.prev_shift then s.pid_vel.reset else s.pid_vel) := by
  have hshift2 : getCurrentShift traj (getCurrentMotion ext cur prev (getDt p env.clock s).2).2
      nearest_idx = getCurrentShift traj s nearest_idx := by
    simp only [getCurrentShift, getCurrentMotion, getDt]
  unfold getControlData at h
  simp only [hnear, bind, Except.bind, pure, Except.pure, hshift2] at h
  cases hs : getCurrentShift traj s nearest_idx with
  | error e => rw [hs] at h; cases h
  | ok sh =>
    rw [hs] at h
    simp only at h
    by_cases hp : p.use_traj_for_pitch = true
    · rw [if_pos hp] at h
      cases h
      refine ⟨rfl, rfl, ?_⟩
      simp only [getCurrentMotion, getDt]
      split_ifs <;> rfl
    · rw [if_neg hp] at h
      cases h
      refine ⟨rfl, rfl, ?_⟩
      simp only [getCurrentMotion, getDt]
      split_ifs <;> rfl

/-- With a nearest index inside the trajectory `getControlData` returns. -/
theorem getControlData_total (p : Params) (ext : Ext) (env : Env) (cur prev : Odometry)
    (traj : Trajectory) (s : Controller) (nearest_idx : Nat) (pt : TrajectoryPoint)
    (hpt : traj.points[nearest_idx]? = some pt)
    (hnear : env.nearest_idx_opt = some nearest_idx) :
    ∃ r, getControlData p ext env cur prev traj s = .ok r := by
  have hshift2 : getCurrentShift traj (getCurrentMotion ext cur prev (getDt p env.clock s).2).2
      nearest_idx = getCurrentShift traj s nearest_idx := by
    simp only [getCurrentShift, getCurrentMotion, getDt]
  cases h : getControlData p ext env cur prev traj s with
  | ok r => exact ⟨r, rfl⟩
  | error e =>
    exfalso
    unfold getControlData at h
    simp only [hnear, bind, Except.bind, pure, Except.pure, hshift2,
      getCurrentShift_eq traj s nearest_idx pt hpt] at h
    split_ifs at h

/-- The backward scan of `keepBrakeBeforeStop` returns when it starts inside the trajectory; it
ends at an index not after its start, at a point whose acceleration is the minimum found. -/
theorem scanBack_spec (pts : List TrajectoryPoint) :
    ∀ (n : Nat) (m0 : ℚ) (idx0 : Nat), n ≤ pts.length → n ≤ idx0 →
      (∃ q0, pts[idx0]? = some q0 ∧ q0.acceleration_mps2 = m0) →
      ∃ m idx, scanBack pts n m0 idx0 = .ok (m, idx) ∧ idx ≤ idx0 ∧ m ≤ m0 ∧
        ∃ q, pts[idx]? = some q ∧ q.acceleration_mps2 = m := by
  intro n
  induction n with
  | zero =>
    intro m0 idx0 _ _ hq
    exact ⟨m0, idx0, rfl, le_refl _, le_refl _, hq⟩
  | succ i ih =>
    intro m0 idx0 hlen hidx hq
    have hi : i < pts.length := hlen
    have hget : pts[i]? = some pts[i] := List.getElem?_eq_getElem hi
    unfold scanBack
    simp only [hget]
    split_ifs with hgt
    · exact ⟨m0, idx0, rfl, le_refl _, le_refl _, hq⟩
    · obtain ⟨m, idx, h1, h2, h3, h4⟩ := ih pts[i].acceleration_mps2 i (Nat.le_of_lt hi)
        (le_refl _) ⟨pts[i], hget, rfl⟩
      exact ⟨m, idx, h1, le_trans h2 (Nat.le_of_succ_le hidx), le_trans h3 (not_lt.mp hgt), h4⟩

/-- Brake keeping never changes the target velocity. -/
theorem keepBrakeBeforeStop_vel (p : Params) (env : Env) (traj : Trajectory)
    (target_motion out : Motion) (nearest_idx : Nat)
    (h : keepBrakeBeforeStop p env traj target_motion nearest_idx = .ok out) :
    out.vel = target_motion.vel := by
  unfold keepBrakeBeforeStop at h
  simp only [bind, Except.bind, pure, Except.pure] at h
  split_ifs at h with h1
  · cases h; rfl
  · split at h
    · cases h; rfl
    · split at h
      · cases h
      · split at h
        · cases h
        · split_ifs at h <;> cases h <;> rfl

/-- The raw command of `calcCtrlCmd`, state by state. -/
theorem calcRawCtrlCmd_inv (p : Params) (ext : Ext) (env : Env) (traj : Trajectory)
    (s : Controller) (st : ControlState) (cd : ControlData) (r : Motion × Controller)
    (h : calcRawCtrlCmd p ext env traj s st cd = .ok r) :
    r.2.ctrl_cmd_vec = s.ctrl_cmd_vec ∧
      (st = DRIVE → ∃ tp, calcInterpolatedTargetValue env traj cd.nearest_idx = .ok tp ∧
        r.1.vel = tp.longitudinal_velocity_mps) ∧
      (st = STOPPING ∨ st = STOPPED → r.1.vel = p.stopped_state_params.vel) := by
  unfold calcRawCtrlCmd at h
  simp only [bind, Except.bind, pure, Except.pure] at h
  split_ifs at h with h1 h2 h3
  · split at h
    · cases h
    · rename_i tp htp
      split at h
      · cases h
      · rename_i tm htm
        cases h
        refine ⟨by simp [applyVelocityFeedback], ?_, ?_⟩
        · intro _
          exact ⟨tp, htp, keepBrakeBeforeStop_vel p env traj _ tm _ htm⟩
        · intro hst
          rcases hst with hst | hst <;> rw [hst] at h1 <;> cases h1
  · cases h
    refine ⟨rfl, fun hd => absurd hd h1, fun _ => rfl⟩
  · cases h
    refine ⟨rfl, fun hd => absurd hd h1, fun _ => rfl⟩
  · cases h
    refine ⟨rfl, fun hd => absurd hd h1, ?_⟩
    intro hst
    rcases hst with hst | hst
    · exact absurd hst h2
    · exact absurd hst h3

/-- Outside Drive the raw command generation returns. -/
theorem calcRawCtrlCmd_total (p : Params) (ext : Ext) (env : Env) (traj : Trajectory)
    (s : Controller) (st : ControlState) (cd : ControlData) (hst : st ≠ DRIVE) :
    ∃ raw, calcRawCtrlCmd p ext env traj s st cd = .ok (raw, s) := by
  unfold calcRawCtrlCmd
  simp only [hst, if_false, pure, Except.pure]
  split_ifs <;> exact ⟨_, rfl⟩

/-- The command history after `storeAccelCmd`. -/
theorem storeAccelCmd_vec (p : Params) (clk : Clock) (s : Controller) (accel : ℚ) :
    (s.control_state ≠ DRIVE → (storeAccelCmd p clk s accel).ctrl_cmd_vec = []) ∧
      (s.control_state = DRIVE →
        (storeAccelCmd p clk s accel).ctrl_cmd_vec =
            s.ctrl_cmd_vec ++
              [({ stamp := clk.now_store_stamp, acceleration := accel } : LongitudinalCommand)] ∨
          (storeAccelCmd p clk s accel).ctrl_cmd_vec =
            (s.ctrl_cmd_vec ++
              [({ stamp := clk.now_store_stamp, acceleration := accel } :
                LongitudinalCommand)]).tail) := by
  constructor
  · intro h
    simp [storeAccelCmd, h]
  · intro h
    unfold storeAccelCmd
    simp only [h, if_true]
    split_ifs
    · left; rfl
    · split
      · rename_i c0 c1 rest heq
        rw [heq]
        split_ifs
        · right; rfl
        · left; rfl
      · left; rfl

/-- Decomposition of `calcCtrlCmd` into the raw command and the shaping stage. -/
theorem calcCtrlCmd_inv (p : Params) (ext : Ext) (env : Env) (traj : Trajectory)
    (s : Controller) (st : ControlState) (cd : ControlData) (c : Motion × Controller)
    (h : calcCtrlCmd p ext env traj s st cd = .ok c) :
    ∃ r, calcRawCtrlCmd p ext env traj s st cd = .ok r ∧
      c = ({ vel := r.1.vel,
             acc := (calcFilteredAcc p ext env.clock { r.2 with prev_raw_ctrl_cmd := r.1 }
               r.1.acc cd).1 },
           (calcFilteredAcc p ext env.clock { r.2 with prev_raw_ctrl_cmd := r.1 }
               r.1.acc cd).2) := by
  unfold calcCtrlCmd at h
  simp only [bind, Except.bind, pure, Except.pure] at h
  split at h
  · cases h
  · rename_i r hr
    cases h
    exact ⟨r, hr, rfl⟩

/-- The newest entry of the history after `storeAccelCmd` in Drive is the stored command. -/
theorem storeAccelCmd_getLast (p : Params) (clk : Clock) (s : Controller) (accel : ℚ)
    (h : s.control_state = DRIVE) :
    (storeAccelCmd p clk s accel).ctrl_cmd_vec.getLast? =
      some { stamp := clk.now_store_stamp, acceleration := accel } := by
  unfold storeAccelCmd
  simp only [h, if_true]
  split_ifs
  · simp
  · split
    · rename_i c0 c1 rest heq
      have hl : (c0 :: c1 :: rest).getLast? =
          some ({ stamp := clk.now_store_stamp, acceleration := accel } : LongitudinalCommand) := by
        rw [← heq]; simp
      split_ifs
      · simpa [List.getLast?_cons_cons] using hl
      · exact hl
    · simp

/-- One `storeAccelCmd` call keeps the history ordered and below the stamp it used, when the
history was ordered and below an earlier clock reading. -/
theorem storeAccelCmd_sorted (p : Params) (clk : Clock) (s : Controller) (accel t : ℚ)
    (hs : List.Pairwise (fun a b : LongitudinalCommand => a.stamp ≤ b.stamp) s.ctrl_cmd_vec)
    (hb : ∀ c ∈ s.ctrl_cmd_vec, c.stamp ≤ t) (ht : t ≤ clk.now_store_stamp) :
    List.Pairwise (fun a b : LongitudinalCommand => a.stamp ≤ b.stamp)
        (storeAccelCmd p clk s accel).ctrl_cmd_vec ∧
      ∀ c ∈ (storeAccelCmd p clk s accel).ctrl_cmd_vec, c.stamp ≤ clk.now_store_stamp := by
  by_cases hd : s.control_state = DRIVE
  · have happ : List.Pairwise (fun a b : LongitudinalCommand => a.stamp ≤ b.stamp)
        (s.ctrl_cmd_vec ++
          [({ stamp := clk.now_store_stamp, acceleration := accel } : LongitudinalCommand)]) := by
      rw [List.pairwise_append]
      refine ⟨hs, List.pairwise_singleton _ _, ?_⟩
      intro a ha b hb2
      simp only [List.mem_singleton] at hb2
      rw [hb2]
      exact le_trans (hb a ha) ht
    have hbound : ∀ c ∈ s.ctrl_cmd_vec ++
        [({ stamp := clk.now_store_stamp, acceleration := accel } : LongitudinalCommand)],
        c.stamp ≤ clk.now_store_stamp := by
      intro c hc
      rcases List.mem_append.mp hc with hc | hc
      · exact le_trans (hb c hc) ht
      · simp only [List.mem_singleton] at hc
        rw [hc]
    rcases (storeAccelCmd_vec p clk s accel).2 hd with e | e
    · rw [e]; exact ⟨happ, hbound⟩
    · rw [e]
      exact ⟨happ.sublist (List.tail_sublist _), fun c hc => hbound c (List.mem_of_mem_tail hc)⟩
  · rw [(storeAccelCmd_vec p clk s accel).1 hd]
    exact ⟨List.Pairwise.nil, fun c hc => by simp at hc⟩

/-- A sequence of `storeAccelCmd` calls with non-decreasing stamps keeps the history ordered. -/
theorem storeAccelCmdCalls_sorted (p : Params) :
    ∀ (calls : List (Clock × ControlState × ℚ)) (s : Controller) (t : ℚ),
      List.Pairwise (fun a b : LongitudinalCommand => a.stamp ≤ b.stamp) s.ctrl_cmd_vec →
      (∀ c ∈ s.ctrl_cmd_vec, c.stamp ≤ t) →
      (∀ call ∈ calls, t ≤ call.1.now_store_stamp) →
      List.Pairwise (fun a b : Clock × ControlState × ℚ =>
        a.1.now_store_stamp ≤ b.1.now_store_stamp) calls →
      List.Pairwise (fun a b : LongitudinalCommand => a.stamp ≤ b.stamp)
        (storeAccelCmdCalls p calls s).ctrl_cmd_vec := by
  intro calls
  induction calls with
  | nil => intro s t hs _ _ _; exact hs
  | cons call rest ih =>
    intro s t hs hb hcalls hclock
    obtain ⟨clk, st, accel⟩ := call
    simp only [storeAccelCmdCalls]
    have hstep := storeAccelCmd_sorted p clk { s with control_state := st } accel t hs hb
      (hcalls (clk, st, accel) (by simp))
    exact ih _ clk.now_store_stamp hstep.1 hstep.2 (List.pairwise_cons.mp hclock).1
      (List.pairwise_cons.mp hclock).2

/-! ## Claims on the inputs, brake keeping and the command history -/

/-- Claim C21, refuted as stated. With brake keeping enabled, a stop index, the nearest index at
the end of the backward scan and a target acceleration 0 above the configured
`brake_keeping_acc = -0.2`, `keepBrakeBeforeStop` returns the acceleration -0.1, the minimum
found by the scan, not `brake_keeping_acc`. -/
theorem keepBrakeBeforeStop_not_configured_acc :
    brakeKeepingParams.enable_brake_keeping_before_stop = true ∧
      scanBack brakingTrajectory.points 2 (-(1 / 20)) 2 = .ok (-(1 / 10), 1) ∧
      ({ vel := 1 / 2, acc := 0 } : Motion).acc > brakeKeepingParams.brake_keeping_acc ∧
      keepBrakeBeforeStop brakeKeepingParams envBraking brakingTrajectory
          { vel := 1 / 2, acc := 0 } 1 = .ok { vel := 1 / 2, acc := -(1 / 10) } ∧
      (-(1 / 10) : ℚ) ≠ brakeKeepingParams.brake_keeping_acc := by
  decide!

/-- Claim C21, amended. With brake keeping enabled and a stop index inside the trajectory, the
backward scan ends at an index `idx` not after the stop index with the minimum acceleration `m`
found; whenever the nearest index is at or after `idx` and the target acceleration is greater
than `max brake_keeping_acc m`, `keepBrakeBeforeStop` returns the target acceleration
`max brake_keeping_acc m`, which is `brake_keeping_acc` itself when `m ≤ brake_keeping_acc`. -/
theorem keepBrakeBeforeStop_floor (p : Params) (env : Env) (traj : Trajectory)
    (target_motion : Motion) (nearest_idx stop_idx : Nat) (pt : TrajectoryPoint)
    (hen : p.enable_brake_keeping_before_stop = true)
    (hstop : env.stop_idx = some stop_idx) (hpt : traj.points[stop_idx]? = some pt) :
    ∃ m idx, scanBack traj.points stop_idx pt.acceleration_mps2 stop_idx = .ok (m, idx) ∧
      idx ≤ stop_idx ∧
      (∃ q, traj.points[idx]? = some q ∧ q.acceleration_mps2 = m) ∧
      (idx ≤ nearest_idx → target_motion.acc > max p.brake_keeping_acc m →
        keepBrakeBeforeStop p env traj target_motion nearest_idx =
          .ok { target_motion with acc := max p.brake_keeping_acc m }) ∧
      (idx ≤ nearest_idx → m ≤ p.brake_keeping_acc →
        target_motion.acc > p.brake_keeping_acc →
        keepBrakeBeforeStop p env traj target_motion nearest_idx =
          .ok { target_motion with acc := p.brake_keeping_acc }) := by
  have hlen : stop_idx ≤ traj.points.length :=
    Nat.le_of_lt (List.getElem?_eq_some_iff.mp hpt).1
  obtain ⟨m, idx, h1, h2, _, h4⟩ := scanBack_spec traj.points stop_idx pt.acceleration_mps2
    stop_idx hlen (le_refl _) ⟨pt, hpt, rfl⟩
  have hmain : idx ≤ nearest_idx → target_motion.acc > max p.brake_keeping_acc m →
      keepBrakeBeforeStop p env traj target_motion nearest_idx =
        .ok { target_motion with acc := max p.brake_keeping_acc m } := by
    intro hi ha
    unfold keepBrakeBeforeStop
    simp only [hen, hstop, hpt, h1, bind, Except.bind, pure, Except.pure]
    simp [hi, ha]
  refine ⟨m, idx, h1, h2, h4, hmain, ?_⟩
  intro hi hm ha
  have hmax : max p.brake_keeping_acc m = p.brake_keeping_acc := max_eq_left hm
  have := hmain hi (by rw [hmax]; exact ha)
  rw [hmax] at this
  exact this

/-- Witness for `keepBrakeBeforeStop_floor`: on `brakingTrajectory` the scan ends at index 1
with minimum -0.1, and a target acceleration 0 at index 1 is floored at
`max (-0.2) (-0.1) = -0.1`. -/
theorem keepBrakeBeforeStop_floor_witness :
    brakeKeepingParams.enable_brake_keeping_before_stop = true ∧
      envBraking.stop_idx = some 2 ∧
      keepBrakeBeforeStop brakeKeepingParams envBraking brakingTrajectory
          { vel := 1 / 2, acc := 0 } 1 = .ok { vel := 1 / 2, acc := -(1 / 10) } := by
  refine ⟨rfl, rfl, ?_⟩
  obtain ⟨m, idx, h1, _, _, hmain, _⟩ :=
    keepBrakeBeforeStop_floor brakeKeepingParams envBraking brakingTrajectory
      { vel := 1 / 2, acc := 0 } 1 2 ⟨0, -(1 / 20)⟩ rfl rfl rfl
  have hc : scanBack brakingTrajectory.points 2 (-(1 / 20)) 2 = .ok (-(1 / 10), 1) := by
    decide!
  have he : (m, idx) = (-(1 / 10), 1) := Except.ok.inj (h1.symm.trans hc)
  have hm : m = -(1 / 10) := congrArg Prod.fst he
  have hi : idx = 1 := congrArg Prod.snd he
  subst hm
  subst hi
  have hmax : max brakeKeepingParams.brake_keeping_acc (-(1 / 10)) = -(1 / 10) := by decide!
  rw [hmain (le_refl _) (by decide!), hmax]

/-- Claim C22. `applyVelocityFeedback` returns the target acceleration plus the PID output for
the low-pass filtered error `|target.vel| - |v|`, with integration enabled exactly when
`|v|` exceeds the integration threshold; started from the same controller, the inputs
`(target.vel, v)` and `(-target.vel, -v)` give the same acceleration and the same resulting
state. -/
theorem applyVelocityFeedback_direction_agnostic (p : Params) (ext : Ext) (s : Controller)
    (target_motion : Motion) (dt current_vel : ℚ) :
    (applyVelocityFeedback p ext s target_motion dt current_vel).1 =
        target_motion.acc +
          (ext.pid_calculate s.pid_vel
            (ext.lpf_filter s.lpf_vel_error (|target_motion.vel| - |current_vel|)).1 dt
            (decide (|current_vel| > p.current_vel_threshold_pid_integrate))).1 ∧
      applyVelocityFeedback p ext s { target_motion with vel := -target_motion.vel } dt
          (-current_vel) =
        applyVelocityFeedback p ext s target_motion dt current_vel := by
  constructor
  · rfl
  · simp only [applyVelocityFeedback, abs_neg]

/-- Claim C23. In every cycle through `calcCtrlCmd` the velocity of the returned command is the
velocity of the raw command the cycle stores, untouched by the shaping stage; in Drive it is
the velocity of the interpolated target point (brake keeping does not change it); in Stopping
and in Stopped it is the stopped-velocity setpoint. Outside Drive the call always returns. -/
theorem calcCtrlCmd_velocity (p : Params) (ext : Ext) (env : Env) (traj : Trajectory)
    (s : Controller) (st : ControlState) (cd : ControlData) (c : Motion × Controller)
    (h : calcCtrlCmd p ext env traj s st cd = .ok c) :
    c.1.vel = c.2.prev_raw_ctrl_cmd.vel ∧
      (st = DRIVE → ∃ tp, calcInterpolatedTargetValue env traj cd.nearest_idx = .ok tp ∧
        c.1.vel = tp.longitudinal_velocity_mps) ∧
      (st = STOPPING ∨ st = STOPPED → c.1.vel = p.stopped_state_params.vel) ∧
      (∀ st2 s2, st2 ≠ DRIVE → ∃ c2, calcCtrlCmd p ext env traj s2 st2 cd = .ok c2) := by
  obtain ⟨r, hr, hc⟩ := calcCtrlCmd_inv p ext env traj s st cd c h
  obtain ⟨_, h2, h3⟩ := calcRawCtrlCmd_inv p ext env traj s st cd r hr
  have hv : c.1.vel = r.1.vel := by rw [hc]
  have hraw : c.2.prev_raw_ctrl_cmd = r.1 := by
    rw [hc]
    simp only [calcFilteredAcc, storeAccelCmd_prev_raw]
  refine ⟨by rw [hv, hraw], ?_, ?_, ?_⟩
  · intro hd
    obtain ⟨tp, htp, e⟩ := h2 hd
    exact ⟨tp, htp, by rw [hv, e]⟩
  · intro hst
    rw [hv, h3 hst]
  · intro st2 s2 hst2
    obtain ⟨raw, hraw2⟩ := calcRawCtrlCmd_total p ext env traj s2 st2 cd hst2
    exact ⟨_, by simp only [calcCtrlCmd, hraw2, bind, Except.bind, pure, Except.pure]; rfl⟩

/-- Witness for `calcCtrlCmd_velocity`: the Drive cycle `envDrive` returns the command
(1, 0.2); its velocity is the velocity of the stored raw command (1, 2). -/
theorem calcCtrlCmd_velocity_witness :
    calcCtrlCmd flatParams sampleExt envDrive brakingTrajectory driveController DRIVE
        driveData = .ok ({ vel := 1, acc := 1 / 5 }, afterDriveCmd) ∧
      (1 : ℚ) = afterDriveCmd.prev_raw_ctrl_cmd.vel :=
  ⟨by decide!,
   (calcCtrlCmd_velocity flatParams sampleExt envDrive brakingTrajectory driveController DRIVE
     driveData ({ vel := 1, acc := 1 / 5 }, afterDriveCmd) (by decide!)).1⟩

/-- Claim C24. `setTrajectory` leaves the stored trajectory unchanged when the message is absent,
fails `isValidTrajectory` or has fewer than 2 points, and otherwise replaces it by the message;
it preserves the property that a stored trajectory has at least 2 points, so after any sequence
of calls that starts without a stored trajectory, a stored trajectory has at least 2 points. -/
theorem setTrajectory_accepts_valid_only (isValidTrajectory : Trajectory → Bool)
    (msg : Option Trajectory) (s : Controller) :
    (setTrajectory isValidTrajectory msg s =
      match msg with
      | none => s
      | some m =>
        if isValidTrajectory m = true ∧ 2 ≤ m.points.length then
          { s with trajectory_ptr := some m }
        else s) ∧
    ((∀ t, s.trajectory_ptr = some t → 2 ≤ t.points.length) →
      ∀ t, (setTrajectory isValidTrajectory msg s).trajectory_ptr = some t →
        2 ≤ t.points.length) ∧
    (∀ msgs : List (Option Trajectory), ∀ s0 : Controller, s0.trajectory_ptr = none →
      ∀ t, (msgs.foldl (fun c m => setTrajectory isValidTrajectory m c) s0).trajectory_ptr =
          some t → 2 ≤ t.points.length) := by
  have hstep : ∀ (m : Option Trajectory) (c : Controller),
      (∀ t, c.trajectory_ptr = some t → 2 ≤ t.points.length) →
      ∀ t, (setTrajectory isValidTrajectory m c).trajectory_ptr = some t →
        2 ≤ t.points.length := by
    intro m c hc t ht
    unfold setTrajectory at ht
    cases m with
    | none => exact hc t ht
    | some m =>
      simp only at ht
      split_ifs at ht with h1 h2
      · exact hc t ht
      · exact hc t ht
      · simp only [Option.some.injEq] at ht
        rw [← ht]
        exact not_lt.mp h2
  refine ⟨?_, hstep msg s, ?_⟩
  · unfold setTrajectory
    cases msg with
    | none => rfl
    | some m =>
      simp only
      by_cases h1 : isValidTrajectory m = true
      · by_cases h2 : m.points.length < 2
        · have h3 : ¬ 2 ≤ m.points.length := not_le.mpr h2
          simp [h1, h2, h3]
        · have h3 : 2 ≤ m.points.length := not_lt.mp h2
          simp [h1, h2, h3]
      · simp [h1]
  · have hfold : ∀ (msgs : List (Option Trajectory)) (c : Controller),
        (∀ t, c.trajectory_ptr = some t → 2 ≤ t.points.length) →
        ∀ t, (msgs.foldl (fun c m => setTrajectory isValidTrajectory m c) c).trajectory_ptr =
          some t → 2 ≤ t.points.length := by
      intro msgs
      induction msgs with
      | nil => intro c hc t ht; exact hc t ht
      | cons m rest ih =>
        intro c hc
        simp only [List.foldl_cons]
        exact ih _ (hstep m c hc)
    intro msgs s0 h0
    apply hfold msgs s0
    intro t ht
    rw [h0] at ht
    cases ht

/-- Claim C25. `run` returns no output and the unchanged controller whenever the current or the
previous velocity sample, or the trajectory, is missing, or the pose transform is unavailable;
after the first sample the previous-velocity slot is still empty, so `run` waits; once a
current sample exists, every further sample moves it to the previous-velocity slot, so after
two or more samples that slot holds the sample received immediately before the current one. -/
theorem run_waits_for_inputs (p : Params) (ext : Ext) (env : Env) (s : Controller) :
    ((s.current_velocity_ptr = none ∨ s.prev_velocity_ptr = none ∨ s.trajectory_ptr = none ∨
        env.can_transform = false) → run p ext env s = .ok (none, s)) ∧
    (∀ m, s.current_velocity_ptr = none → s.prev_velocity_ptr = none →
      (setCurrentVelocity (some m) s).current_velocity_ptr = some m ∧
      (setCurrentVelocity (some m) s).prev_velocity_ptr = none ∧
      run p ext env (setCurrentVelocity (some m) s) =
        .ok (none, setCurrentVelocity (some m) s)) ∧
    (∀ m c, s.current_velocity_ptr = some c →
      (setCurrentVelocity (some m) s).current_velocity_ptr = some m ∧
      (setCurrentVelocity (some m) s).prev_velocity_ptr = some c) ∧
    (∀ (l : List Odometry) (a b : Odometry),
      ((l ++ [a, b]).foldl (fun c m => setCurrentVelocity (some m) c) s).prev_velocity_ptr =
          some a ∧
        ((l ++ [a, b]).foldl (fun c m => setCurrentVelocity (some m) c) s).current_velocity_ptr =
          some b) ∧
    setCurrentVelocity none s = s := by
  have hrun : ∀ c : Controller,
      (c.current_velocity_ptr = none ∨ c.prev_velocity_ptr = none ∨ c.trajectory_ptr = none ∨
        env.can_transform = false) → run p ext env c = .ok (none, c) := by
    intro c h
    unfold run
    split
    · rename_i cur prev traj h1 h2 h3
      rcases h with h | h | h | h
      · rw [h] at h1; cases h1
      · rw [h] at h2; cases h2
      · rw [h] at h3; cases h3
      · simp [h]; rfl
    · rfl
  have hcur : ∀ (m : Odometry) (c : Controller),
      (setCurrentVelocity (some m) c).current_velocity_ptr = some m := by
    intro m c
    simp only [setCurrentVelocity]
  refine ⟨hrun s, ?_, ?_, ?_, rfl⟩
  · intro m h1 h2
    have e2 : (setCurrentVelocity (some m) s).prev_velocity_ptr = none := by
      simp only [setCurrentVelocity, h1, h2]
    exact ⟨hcur m s, e2, hrun _ (Or.inr (Or.inl e2))⟩
  · intro m c hc
    simp only [setCurrentVelocity, hc]
    exact ⟨trivial, trivial⟩
  · intro l a b
    rw [List.foldl_append]
    simp only [List.foldl_cons, List.foldl_nil]
    refine ⟨?_, hcur b _⟩
    have ha := hcur a (l.foldl (fun c m => setCurrentVelocity (some m) c) s)
    simp only [setCurrentVelocity, ha]

/-- Claim C26. If the stamps read by consecutive `storeAccelCmd` calls are non-decreasing, then
after any sequence of calls that starts from an empty history the stamps of the command
history are non-decreasing from oldest to newest. -/
theorem storeAccelCmdCalls_history_ordered (p : Params)
    (calls : List (Clock × ControlState × ℚ)) (s : Controller)
    (hempty : s.ctrl_cmd_vec = [])
    (hclock : List.Chain' (fun a b : Clock × ControlState × ℚ =>
      a.1.now_store_stamp ≤ b.1.now_store_stamp) calls) :
    List.Pairwise (fun a b : LongitudinalCommand => a.stamp ≤ b.stamp)
      (storeAccelCmdCalls p calls s).ctrl_cmd_vec := by
  haveI : IsTrans (Clock × ControlState × ℚ)
      (fun a b => a.1.now_store_stamp ≤ b.1.now_store_stamp) :=
    ⟨fun _ _ _ h1 h2 => le_trans h1 h2⟩
  have hpw := List.chain'_iff_pairwise.mp hclock
  cases calls with
  | nil => simp [storeAccelCmdCalls, hempty]
  | cons call rest =>
    apply storeAccelCmdCalls_sorted p (call :: rest) s call.1.now_store_stamp
    · rw [hempty]; exact List.Pairwise.nil
    · rw [hempty]; intro c hc; simp at hc
    · intro c hc
      rcases List.mem_cons.mp hc with hc | hc
      · rw [hc]
      · exact (List.pairwise_cons.mp hpw).1 c hc
    · exact hpw

/-- Witness for `storeAccelCmdCalls_history_ordered`: the calls `sampleCalls` on a controller
with an empty history. -/
theorem storeAccelCmdCalls_history_ordered_witness :
    ({} : Controller).ctrl_cmd_vec = [] ∧
      (storeAccelCmdCalls sampleParams sampleCalls {}).ctrl_cmd_vec =
        [{ stamp := 3 / 10, acceleration := 1 }] ∧
      List.Pairwise (fun a b : LongitudinalCommand => a.stamp ≤ b.stamp)
        (storeAccelCmdCalls sampleParams sampleCalls {}).ctrl_cmd_vec :=
  ⟨rfl, by decide!,
   storeAccelCmdCalls_history_ordered sampleParams sampleCalls {} rfl
     (List.chain'_cons.mpr ⟨by decide!, List.chain'_cons.mpr ⟨by decide!,
       List.chain'_cons.mpr ⟨by decide!, List.chain'_singleton _⟩⟩⟩)⟩

/-- Claim C27. In every cycle through `calcCtrlCmd` the previous raw command stored by the cycle
is the per-state raw command, before clamp, slope compensation and jerk limiting; when the
stored control state is not Drive the command history is empty afterwards, and when it is
Drive the history is the old history with one entry appended, stamped with the clock reading
of the call and carrying the clamped raw acceleration, possibly without its oldest entry. -/
theorem calcCtrlCmd_history_and_raw (p : Params) (ext : Ext) (env : Env) (traj : Trajectory)
    (s : Controller) (st : ControlState) (cd : ControlData) (c : Motion × Controller)
    (h : calcCtrlCmd p ext env traj s st cd = .ok c) :
    (∃ r, calcRawCtrlCmd p ext env traj s st cd = .ok r ∧ c.2.prev_raw_ctrl_cmd = r.1) ∧
      (s.control_state ≠ DRIVE → c.2.ctrl_cmd_vec = []) ∧
      (s.control_state = DRIVE →
        c.2.ctrl_cmd_vec =
            s.ctrl_cmd_vec ++
              [({ stamp := env.clock.now_store_stamp,
                  acceleration := clamp c.2.prev_raw_ctrl_cmd.acc p.min_acc p.max_acc } :
                LongitudinalCommand)] ∨
          c.2.ctrl_cmd_vec =
            (s.ctrl_cmd_vec ++
              [({ stamp := env.clock.now_store_stamp,
                  acceleration := clamp c.2.prev_raw_ctrl_cmd.acc p.min_acc p.max_acc } :
                LongitudinalCommand)]).tail) := by
  obtain ⟨r, hr, hc⟩ := calcCtrlCmd_inv p ext env traj s st cd c h
  obtain ⟨hvec, _, _⟩ := calcRawCtrlCmd_inv p ext env traj s st cd r hr
  obtain ⟨_, hcs⟩ := calcRawCtrlCmd_frame p ext env traj s st cd r hr
  have hsv := storeAccelCmd_vec p env.clock { r.2 with prev_raw_ctrl_cmd := r.1 }
    (clamp r.1.acc p.min_acc p.max_acc)
  have hraw : c.2.prev_raw_ctrl_cmd = r.1 := by
    rw [hc]
    simp only [calcFilteredAcc, storeAccelCmd_prev_raw]
  refine ⟨⟨r, hr, hraw⟩, ?_, ?_⟩
  · intro hnd
    have hnd2 : r.2.control_state ≠ DRIVE := by rw [hcs]; exact hnd
    rw [hc]
    simp only [calcFilteredAcc]
    exact hsv.1 hnd2
  · intro hd
    have hd2 : r.2.control_state = DRIVE := by rw [hcs]; exact hd
    rw [hraw, ← hvec, hc]
    simp only [calcFilteredAcc]
    exact hsv.2 hd2

/-- Witness for `calcCtrlCmd_history_and_raw`: the Drive cycle `envDrive` appends one entry with
the clamped raw acceleration 2 to the empty history. -/
theorem calcCtrlCmd_history_and_raw_witness :
    calcCtrlCmd flatParams sampleExt envDrive brakingTrajectory driveController DRIVE
        driveData = .ok ({ vel := 1, acc := 1 / 5 }, afterDriveCmd) ∧
      driveController.control_state = DRIVE ∧
      afterDriveCmd.ctrl_cmd_vec = [{ stamp := 0, acceleration := 2 }] :=
  ⟨by decide!, rfl,
   (((calcCtrlCmd_history_and_raw flatParams sampleExt envDrive brakingTrajectory
     driveController DRIVE driveData ({ vel := 1, acc := 1 / 5 }, afterDriveCmd) (by decide!)).2.2
       rfl).resolve_right (by decide!)).trans (by decide!)⟩

/-- Claim C28, refuted as stated. In the Drive cycle `envDrive` the new command-history entry
records the acceleration 2 (the clamped raw acceleration) while the command published for the
cycle has the acceleration 0.2 (after jerk limiting). -/
theorem run_drive_history_differs_from_published :
    ∃ out s e, run flatParams sampleExt envDrive driveController = .ok (some out, s) ∧
      s.control_state = DRIVE ∧ s.ctrl_cmd_vec = [e] ∧ e.acceleration = 2 ∧
      out.control_cmd.acceleration = 1 / 5 ∧
      e.acceleration ≠ out.control_cmd.acceleration :=
  ⟨{ control_cmd := { stamp := 0, speed := 1, acceleration := 1 / 5 } }, afterDriveCycle,
    { stamp := 0, acceleration := 2 }, by decide!, rfl, rfl, rfl, rfl, by decide!⟩

/-- Claim C28, amended. In every Drive cycle the acceleration recorded in the new
command-history entry is the raw acceleration clamped to `[min_acc, max_acc]`, before slope
compensation and jerk limiting, while the published acceleration is the jerk-limited,
slope-compensated clamped value; the two agree when slope compensation is disabled and the
step from the previous published acceleration respects the jerk limits. -/
theorem calcFilteredAcc_history_entry (p : Params) (ext : Ext) (clk : Clock) (s : Controller)
    (raw_acc : ℚ) (cd : ControlData) (hdrive : s.control_state = DRIVE) :
    (calcFilteredAcc p ext clk s raw_acc cd).2.ctrl_cmd_vec.getLast? =
        some { stamp := clk.now_store_stamp,
               acceleration := clamp raw_acc p.min_acc p.max_acc } ∧
      (calcFilteredAcc p ext clk s raw_acc cd).1 =
        applyDiffLimitFilter
          (applySlopeCompensation p ext (clamp raw_acc p.min_acc p.max_acc) cd.slope_angle
            cd.shift)
          s.prev_ctrl_cmd.acc cd.dt p.max_jerk p.min_jerk ∧
      (p.enable_slope_compensation = false → 0 < cd.dt →
        p.min_jerk ≤ (clamp raw_acc p.min_acc p.max_acc - s.prev_ctrl_cmd.acc) / cd.dt →
        (clamp raw_acc p.min_acc p.max_acc - s.prev_ctrl_cmd.acc) / cd.dt ≤ p.max_jerk →
        (calcFilteredAcc p ext clk s raw_acc cd).1 = clamp raw_acc p.min_acc p.max_acc) := by
  have hacc : (calcFilteredAcc p ext clk s raw_acc cd).1 =
      applyDiffLimitFilter
        (applySlopeCompensation p ext (clamp raw_acc p.min_acc p.max_acc) cd.slope_angle
          cd.shift)
        s.prev_ctrl_cmd.acc cd.dt p.max_jerk p.min_jerk := by
    simp only [calcFilteredAcc, (storeAccelCmd_frame p clk s _).1]
  refine ⟨?_, hacc, ?_⟩
  · simp only [calcFilteredAcc]
    exact storeAccelCmd_getLast p clk s _ hdrive
  · intro hs hdt h1 h2
    rw [hacc, applySlopeCompensation_disabled p ext _ _ _ hs]
    unfold applyDiffLimitFilter
    rw [max_eq_left h1, min_eq_left h2]
    field_simp

/-- Witness for `calcFilteredAcc_history_entry`: in Drive a raw acceleration 2 is recorded
as 2. -/
theorem calcFilteredAcc_history_entry_witness :
    driveController.control_state = DRIVE ∧
      (calcFilteredAcc flatParams sampleExt {} driveController 2 driveData).2.ctrl_cmd_vec.getLast?
        = some { stamp := ({} : Clock).now_store_stamp,
                 acceleration := clamp 2 flatParams.min_acc flatParams.max_acc } :=
  ⟨rfl,
   (calcFilteredAcc_history_entry flatParams sampleExt {} driveController 2 driveData rfl).1⟩

/-- Claim C29, refuted as stated. After a `storeAccelCmd` call at time 0.15 with a delay of
0.1 s the entry stamped 0 remains although it is 0.15 s old (its successor, stamped 0.08, is
inside the horizon); after a call at time 10 the oldest entry is removed and the entry
stamped 0.08 remains although it is 9.92 s old. -/
theorem storeAccelCmd_keeps_old_entries :
    (storeAccelCmd sampleParams (storeClockAt (3 / 20)) twoEntryController 1).ctrl_cmd_vec =
        [{ stamp := 0, acceleration := 1 }, { stamp := 2 / 25, acceleration := 1 },
         { stamp := 3 / 20, acceleration := 1 }] ∧
      (storeClockAt (3 / 20)).now_store_evict - 0 > sampleParams.delay_compensation_time ∧
      (storeAccelCmd sampleParams (storeClockAt 10) twoEntryController 1).ctrl_cmd_vec =
        [{ stamp := 2 / 25, acceleration := 1 }, { stamp := 10, acceleration := 1 }] ∧
      (storeClockAt 10).now_store_evict - 2 / 25 > sampleParams.delay_compensation_time := by
  decide!

/-- Claim C29, amended. After a `storeAccelCmd` call in Drive on a history that, with the new
entry, is ordered by stamp: the history is the appended one, or the appended one without its
oldest entry, and an entry is removed only if it is older than the delay horizon; when nothing
is removed and more than two entries remain, every entry except the oldest satisfies
`now - stamp ≤ delay_compensation_time`. The oldest remaining entry may be older than the
horizon. -/
theorem storeAccelCmd_eviction (p : Params) (clk : Clock) (s : Controller) (accel : ℚ)
    (hdrive : s.control_state = DRIVE)
    (hsorted : List.Pairwise (fun a b : LongitudinalCommand => a.stamp ≤ b.stamp)
      (s.ctrl_cmd_vec ++ [{ stamp := clk.now_store_stamp, acceleration := accel }])) :
    ((storeAccelCmd p clk s accel).ctrl_cmd_vec =
        s.ctrl_cmd_vec ++ [{ stamp := clk.now_store_stamp, acceleration := accel }] ∨
      ∃ c0, s.ctrl_cmd_vec ++ [{ stamp := clk.now_store_stamp, acceleration := accel }] =
          c0 :: (storeAccelCmd p clk s accel).ctrl_cmd_vec ∧
        clk.now_store_evict - c0.stamp > p.delay_compensation_time) ∧
      ((storeAccelCmd p clk s accel).ctrl_cmd_vec =
          s.ctrl_cmd_vec ++ [{ stamp := clk.now_store_stamp, acceleration := accel }] →
        2 < (storeAccelCmd p clk s accel).ctrl_cmd_vec.length →
        ∀ c ∈ (storeAccelCmd p clk s accel).ctrl_cmd_vec.tail,
          clk.now_store_evict - c.stamp ≤ p.delay_compensation_time) := by
  unfold storeAccelCmd
  simp only [hdrive, if_true]
  generalize hv : s.ctrl_cmd_vec ++
    [({ stamp := clk.now_store_stamp, acceleration := accel } : LongitudinalCommand)] = vec
    at hsorted ⊢
  split_ifs with hlen
  · exact ⟨Or.inl rfl, fun _ h2 => absurd h2 (not_lt.mpr hlen)⟩
  · match vec, hsorted, hlen with
    | [], _, hlen => simp at hlen
    | [_], _, hlen => simp at hlen
    | c0 :: c1 :: rest, hsorted, _ =>
      simp only
      have h01 : c0.stamp ≤ c1.stamp := (List.pairwise_cons.mp hsorted).1 c1 (by simp)
      have h1r : ∀ c ∈ rest, c1.stamp ≤ c.stamp :=
        (List.pairwise_cons.mp (List.pairwise_cons.mp hsorted).2).1
      split_ifs with hev
      · refine ⟨Or.inr ⟨c0, rfl, by linarith⟩, ?_⟩
        intro habs
        exfalso
        have := congrArg List.length habs
        simp at this
      · refine ⟨Or.inl rfl, ?_⟩
        intro _ _ c hc
        simp only [List.tail_cons, List.mem_cons] at hc
        push_neg at hev
        rcases hc with hc | hc
        · rw [hc]; exact hev
        · have := h1r c hc
          linarith

/-- Witness for `storeAccelCmd_eviction`: the call at time 0.15 on `twoEntryController` removes
nothing and leaves three entries; the second one, stamped 0.08, is inside the horizon. -/
theorem storeAccelCmd_eviction_witness :
    twoEntryController.control_state = DRIVE ∧
      (storeClockAt (3 / 20)).now_store_evict - (2 / 25 : ℚ) ≤
        sampleParams.delay_compensation_time :=
  ⟨rfl,
   (storeAccelCmd_eviction sampleParams (storeClockAt (3 / 20)) twoEntryController 1 rfl
     (by
       have hv : twoEntryController.ctrl_cmd_vec ++
           [({ stamp := (storeClockAt (3 / 20)).now_store_stamp, acceleration := 1 } :
             LongitudinalCommand)] =
           [{ stamp := 0, acceleration := 1 }, { stamp := 2 / 25, acceleration := 1 },
            { stamp := 3 / 20, acceleration := 1 }] := by decide!
       rw [hv]
       refine List.pairwise_cons.mpr
         ⟨?_, List.pairwise_cons.mpr ⟨?_, List.pairwise_singleton _ _⟩⟩
       · intro c hc
         simp only [List.mem_cons, List.mem_singleton, List.not_mem_nil, or_false] at hc
         rcases hc with hc | hc <;> rw [hc] <;> decide!
       · intro c hc
         simp only [List.mem_cons, List.mem_singleton, List.not_mem_nil, or_false] at hc
         rw [hc]; decide!)).2
     (by decide!) (by decide!) { stamp := 2 / 25, acceleration := 1 } (by decide!)⟩

/-- Claim C30. For a nearest index inside the trajectory `getCurrentShift` returns Forward when
the target velocity there is above 1e-5, Reverse when it is below -1e-5 and otherwise the
previous shift, so it returns Neutral only if the previous shift was Neutral; `getControlData`
returns, stores the shift as the previous shift and resets the PID exactly when the shift
differs from the previous one, so a nearest point with zero target velocity causes no PID
reset. -/
theorem getCurrentShift_and_pid_reset (p : Params) (ext : Ext) (env : Env)
    (cur prev : Odometry) (traj : Trajectory) (s : Controller) (nearest_idx : Nat)
    (pt : TrajectoryPoint) (hpt : traj.points[nearest_idx]? = some pt)
    (hnear : env.nearest_idx_opt = some nearest_idx) :
    getCurrentShift traj s nearest_idx =
        .ok (if pt.longitudinal_velocity_mps > 1 / 100000 then Shift.Forward
             else if pt.longitudinal_velocity_mps < -(1 / 100000) then Shift.Reverse
             else s.prev_shift) ∧
      (getCurrentShift traj s nearest_idx = .ok Shift.Neutral → s.prev_shift = Shift.Neutral) ∧
      (∃ cd s', getControlData p ext env cur prev traj s = .ok (cd, s') ∧
        getCurrentShift traj s nearest_idx = .ok cd.shift ∧
        s'.prev_shift = cd.shift ∧
        s'.pid_vel = (if cd.shift ≠ s.prev_shift then s.pid_vel.reset else s.pid_vel) ∧
        (pt.longitudinal_velocity_mps = 0 →
          cd.shift = s.prev_shift ∧ s'.pid_vel = s.pid_vel)) := by
  have hshift := getCurrentShift_eq traj s nearest_idx pt hpt
  refine ⟨hshift, ?_, ?_⟩
  · intro hn
    rw [hshift] at hn
    have hn2 := Except.ok.inj hn
    split_ifs at hn2 with h1 h2
    exact hn2
  · obtain ⟨r, hr⟩ := getControlData_total p ext env cur prev traj s nearest_idx pt hpt hnear
    obtain ⟨h1, h2, h3⟩ := getControlData_shift p ext env cur prev traj s nearest_idx hnear r hr
    refine ⟨r.1, r.2, hr, h1, h2, h3, ?_⟩
    intro h0
    have hs : r.1.shift = s.prev_shift := by
      rw [hshift] at h1
      have h1b := Except.ok.inj h1
      rw [← h1b, h0]
      norm_num
    exact ⟨hs, by rw [h3, if_neg (by simpa using hs)]⟩

/-- Witness for `getCurrentShift_and_pid_reset`: at the second point of `brakingTrajectory`
(target velocity 0.5 m/s) the shift is Forward. -/
theorem getCurrentShift_and_pid_reset_witness :
    brakingTrajectory.points[1]? = some ⟨1 / 2, -(1 / 10)⟩ ∧
      envBraking.nearest_idx_opt = some 1 ∧
      getCurrentShift brakingTrajectory freshController 1 = .ok Shift.Forward :=
  ⟨rfl, rfl,
   (getCurrentShift_and_pid_reset sampleParams sampleExt envBraking ⟨1 / 10, 0⟩ ⟨0, 0⟩
     brakingTrajectory freshController 1 ⟨1 / 2, -(1 / 10)⟩ rfl rfl).1.trans (by decide!)⟩

/-! ## Lemmas on reconfiguration and the acceleration bound -/

/-- The value `update_param` leaves in the variable. -/
theorem update_param_spec (parameters : List Parameter) (name : String) (v : ℚ) :
    ((∃ q ∈ parameters, q.name = name) →
        ∃ q ∈ parameters, q.name = name ∧ update_param parameters name v = q.value) ∧
      ((∀ q ∈ parameters, q.name ≠ name) → update_param parameters name v = v) := by
  unfold update_param
  constructor
  · intro hex
    cases hf : parameters.find? (fun parameter => parameter.name == name) with
    | none =>
      exfalso
      obtain ⟨q, hq, hn⟩ := hex
      have := List.find?_eq_none.mp hf q hq
      simp [hn] at this
    | some it =>
      have hmem := List.mem_of_find?_eq_some hf
      have hname := List.find?_some hf
      exact ⟨it, hmem, by simpa using hname, rfl⟩
  · intro hall
    cases hf : parameters.find? (fun parameter => parameter.name == name) with
    | none => rfl
    | some it =>
      exfalso
      have hmem := List.mem_of_find?_eq_some hf
      have hname := List.find?_some hf
      exact hall it hmem (by simpa using hname)

/-- With a Neutral shift the slope compensation adds nothing. -/
theorem applySlopeCompensation_neutral (p : Params) (ext : Ext) (input_acc pitch : ℚ) :
    applySlopeCompensation p ext input_acc pitch Shift.Neutral = input_acc := by
  simp [applySlopeCompensation]

/-! ## Claims on the transitions, reconfiguration and bounds -/

/-- Claim C31. `updateControlState` initialises the smooth-stop profile exactly when it is
called in Drive and returns Stopping, with the arguments `v_pred` and
`stop_dist - 0.5 * (v_pred + v) * delay_compensation_time`, where `v` is the current velocity
and `v_pred` the velocity predicted by `predictedVelocityInTargetPoint` for the current motion
and `delay_compensation_time`; on every other outcome the profile is left as it was. The
transition is taken exactly when the call is in Drive, the emergency condition is false, smooth
stop is enabled and `stop_dist < stopping_state_stop_dist`. -/
theorem updateControlState_smooth_stop_init (p : Params) (clk : Clock) (s : Controller)
    (st : ControlState) (cd : ControlData) :
    (updateControlState p clk s st cd).2.smooth_stop =
        (if st = DRIVE ∧ (updateControlState p clk s st cd).1 = STOPPING then
          s.smooth_stop.init
            (predictedVelocityInTargetPoint p clk s cd.current_motion p.delay_compensation_time)
            (cd.stop_dist -
              (1 / 2) *
                (predictedVelocityInTargetPoint p clk s cd.current_motion
                  p.delay_compensation_time + cd.current_motion.vel) *
                p.delay_compensation_time)
        else s.smooth_stop) ∧
      ((st = DRIVE ∧ (updateControlState p clk s st cd).1 = STOPPING) ↔
        (st = DRIVE ∧ emergencyCondition p cd = false ∧ p.enable_smooth_stop = true ∧
          cd.stop_dist < p.state_transition_params.stopping_state_stop_dist)) := by
  cases st
  · simp only [updateControlState, if_true, reduceCtorEq, if_false, true_and]
    split_ifs <;> first | exact ⟨rfl, by simp_all⟩ | simp_all
  · simp only [updateControlState, if_true, reduceCtorEq, if_false, false_and]
    split_ifs <;> exact ⟨rfl, by simp⟩
  · simp only [updateControlState, if_true, reduceCtorEq, if_false, false_and]
    split_ifs <;> exact ⟨rfl, by simp⟩
  · simp only [updateControlState, if_true, reduceCtorEq, if_false, false_and]
    split_ifs <;> exact ⟨rfl, by simp⟩

/-- Claim C32. For every parameter update list `paramCallback` sets `min_acc` to the value
listed under the name "min_acc" when the list has such an entry and leaves it unchanged
otherwise; it never changes `max_acc`, whatever the list names; and it reports success. -/
theorem paramCallback_acc_bounds (get_parameter : String → ℚ) (parameters : List Parameter)
    (p : Params) :
    ((∃ q ∈ parameters, q.name = "min_acc") →
        ∃ q ∈ parameters, q.name = "min_acc" ∧
          (paramCallback get_parameter parameters p).params.min_acc = q.value) ∧
      ((∀ q ∈ parameters, q.name ≠ "min_acc") →
        (paramCallback get_parameter parameters p).params.min_acc = p.min_acc) ∧
      (paramCallback get_parameter parameters p).params.max_acc = p.max_acc ∧
      (paramCallback get_parameter (⟨"max_acc", p.max_acc + 1⟩ :: parameters)
          p).params.max_acc = p.max_acc ∧
      (paramCallback get_parameter parameters p).result.successful = true :=
  ⟨(update_param_spec parameters "min_acc" p.min_acc).1,
   (update_param_spec parameters "min_acc" p.min_acc).2, rfl, rfl, rfl⟩

/-- Claim C33, refuted as stated. Under a configuration without slope compensation, with
`min_acc = -3 ≤ max_acc = -0.5` and `min_jerk = -1 ≤ 0 ≤ max_jerk = 1`, two consecutive
normal-path cycles with a cycle time of 0.1 s: the first publishes -1, inside the limits; the
second departs from Stopped to Drive and publishes -0.1, above `max_acc`. -/
theorem run_departure_leaves_acc_limits :
    run negativeLimitParams sampleExt envStay heldController =
        .ok (some (outputWithAcc (-1)), afterStay) ∧
      run negativeLimitParams sampleExt envDepart afterStay =
        .ok (some { control_cmd := { stamp := 0, speed := 1, acceleration := -(1 / 10) } },
          afterDepart) ∧
      negativeLimitParams.enable_slope_compensation = false ∧
      negativeLimitParams.min_acc ≤ negativeLimitParams.max_acc ∧
      negativeLimitParams.min_jerk ≤ 0 ∧ 0 ≤ negativeLimitParams.max_jerk ∧
      (getDt negativeLimitParams envDepart.clock afterStay).1 = 1 / 10 ∧
      negativeLimitParams.min_acc ≤ (outputWithAcc (-1)).control_cmd.acceleration ∧
      (outputWithAcc (-1)).control_cmd.acceleration ≤ negativeLimitParams.max_acc ∧
      negativeLimitParams.max_acc < -(1 / 10) := by
  decide!

/-- Claim C33, amended. With slope compensation disabled or a Neutral shift,
`min_jerk ≤ 0 ≤ max_jerk` and `dt > 0`: if the member `m_prev_ctrl_cmd.acc` lies in
`[min_acc, max_acc]` when `calcFilteredAcc` is called, the returned value lies in
`[min_acc, max_acc]` for every raw acceleration. `createCtrlCmdMsg` stores the published
acceleration in that member, and the `updateControlState` of the next cycle keeps the member
within the limits if `max_acc ≥ 0` or the call does not depart from Stopping or Stopped to
Drive. -/
theorem calcFilteredAcc_within_limits (p : Params) (ext : Ext) (clk : Clock) (s : Controller)
    (raw_acc : ℚ) (cd : ControlData)
    (hslope : p.enable_slope_compensation = false ∨ cd.shift = Shift.Neutral)
    (hminj : p.min_jerk ≤ 0) (hmaxj : 0 ≤ p.max_jerk) (hdt : 0 < cd.dt)
    (hlo : p.min_acc ≤ s.prev_ctrl_cmd.acc) (hhi : s.prev_ctrl_cmd.acc ≤ p.max_acc) :
    (p.min_acc ≤ (calcFilteredAcc p ext clk s raw_acc cd).1 ∧
        (calcFilteredAcc p ext clk s raw_acc cd).1 ≤ p.max_acc) ∧
      (∀ (clk2 : Clock) (vel current_vel : ℚ),
        (createCtrlCmdMsg p clk2 (calcFilteredAcc p ext clk s raw_acc cd).2
            { vel := vel, acc := (calcFilteredAcc p ext clk s raw_acc cd).1 }
            current_vel).2.prev_ctrl_cmd.acc =
          (calcFilteredAcc p ext clk s raw_acc cd).1) ∧
      (∀ (clk2 : Clock) (st : ControlState) (cd2 : ControlData),
        (0 ≤ p.max_acc ∨
          ¬ ((st = STOPPING ∨ st = STOPPED) ∧
            (updateControlState p clk2 s st cd2).1 = DRIVE)) →
        p.min_acc ≤ (updateControlState p clk2 s st cd2).2.prev_ctrl_cmd.acc ∧
          (updateControlState p clk2 s st cd2).2.prev_ctrl_cmd.acc ≤ p.max_acc) := by
  have hle : p.min_acc ≤ p.max_acc := le_trans hlo hhi
  obtain ⟨hc1, hc2⟩ := clamp_mem raw_acc p.min_acc p.max_acc hle
  have hsl : applySlopeCompensation p ext (clamp raw_acc p.min_acc p.max_acc) cd.slope_angle
      cd.shift = clamp raw_acc p.min_acc p.max_acc := by
    rcases hslope with h | h
    · exact applySlopeCompensation_disabled p ext _ _ _ h
    · rw [h]; exact applySlopeCompensation_neutral p ext _ _
  have hacc : (calcFilteredAcc p ext clk s raw_acc cd).1 =
      applyDiffLimitFilter (clamp raw_acc p.min_acc p.max_acc) s.prev_ctrl_cmd.acc cd.dt
        p.max_jerk p.min_jerk := by
    simp only [calcFilteredAcc, (storeAccelCmd_frame p clk s _).1, hsl]
  have hb := applyDiffLimitFilter_between (clamp raw_acc p.min_acc p.max_acc)
    s.prev_ctrl_cmd.acc cd.dt p.max_jerk p.min_jerk hdt hminj hmaxj
  refine ⟨?_, ?_, ?_⟩
  · rw [hacc]
    exact ⟨le_trans (le_min hlo hc1) hb.1, le_trans hb.2 (max_le hhi hc2)⟩
  · intro clk2 vel current_vel
    rfl
  · intro clk2 st cd2 hcase
    rcases updateControlState_prev_acc p clk2 s st cd2 with ⟨e, _⟩ | ⟨e, hdep⟩
    · rw [e]; exact ⟨hlo, hhi⟩
    · rcases hcase with hmax | hnd
      · rw [e]; exact ⟨le_trans hlo (le_max_right _ _), max_le hmax hhi⟩
      · exact absurd hdep hnd

/-- Witness for `calcFilteredAcc_within_limits`: under `flatParams` with a previous published
acceleration 0 and `dt = 0.1` the raw acceleration 2 is shaped to 0.2, inside [-5, 3]. -/
theorem calcFilteredAcc_within_limits_witness :
    (calcFilteredAcc flatParams sampleExt {} driveController 2 driveData).1 = 1 / 5 ∧
      flatParams.min_acc ≤ (calcFilteredAcc flatParams sampleExt {} driveController 2
        driveData).1 ∧
      (calcFilteredAcc flatParams sampleExt {} driveController 2 driveData).1 ≤
        flatParams.max_acc :=
  ⟨by decide!,
   (calcFilteredAcc_within_limits flatParams sampleExt {} driveController 2 driveData
     (Or.inl rfl) (by decide!) (by decide!) (by decide!) (by decide!) (by decide!)).1⟩

/-- Claim C34. In a cycle in which the vehicle is observed moving, with a non-negative
`stopped_state_entry_duration_time` and one clock reading for the cycle, `updateControlState`
called in Drive, Stopping or Emergency does not return Stopped. -/
theorem updateControlState_moving_not_stopped (p : Params) (clk : Clock) (s : Controller)
    (st : ControlState) (cd : ControlData)
    (hmoving : |cd.current_motion.vel| > p.state_transition_params.stopped_state_entry_vel ∨
      |cd.current_motion.acc| > p.state_transition_params.stopped_state_entry_acc)
    (hdur : 0 ≤ p.state_transition_params.stopped_state_entry_duration_time)
    (hclk : clk.now_running = clk.now_stopped)
    (hst : st = DRIVE ∨ st = STOPPING ∨ st = EMERGENCY) :
    (updateControlState p clk s st cd).1 ≠ STOPPED := by
  have hrun : isRunning p cd = true := by
    simp only [isRunning, Bool.or_eq_true, decide_eq_true_eq]
    exact hmoving
  have hlrt : updateLastRunningTime p clk s cd = some clk.now_running := by
    simp [updateLastRunningTime, hrun]
  have hsc : stoppedCondition p clk (some clk.now_running) = false := by
    simp only [stoppedCondition, hclk, sub_self, decide_eq_false_iff_not, not_lt]
    exact hdur
  rcases hst with h | h | h
  · subst h
    unfold updateControlState
    simp only [hlrt, hsc, if_true]
    split_ifs <;> simp_all
  · subst h
    unfold updateControlState
    simp only [hlrt, hsc, if_true]
    split_ifs <;> simp_all
  · subst h
    unfold updateControlState
    simp only [hlrt, hsc, if_true]
    split_ifs <;> simp_all

/-- Witness for `updateControlState_moving_not_stopped`: a vehicle moving at 1 m/s in Drive. -/
theorem updateControlState_moving_not_stopped_witness :
    |movingData.current_motion.vel| >
        sampleParams.state_transition_params.stopped_state_entry_vel ∧
      (updateControlState sampleParams {} driveController DRIVE movingData).1 = DRIVE ∧
      (updateControlState sampleParams {} driveController DRIVE movingData).1 ≠ STOPPED :=
  ⟨by decide!, by decide!,
   updateControlState_moving_not_stopped sampleParams {} driveController DRIVE movingData
     (Or.inl (by decide!)) (by decide!) rfl (Or.inl rfl)⟩

/-- Claim C35. When the stop index, if there is one, lies inside the trajectory,
`keepBrakeBeforeStop` returns a motion with the target velocity and an acceleration not above
the target acceleration: the acceleration is the target acceleration, or it is
`max brake_keeping_acc m` for the minimum `m` found by the backward scan from the stop index
and then strictly below the target acceleration. With brake keeping disabled or without a stop
index the target motion is returned unchanged. -/
theorem keepBrakeBeforeStop_only_lowers (p : Params) (env : Env) (traj : Trajectory)
    (target_motion : Motion) (nearest_idx : Nat)
    (hstop : ∀ i, env.stop_idx = some i → i < traj.points.length) :
    ∃ out, keepBrakeBeforeStop p env traj target_motion nearest_idx = .ok out ∧
      out.vel = target_motion.vel ∧ out.acc ≤ target_motion.acc ∧
      (out.acc = target_motion.acc ∨
        ∃ stop_idx pt m idx, env.stop_idx = some stop_idx ∧
          traj.points[stop_idx]? = some pt ∧
          scanBack traj.points stop_idx pt.acceleration_mps2 stop_idx = .ok (m, idx) ∧
          out.acc = max p.brake_keeping_acc m ∧ out.acc < target_motion.acc) ∧
      (p.enable_brake_keeping_before_stop = false ∨ env.stop_idx = none →
        out = target_motion) := by
  unfold keepBrakeBeforeStop
  by_cases hen : p.enable_brake_keeping_before_stop = false
  · rw [if_pos hen]
    exact ⟨target_motion, rfl, rfl, le_refl _, Or.inl rfl, fun _ => rfl⟩
  · rw [if_neg hen]
    cases hs : env.stop_idx with
    | none => exact ⟨target_motion, rfl, rfl, le_refl _, Or.inl rfl, fun _ => rfl⟩
    | some stop_idx =>
      have hlt := hstop stop_idx hs
      have hget : traj.points[stop_idx]? = some traj.points[stop_idx] :=
        List.getElem?_eq_getElem hlt
      obtain ⟨m, idx, h1, _, _, _⟩ := scanBack_spec traj.points stop_idx
        traj.points[stop_idx].acceleration_mps2 stop_idx (Nat.le_of_lt hlt) (le_refl _)
        ⟨traj.points[stop_idx], hget, rfl⟩
      simp only [hget, h1, bind, Except.bind, pure, Except.pure]
      split_ifs with hc
      · refine ⟨_, rfl, rfl, le_of_lt hc.2, Or.inr ⟨stop_idx, _, m, idx, rfl, hget, h1, rfl,
          hc.2⟩, ?_⟩
        intro h
        rcases h with h | h
        · exact absurd h hen
        · cases h
      · refine ⟨_, rfl, rfl, le_refl _, Or.inl rfl, ?_⟩
        intro h
        rcases h with h | h
        · exact absurd h hen
        · cases h

/-- Witness for `keepBrakeBeforeStop_only_lowers`: on `brakingTrajectory` the target
acceleration 0 at index 1 is lowered to -0.1 and the target velocity 0.5 is kept. -/
theorem keepBrakeBeforeStop_only_lowers_witness :
    (∀ i, envBraking.stop_idx = some i → i < brakingTrajectory.points.length) ∧
      ∃ out, keepBrakeBeforeStop brakeKeepingParams envBraking brakingTrajectory
          { vel := 1 / 2, acc := 0 } 1 = .ok out ∧
        out.vel = 1 / 2 ∧ out.acc ≤ 0 :=
  have hstop : ∀ i, envBraking.stop_idx = some i → i < brakingTrajectory.points.length := by
    intro i hi
    cases hi
    decide
  ⟨hstop,
   (keepBrakeBeforeStop_only_lowers brakeKeepingParams envBraking brakingTrajectory
     { vel := 1 / 2, acc := 0 } 1 hstop).imp (fun _ h => ⟨h.1, h.2.1, h.2.2.1⟩)⟩

/-- Claim C36. For a non-empty command history whose oldest entry `(t_0, a_0)` is younger than
the delay horizon and a current velocity `v` with `|v| ≥ 0.1`, the predicted velocity is
computed from `|v| + a_0 * delay` alone: it is that magnitude with the sign of `v` when the
magnitude is positive and 0 otherwise; the later entries and the other clock readings do not
enter. -/
theorem predictedVelocity_young_history (p : Params) (clk : Clock) (s : Controller)
    (current_motion : Motion) (delay_compensation_time : ℚ) (c0 : LongitudinalCommand)
    (rest : List LongitudinalCommand)
    (hv : 1 / 10 ≤ |current_motion.vel|)
    (hhist : s.ctrl_cmd_vec = c0 :: rest)
    (hyoung : clk.now_pred_loop 0 - c0.stamp < p.delay_compensation_time) :
    predictedVelocityInTargetPoint p clk s current_motion delay_compensation_time =
        (if |current_motion.vel| + c0.acceleration * delay_compensation_time > 0 then
          (if current_motion.vel < 0 then
            -(|current_motion.vel| + c0.acceleration * delay_compensation_time)
          else |current_motion.vel| + c0.acceleration * delay_compensation_time)
        else 0) ∧
      (∀ (clk2 : Clock) (s2 : Controller) (rest2 : List LongitudinalCommand),
        s2.ctrl_cmd_vec = c0 :: rest2 →
        clk2.now_pred_loop 0 - c0.stamp < p.delay_compensation_time →
        predictedVelocityInTargetPoint p clk2 s2 current_motion delay_compensation_time =
          predictedVelocityInTargetPoint p clk s current_motion delay_compensation_time) := by
  have key : ∀ (clk1 : Clock) (s1 : Controller) (rest1 : List LongitudinalCommand),
      s1.ctrl_cmd_vec = c0 :: rest1 →
      clk1.now_pred_loop 0 - c0.stamp < p.delay_compensation_time →
      predictedVelocityInTargetPoint p clk1 s1 current_motion delay_compensation_time =
        (if |current_motion.vel| + c0.acceleration * delay_compensation_time > 0 then
          (if current_motion.vel < 0 then
            -(|current_motion.vel| + c0.acceleration * delay_compensation_time)
          else |current_motion.vel| + c0.acceleration * delay_compensation_time)
        else 0) := by
    intro clk1 s1 rest1 h1 h2
    unfold predictedVelocityInTargetPoint
    simp only [h1, if_neg (not_lt.mpr hv), if_pos h2, signFix, copysign]
    split_ifs with h3 h4
    · rw [abs_of_pos h3]
    · rw [abs_of_pos h3]
    · rfl
  refine ⟨key clk s rest hhist hyoung, ?_⟩
  intro clk2 s2 rest2 h1 h2
  rw [key clk2 s2 rest2 h1 h2, key clk s rest hhist hyoung]

/-- Witness for `predictedVelocity_young_history`: with the history `sampleHistory`, whose
oldest entry is stamped 0 with acceleration 1, read at time 0.05 with a delay of 0.1 s, a
velocity of -1 m/s is predicted as -1.1 m/s. -/
theorem predictedVelocity_young_history_witness :
    (1 / 10 : ℚ) ≤ |({ vel := -1, acc := 0 } : Motion).vel| ∧
      predictedVelocityInTargetPoint sampleParams (predClockAt (1 / 20)) historyController
        { vel := -1, acc := 0 } (1 / 10) = -(11 / 10) :=
  ⟨by decide!,
   (predictedVelocity_young_history sampleParams (predClockAt (1 / 20)) historyController
     { vel := -1, acc := 0 } (1 / 10) { stamp := 0, acceleration := 1 }
     [{ stamp := 1 / 20, acceleration := 2 }, { stamp := 3 / 25, acceleration := -1 }]
     (by decide!) rfl (by decide!)).1.trans (by decide!)⟩

/-- Claim C37. One `storeAccelCmd` call in Drive leaves the appended history as it is or
removes its oldest entry. An entry is removed (the history is as long after the call as it was
before the append) exactly when the appended history has more than two entries and its
second-oldest entry is older than the delay horizon; so at least two entries remain after a
removal, and the oldest entry is kept whenever its successor is inside the horizon. -/
theorem storeAccelCmd_removes_at_most_oldest (p : Params) (clk : Clock) (s : Controller)
    (accel : ℚ) (hdrive : s.control_state = DRIVE) :
    ((storeAccelCmd p clk s accel).ctrl_cmd_vec =
        s.ctrl_cmd_vec ++
          [({ stamp := clk.now_store_stamp, acceleration := accel } : LongitudinalCommand)] ∨
      (storeAccelCmd p clk s accel).ctrl_cmd_vec =
        (s.ctrl_cmd_vec ++
          [({ stamp := clk.now_store_stamp, acceleration := accel } :
            LongitudinalCommand)]).tail) ∧
      ((storeAccelCmd p clk s accel).ctrl_cmd_vec.length = s.ctrl_cmd_vec.length ↔
        ∃ c0 c1 c2 rest,
          s.ctrl_cmd_vec ++
              [({ stamp := clk.now_store_stamp, acceleration := accel } :
                LongitudinalCommand)] =
            c0 :: c1 :: c2 :: rest ∧
          clk.now_store_evict - c1.stamp > p.delay_compensation_time) ∧
      ((storeAccelCmd p clk s accel).ctrl_cmd_vec.length = s.ctrl_cmd_vec.length →
        2 ≤ (storeAccelCmd p clk s accel).ctrl_cmd_vec.length) ∧
      (∀ c0 c1 rest,
        s.ctrl_cmd_vec ++
            [({ stamp := clk.now_store_stamp, acceleration := accel } :
              LongitudinalCommand)] =
          c0 :: c1 :: rest →
        clk.now_store_evict - c1.stamp ≤ p.delay_compensation_time →
        (storeAccelCmd p clk s accel).ctrl_cmd_vec = c0 :: c1 :: rest) := by
  have hlen : (s.ctrl_cmd_vec ++
      [({ stamp := clk.now_store_stamp, acceleration := accel } : LongitudinalCommand)]).length =
      s.ctrl_cmd_vec.length + 1 := by simp
  unfold storeAccelCmd
  simp only [hdrive, if_true]
  generalize s.ctrl_cmd_vec ++
    [({ stamp := clk.now_store_stamp, acceleration := accel } : LongitudinalCommand)] = vec
    at hlen ⊢
  match vec, hlen with
  | [], hlen => simp at hlen
  | [c0], hlen =>
    simp at hlen
    simp [hlen]
  | [c0, c1], hlen =>
    simp at hlen
    simp [hlen]
    intro _ _ _ h1 h2 h3 _
    exact ⟨h1, h2, h3⟩
  | c0 :: c1 :: c2 :: rest, hlen =>
    simp only [List.length_cons] at hlen
    have hn : ¬ (rest.length + 1 + 1 + 1 ≤ 2) := by omega
    simp only [List.length_cons, hn, if_false, List.tail_cons]
    by_cases hev : clk.now_store_evict - c1.stamp > p.delay_compensation_time
    · rw [if_pos hev]
      refine ⟨Or.inr rfl, ?_, ?_, ?_⟩
      · constructor
        · intro _
          exact ⟨c0, c1, c2, rest, rfl, hev⟩
        · intro _
          simp only [List.length_cons]
          omega
      · intro _
        simp only [List.length_cons]
        omega
      · intro d0 d1 r he hle
        injection he with _ he
        injection he with h1 _
        rw [h1] at hev
        exact absurd hev (not_lt.mpr hle)
    · rw [if_neg hev]
      refine ⟨Or.inl rfl, ?_, ?_, ?_⟩
      · constructor
        · intro h
          simp only [List.length_cons] at h
          omega
        · rintro ⟨d0, d1, d2, r, he, hd⟩
          injection he with _ he
          injection he with h1 _
          rw [← h1] at hd
          exact absurd hd hev
      · intro h
        simp only [List.length_cons] at h
        omega
      · intro d0 d1 r he _
        exact he

/-- Witness for `storeAccelCmd_removes_at_most_oldest`: from the two entries stamped 0 and
0.08, a call at time 10 removes the entry stamped 0 and leaves two entries. -/
theorem storeAccelCmd_removes_at_most_oldest_witness :
    twoEntryController.control_state = DRIVE ∧
      (storeAccelCmd sampleParams (storeClockAt 10) twoEntryController 1).ctrl_cmd_vec =
        [{ stamp := 2 / 25, acceleration := 1 }, { stamp := 10, acceleration := 1 }] ∧
      2 ≤ (storeAccelCmd sampleParams (storeClockAt 10) twoEntryController
        1).ctrl_cmd_vec.length :=
  ⟨rfl, by decide!,
   (storeAccelCmd_removes_at_most_oldest sampleParams (storeClockAt 10) twoEntryController 1
     rfl).2.2.1 (by decide!)⟩

end PidLongitudinalController
